import Mathlib

/-!
# JM H.264 reference software: decoder macroblock layer and encoder support

A shallow embedding of selected routines of the JM reference decoder
(`ldecod/src/macroblock.c`) and encoder (`lencod/src/intrarefresh.c`,
`lencod/src/me_epzs_common.c`, `lencod/src/rd_intra_jm444.c`), followed by
theorems about them.

Conventions of the embedding:
* C `int` values are `Int`. Unless a definition says otherwise, arithmetic is
  modelled where no signed overflow occurs; the intra-refresh cursor, which
  grows without bound, the sums of the EPZS stop criterion, the EPZS threshold
  loop, the temporal direct vectors and the run loop of the coefficient reader
  are reduced to 32 bits with `wrap32`, and values stored in a `short` to
  16 bits with `wrap16`.
* C `double` values are rationals (`Rat`).
* C `/` and `%` are `Int.tdiv` and `Int.tmod` (truncation toward zero);
  `>>` on a signed value is the arithmetic shift `Int.shiftRight`.
* Arrays that the routines only read are functions from indices to values;
  small constant tables are lists read with `[i]?`, so that an index outside
  the table is visible as `none`.
* Enumeration constants that live in headers outside the modelled files
  (`FRAME`, `B_IMG_1`, `DC_PRED`, ...) are fields of `Defines`.
-/

namespace JM

/-! ## Helper macros -/

/-- Modelled from the spec: the macro `min` of the decoder's header, used in
`median(a,b,c) = a+b+c-min(a,b,c)-max(a,b,c)`; the smaller of `a` and `b`. -/
def cmin (a b : Int) : Int := if a < b then a else b

/-- Modelled from the spec: the macro `max` of the decoder's header, used in
`median(a,b,c) = a+b+c-min(a,b,c)-max(a,b,c)`; the larger of `a` and `b`. -/
def cmax (a b : Int) : Int := if a > b then a else b

/-- Enumeration constants and limits defined in headers of the decoder, which
are outside the modelled files: the routines take them as a parameter. -/
structure Defines where
  FRAME : Int
  B_IMG_1 : Int
  B_IMG_MULT : Int
  DC_PRED : Int
  IBLOCK : Int
  I4MB : Int
  I16MB : Int
  NO_ABT : Int
  INTER_INTRA_ABT : Int
  USEABT : Int
  MIN_QP : Int
  MAX_QP : Int

/-- Modelled from the spec: the header constant `MB_BLOCK_SIZE`, the macroblock
size of 16 luma samples. -/
def MB_BLOCK_SIZE : Int := 16

/-! ## `SetMotionVectorPredictor` (ldecod/src/macroblock.c) -/

/-- The fields of `struct img_par` read by `SetMotionVectorPredictor`. -/
structure img_par where
  block_x : Int
  block_y : Int
  width : Int
  mb_x : Int
  mb_y : Int
  structure_ : Int
  mb_field : Int
  current_mb_nr : Int
  type : Int
  mb_frame_field_flag : Int
  mv_top : Int → Int → Int → Int
  mv_bot : Int → Int → Int → Int

/-- The motion-vector prediction rule selected for a block. -/
inductive MvPredType where
  | MVPRED_MEDIAN
  | MVPRED_L
  | MVPRED_U
  | MVPRED_UR
  deriving DecidableEq

/-- Macroblock-level context computed at the top of
`SetMotionVectorPredictor`: picture block coordinates, the availability of the
neighbouring macroblocks and the motion-vector array in use. -/
structure MbContext where
  pic_block_x : Int
  pic_block_y : Int
  mb_available_up : Bool
  mb_available_left : Bool
  mb_available_upleft : Bool
  mb_available_upright : Bool
  tmp_mv : Int → Int → Int → Int

/-- Whether the macroblock is a field macroblock of a frame picture:
`img->structure==FRAME && img->mb_field`. -/
def isFieldMb (D : Defines) (img : img_par) : Bool :=
  img.structure_ == D.FRAME && img.mb_field != 0

/-- The first part of `SetMotionVectorPredictor`: the three-way branch on field
macroblock (top / bottom) versus frame macroblock. -/
def mbContext (D : Defines) (img : img_par) (tmp_mv : Int → Int → Int → Int)
    (block_x block_y : Int) : MbContext :=
  let mb_x := 4 * block_x
  let mb_y := 4 * block_y
  let mb_width := Int.tdiv img.width 16
  let isB : Bool := img.type == D.B_IMG_1 || img.type == D.B_IMG_MULT
  if isFieldMb D img then
    if Int.tmod img.current_mb_nr 2 == 0 then
      { pic_block_x := img.block_x + Int.shiftRight mb_x 2
        pic_block_y := Int.tdiv img.block_y 2 + Int.shiftRight mb_y 2
        mb_available_up := !(img.mb_y == 0)
        mb_available_left := !(img.mb_x == 0)
        mb_available_upleft := !(img.mb_x == 0 || img.mb_y == 0)
        mb_available_upright := !(decide (img.mb_x ≥ mb_width - 1) || img.mb_y == 0)
        tmp_mv := if !isB then img.mv_top else tmp_mv }
    else
      { pic_block_x := img.block_x + Int.shiftRight mb_x 2
        pic_block_y := Int.tdiv (img.block_y - 4) 2 + Int.shiftRight mb_y 2
        mb_available_up := !(img.mb_y == 1)
        mb_available_left := !(img.mb_x == 0)
        mb_available_upleft := !(img.mb_x == 0 || img.mb_y == 1)
        mb_available_upright := false
        tmp_mv := if !isB then img.mv_bot else tmp_mv }
  else
    let upright : Bool := !(decide (img.mb_x ≥ mb_width - 1) || img.mb_y == 0)
    { pic_block_x := img.block_x + block_x
      pic_block_y := img.block_y + block_y
      mb_available_up := !(img.mb_y == 0)
      mb_available_left := !(img.mb_x == 0)
      mb_available_upleft := !(img.mb_x == 0 || img.mb_y == 0)
      mb_available_upright :=
        if img.mb_frame_field_flag != 0 then
          (if Int.tmod img.mb_y 2 != 0 then false else upright)
        else upright
      tmp_mv := tmp_mv }

/-- Block-level availability of the four neighbours A (left), B (up),
C (up-right) and D (up-left). -/
structure BlockAvail where
  block_available_up : Bool
  block_available_left : Bool
  block_available_upright : Bool
  block_available_upleft : Bool
  deriving DecidableEq

/-- The block-availability part of `SetMotionVectorPredictor`. -/
def blockAvail (c : MbContext) (block_x block_y blockshape_x : Int) : BlockAvail :=
  let mb_x := 4 * block_x
  let mb_y := 4 * block_y
  let block_available_up : Bool := c.mb_available_up || decide (mb_y > 0)
  let block_available_left : Bool := c.mb_available_left || decide (mb_x > 0)
  let block_available_upright : Bool :=
    if mb_y > 0 then
      if mb_x < 8 then
        if mb_y = 8 then
          (if blockshape_x = 16 then false else true)
        else
          (if mb_x + blockshape_x ≠ 8 then true else false)
      else
        (if mb_x + blockshape_x ≠ 16 then true else false)
    else if mb_x + blockshape_x ≠ MB_BLOCK_SIZE then
      block_available_up
    else
      c.mb_available_upright
  let block_available_upleft : Bool :=
    if mb_x > 0 then
      (if mb_y > 0 then true else c.mb_available_up)
    else if mb_y > 0 then
      c.mb_available_left
    else
      c.mb_available_upleft
  { block_available_up := block_available_up
    block_available_left := block_available_left
    block_available_upright := block_available_upright
    block_available_upleft := block_available_upleft }

/-- The reference index read for the left neighbour, `rFrameL`. -/
def rFrameL (c : MbContext) (a : BlockAvail) (refFrArr : Int → Int → Int) : Int :=
  if a.block_available_left then refFrArr c.pic_block_y (c.pic_block_x - 1) else -1

/-- The reference index read for the upper neighbour, `rFrameU`. -/
def rFrameU (c : MbContext) (a : BlockAvail) (refFrArr : Int → Int → Int) : Int :=
  if a.block_available_up then refFrArr (c.pic_block_y - 1) c.pic_block_x else -1

/-- The reference index read for the upper-right neighbour (or its upper-left
substitute), `rFrameUR`. -/
def rFrameUR (c : MbContext) (a : BlockAvail) (refFrArr : Int → Int → Int)
    (blockshape_x : Int) : Int :=
  if a.block_available_upright then
    refFrArr (c.pic_block_y - 1) (c.pic_block_x + Int.tdiv blockshape_x 4)
  else if a.block_available_upleft then
    refFrArr (c.pic_block_y - 1) (c.pic_block_x - 1)
  else -1

/-- The selection of `mvPredType` from the three neighbour reference indices,
the block shape and the block position inside the macroblock. -/
def mvPredType (rL rU rUR ref_frame mb_x mb_y blockshape_x blockshape_y : Int) :
    MvPredType :=
  if rL = ref_frame ∧ rU ≠ ref_frame ∧ rUR ≠ ref_frame then MvPredType.MVPRED_L
  else if rL ≠ ref_frame ∧ rU = ref_frame ∧ rUR ≠ ref_frame then MvPredType.MVPRED_U
  else if rL ≠ ref_frame ∧ rU ≠ ref_frame ∧ rUR = ref_frame then MvPredType.MVPRED_UR
  else if blockshape_x = 8 ∧ blockshape_y = 16 then
    if mb_x = 0 then
      (if rL = ref_frame then MvPredType.MVPRED_L else MvPredType.MVPRED_MEDIAN)
    else
      (if rUR = ref_frame then MvPredType.MVPRED_UR else MvPredType.MVPRED_MEDIAN)
  else if blockshape_x = 16 ∧ blockshape_y = 8 then
    if mb_y = 0 then
      (if rU = ref_frame then MvPredType.MVPRED_U else MvPredType.MVPRED_MEDIAN)
    else
      (if rL = ref_frame then MvPredType.MVPRED_L else MvPredType.MVPRED_MEDIAN)
  else MvPredType.MVPRED_MEDIAN

/-- One iteration (component `hv`) of the final loop of
`SetMotionVectorPredictor`: the value of `pred_vec` written to `*pmv_x`
(`hv = 0`) or `*pmv_y` (`hv = 1`). -/
def predVec (c : MbContext) (a : BlockAvail) (t : MvPredType) (blockshape_x hv : Int) :
    Int :=
  let mv_a := if a.block_available_left then
    c.tmp_mv (4 + c.pic_block_x - 1) c.pic_block_y hv else 0
  let mv_b := if a.block_available_up then
    c.tmp_mv (4 + c.pic_block_x) (c.pic_block_y - 1) hv else 0
  let mv_d := if a.block_available_upleft then
    c.tmp_mv (4 + c.pic_block_x - 1) (c.pic_block_y - 1) hv else 0
  let mv_c := if a.block_available_upright then
    c.tmp_mv (4 + c.pic_block_x + Int.tdiv blockshape_x 4) (c.pic_block_y - 1) hv else mv_d
  match t with
  | MvPredType.MVPRED_MEDIAN =>
    if !(a.block_available_upleft || a.block_available_up || a.block_available_upright) then
      mv_a
    else
      mv_a + mv_b + mv_c - cmin mv_a (cmin mv_b mv_c) - cmax mv_a (cmax mv_b mv_c)
  | MvPredType.MVPRED_L => mv_a
  | MvPredType.MVPRED_U => mv_b
  | MvPredType.MVPRED_UR => mv_c

/-- The routine `SetMotionVectorPredictor`; the result is `(*pmv_x, *pmv_y)`. -/
def SetMotionVectorPredictor (D : Defines) (img : img_par) (ref_frame : Int)
    (refFrArr : Int → Int → Int) (tmp_mv : Int → Int → Int → Int)
    (block_x block_y blockshape_x blockshape_y : Int) : Int × Int :=
  let c := mbContext D img tmp_mv block_x block_y
  let a := blockAvail c block_x block_y blockshape_x
  let t := mvPredType (rFrameL c a refFrArr) (rFrameU c a refFrArr)
    (rFrameUR c a refFrArr blockshape_x) ref_frame (4 * block_x) (4 * block_y)
    blockshape_x blockshape_y
  (predVec c a t blockshape_x 0, predVec c a t blockshape_x 1)

/-! ## Intra prediction modes: `read_ipred_modes` (ldecod/src/macroblock.c) -/

/-- A read `t[i]` of a constant table at a C `int` index; `none` when the index
lies outside the table. -/
def tabGet (t : List Int) (i : Int) : Option Int :=
  if 0 ≤ i then t[i.toNat]? else none

/-- The table `mapTab[9]` of `read_ipred_modes`. -/
def mapTab : List Int := [2, 0, 1, 4, 3, 5, 7, 8, 6]

/-- The table `revMapTab[9]` of `read_ipred_modes`. -/
def revMapTab : List Int := [1, 2, 0, 4, 3, 5, 8, 6, 7]

/-- The neighbour mode used for prediction: the stored `ipredmode` entry, or
`DC_PRED` when the neighbour is an SI block (`ts`/`ls` set). -/
def neighbourIntraPredMode (D : Defines) (si : Int) (stored : Int) : Int :=
  if si = 0 then stored else D.DC_PRED

/-- The expression assigned to `mostProbableIntraPredMode` in
`read_ipred_modes`. -/
def mostProbableIntraPredMode (D : Defines) (upIntraPredMode leftIntraPredMode : Int) :
    Option Int :=
  if upIntraPredMode < 0 ∨ leftIntraPredMode < 0 then some D.DC_PRED
  else
    match tabGet mapTab upIntraPredMode, tabGet mapTab leftIntraPredMode with
    | some ru, some rl => some (if ru < rl then upIntraPredMode else leftIntraPredMode)
    | _, _ => none

/-- The expression assigned to `dec` in `read_ipred_modes`: the decoded intra
mode for the transmitted value `value1` and the most probable mode. -/
def decodeIntraPredMode (value1 mostProbable : Int) : Option Int :=
  if value1 = -1 then some mostProbable
  else
    match tabGet mapTab mostProbable with
    | some r => tabGet revMapTab (value1 + (if value1 ≥ r then 1 else 0))
    | none => none

/-! ## Intra mode signalling in the encoder (lencod/src/rd_intra_jm444.c) -/

/-- The value stored in `currMB->intra_pred_modes[4*b8+b4]` by
`Mode_Decision_for_4x4IntraBlocks_JM_High444`. -/
def intraPredModeCode (mostProbableMode best_ipmode : Int) : Int :=
  if mostProbableMode = best_ipmode then -1
  else if best_ipmode < mostProbableMode then best_ipmode else best_ipmode - 1

/-! ## `interpret_mb_mode_I` (ldecod/src/macroblock.c) -/

/-- The fields of `Macroblock` written by the macroblock-mode interpreters. -/
structure Macroblock where
  mb_type : Int
  b8mode : List Int
  b8pdir : List Int
  useABT : List Int
  cbp : Int
  i16mode : Int
  deriving DecidableEq

/-- The table `ICBPTAB[6]`. -/
def ICBPTAB : List Int := [0, 16, 32, 15, 31, 47]

/-- The routine `interpret_mb_mode_I`, as a function of the macroblock record
it updates; `none` when the read of `ICBPTAB` is outside the table. -/
def interpret_mb_mode_I (D : Defines) (currMB : Macroblock) : Option Macroblock :=
  let mbmode := currMB.mb_type
  if mbmode = 0 then
    some { currMB with
      mb_type := D.I4MB
      b8mode := List.replicate 4 D.IBLOCK
      b8pdir := List.replicate 4 (-1)
      useABT := List.replicate 4 (if D.USEABT = D.INTER_INTRA_ABT then 1 else 0) }
  else
    match tabGet ICBPTAB (Int.shiftRight (mbmode - 1) 2) with
    | some c =>
      some { mb_type := D.I16MB
             b8mode := List.replicate 4 0
             b8pdir := List.replicate 4 (-1)
             useABT := List.replicate 4 D.NO_ABT
             cbp := c
             i16mode := Int.land (mbmode - 1) 3 }
    | none => none

/-! ## Quantiser update in `readCBPandCoeffsFromNAL` (ldecod/src/macroblock.c) -/

/-- The assignment
`img->qp = (img->qp-MIN_QP+delta_quant+(MAX_QP-MIN_QP+1))%(MAX_QP-MIN_QP+1)+MIN_QP`. -/
def updateQP (D : Defines) (qp delta_quant : Int) : Int :=
  Int.tmod (qp - D.MIN_QP + delta_quant + (D.MAX_QP - D.MIN_QP + 1))
    (D.MAX_QP - D.MIN_QP + 1) + D.MIN_QP

/-! ## The level loop of `readCoeff4x4_CAVLC` (ldecod/src/macroblock.c) -/

/-- The table `incVlc[]`. -/
def incVlc : List Int := [0, 3, 6, 12, 24, 48, 32768]

/-- The loop-carried variables of the level loop. `levels` collects the
values written to `levarr[k]`, in decoding order. -/
structure LevelLoop where
  level_two_or_higher : Bool
  vlcnum : Int
  numones : Int
  levels : List Int
  deriving DecidableEq

/-- The state on entry to the level loop, for the decoded coefficient count
and trailing-ones count. -/
def levelLoopInit (numcoeff numtrailingones : Int) : LevelLoop :=
  { level_two_or_higher := if numcoeff > 3 ∧ numtrailingones = 3 then false else true
    vlcnum := if numcoeff > 10 ∧ numtrailingones < 3 then 1 else 0
    numones := numtrailingones
    levels := [] }

/-- The value assigned to `level = levarr[k]`: the reader's value `inf`, moved
one step away from zero while `level_two_or_higher` is set. -/
def levelOf (level_two_or_higher : Bool) (inf : Int) : Int :=
  if level_two_or_higher then (if inf > 0 then inf + 1 else inf - 1) else inf

/-- One iteration of the level loop. `inf` is the value the level reader
(`readSyntaxElement_Level_VLC0` or `readSyntaxElement_Level_VLCN`) returned
in `currSE.inf`; `first` says whether `k == numcoeff - 1 - numtrailingones`.
The result is `none` when `incVlc[vlcnum]` is read outside the table. -/
def levelStep (first : Bool) (s : LevelLoop) (inf : Int) : Option LevelLoop :=
  let level := levelOf s.level_two_or_higher inf
  let numones := if |level| = 1 then s.numones + 1 else s.numones
  match tabGet incVlc s.vlcnum with
  | some thr =>
    let vlcnum := if |level| > thr then s.vlcnum + 1 else s.vlcnum
    let vlcnum := if first ∧ |level| > 3 then 2 else vlcnum
    some { level_two_or_higher := false
           vlcnum := vlcnum
           numones := numones
           levels := s.levels ++ [level] }
  | none => none

/-- The level loop run over the values returned by the successive reader
calls: the final loop state. -/
def levelLoop : Bool → LevelLoop → List Int → Option LevelLoop
  | _, s, [] => some s
  | first, s, inf :: rest =>
    match levelStep first s inf with
    | some s1 => levelLoop false s1 rest
    | none => none

/-- The value of `vlcnum` used by each iteration of the level loop (to select
the level reader and to index `incVlc`), in order. -/
def usedVlcnums : Bool → LevelLoop → List Int → List Int
  | _, _, [] => []
  | first, s, inf :: rest =>
    s.vlcnum :: (match levelStep first s inf with
      | some s1 => usedVlcnums false s1 rest
      | none => [])

/-- The value of `vlcnum` at the end of each iteration of the level loop, in
order. -/
def vlcnumsAfter : Bool → LevelLoop → List Int → List Int
  | _, _, [] => []
  | first, s, inf :: rest =>
    match levelStep first s inf with
    | some s1 => s1.vlcnum :: vlcnumsAfter false s1 rest
    | none => []

/-- The values returned by the reader calls made by the level loop:
`read n` is the value of the `n`-th call, and the loop
`for (k = numcoeff-1-numtrailingones; k >= 0; k--)` makes
`numcoeff - numtrailingones` calls. -/
def levelReads (numcoeff numtrailingones : Int) (read : Nat → Int) : List Int :=
  (List.range (numcoeff - numtrailingones).toNat).map read

/-- The level-decoding part of `readCoeff4x4_CAVLC`: the final loop state. -/
def decodeLevels (numcoeff numtrailingones : Int) (read : Nat → Int) : Option LevelLoop :=
  levelLoop true (levelLoopInit numcoeff numtrailingones)
    (levelReads numcoeff numtrailingones read)

/-! ## Pseudo-random intra refresh (lencod/src/intrarefresh.c) -/

/-- The value a 32-bit two's-complement `int` holds for the mathematical
integer `x`. -/
def wrap32 (x : Int) : Int := (x + 2147483648) % 4294967296 - 2147483648

/-- The static variables of `intrarefresh.c`. The two arrays are functions
from the index to the stored value. -/
structure IntraRefresh where
  RefreshPattern : Int → Int
  IntraMBs : Int → Int
  WalkAround : Int
  NumberOfMBs : Int
  NumberIntraPerPicture : Int

/-- The module state at program start: the statics are zero; `mem` stands for
whatever the not yet allocated arrays would read. -/
def freshModule (mem : Int → Int) : IntraRefresh :=
  { RefreshPattern := mem
    IntraMBs := mem
    WalkAround := 0
    NumberOfMBs := 0
    NumberIntraPerPicture := 0 }

/-- The loop `do { pos = rand() % NumberOfMBs; } while (RefreshPattern[pos] != -1);`.
`rnd k` is the value of the `k`-th call of `rand()` after `srand(1)`, `k` counts
the calls made so far, and the loop gives up (`none`) after `fuel` draws. The
result is `pos` together with the updated call count. -/
def drawFreePos (rnd : Nat → Nat) (N : Int) (pat : Int → Int) :
    Nat → Nat → Option (Int × Nat)
  | 0, _ => none
  | fuel + 1, k =>
    let pos := Int.tmod (rnd k : Int) N
    if pat pos ≠ -1 then drawFreePos rnd N pat fuel (k + 1) else some (pos, k + 1)

/-- The state `(RefreshPattern, number of rand() calls)` after the first `i`
iterations of the loop `for (i=0; i<NumberOfMBs; i++) { do ... while; RefreshPattern[pos] = i; }`,
started from the array `init`. -/
def fillPattern (rnd : Nat → Nat) (fuel : Nat) (N : Int) (init : Int → Int) :
    Nat → Option ((Int → Int) × Nat)
  | 0 => some (init, 0)
  | i + 1 =>
    match fillPattern rnd fuel N init i with
    | some (pat, k) =>
      match drawFreePos rnd N pat fuel k with
      | some (pos, k1) => some (Function.update pat pos (i : Int), k1)
      | none => none
    | none => none

/-- The routine `RandomIntraInit`, run in module state `s`. `memPattern` and
`memIntra` are the unspecified contents of the two freshly allocated arrays;
each `do ... while` loop is cut off after `fuel` draws. -/
def RandomIntraInit (rnd : Nat → Nat) (fuel : Nat) (s : IntraRefresh)
    (memPattern memIntra : Int → Int) (xsize ysize refresh : Int) : Option IntraRefresh :=
  let N := wrap32 (xsize * ysize)
  match fillPattern rnd fuel N (fun p => if 0 ≤ p ∧ p < N then -1 else memPattern p)
      N.toNat with
  | some (pat, _) =>
    some { RefreshPattern := pat
           IntraMBs := memIntra
           WalkAround := s.WalkAround
           NumberOfMBs := N
           NumberIntraPerPicture := refresh }
  | none => none

/-- The forced-intra set: the entries `IntraMBs[0 .. NumberIntraPerPicture-1]`. -/
def forcedSet (s : IntraRefresh) : List Int :=
  (List.range s.NumberIntraPerPicture.toNat).map (fun (j : Nat) => s.IntraMBs (j : Int))

/-- The routine `RandomIntra`. -/
def RandomIntra (s : IntraRefresh) (mb : Int) : Int :=
  if (forcedSet s).any (fun v => v == mb) then 1 else 0

/-- The routine `RandomIntraNewPicture`. -/
def RandomIntraNewPicture (s : IntraRefresh) : IntraRefresh :=
  let walk := wrap32 (s.WalkAround + s.NumberIntraPerPicture)
  { s with
    WalkAround := walk
    IntraMBs := fun j =>
      if 0 ≤ j ∧ j < s.NumberIntraPerPicture then
        s.RefreshPattern (Int.tmod (wrap32 (walk + j)) s.NumberOfMBs)
      else s.IntraMBs j }

/-- The forced-intra sets of the next `n` pictures: the set left by each of
`n` successive calls of `RandomIntraNewPicture`. -/
def forcedSets : Nat → IntraRefresh → List (List Int)
  | 0, _ => []
  | n + 1, s =>
    forcedSet (RandomIntraNewPicture s) :: forcedSets n (RandomIntraNewPicture s)

/-- The number of pictures of one refresh span, `ceil(N / r)`. -/
def refreshSpan (N r : Int) : Nat := ((N + r - 1) / r).toNat

/-- The loop invariant of the fill loop of `RandomIntraInit` after `i`
iterations, for an array of `N` entries: every entry is still `-1` or one of
the values `0..i-1`, each of these values is stored somewhere, no value other
than `-1` is stored twice, and `N - i` entries are still `-1`. -/
structure PatternInv (N : Int) (i : Nat) (pat : Int → Int) : Prop where
  range : ∀ p, 0 ≤ p → p < N → pat p = -1 ∨ (0 ≤ pat p ∧ pat p < i)
  onto : ∀ v : Int, 0 ≤ v → v < i → ∃ p, 0 ≤ p ∧ p < N ∧ pat p = v
  inj : ∀ p q, 0 ≤ p → p < N → 0 ≤ q → q < N → pat p = pat q → pat p ≠ -1 → p = q
  free : ((Finset.Ico 0 N).filter (fun p => pat p = -1)).card + i = N.toNat

/-! ## EPZS support (lencod/src/me_epzs_common.c) -/

/-- Modelled from the spec: the helper `iabs` of the encoder's inline-function
header, the absolute value. -/
def iabs (x : Int) : Int := if x < 0 then -x else x

/-- Modelled from the spec: the helper `imax` of the encoder's inline-function
header. -/
def imax (a b : Int) : Int := if a > b then a else b

/-- Modelled from the spec: the helper `imin` of the encoder's inline-function
header. -/
def imin (a b : Int) : Int := if a < b then a else b

/-- Modelled from the spec: the helper `iClip3(low, high, x)` of the encoder's
inline-function header, `clip(low, high, x)`. -/
def iClip3 (low high x : Int) : Int := imin (imax x low) high

/-- Modelled from the spec: the helper `rshift_rnd_sf(x, a)` of the encoder's
inline-function header, `(x + (1 << (a-1))) >> a`. -/
def rshift_rnd_sf (x : Int) (a : Nat) : Int := Int.shiftRight (x + 2 ^ (a - 1)) a

/-- The value stored in `p_EPZS->mv_scale[j][i][k]` by `EPZSSliceInit`, from the
two clipped distances. -/
def mvScaleFactor (iTRb iTRp : Int) : Int :=
  if iTRp ≠ 0 then
    let prescale := Int.tdiv (16384 + iabs (Int.tdiv iTRp 2)) iTRp
    iClip3 (-2048) 2047 (rshift_rnd_sf (iTRb * prescale) 6)
  else 256

/-- The entry `mv_scale[j][i][k]` computed by `EPZSSliceInit` from the picture
order counts of the current picture and of the references `i` and `k`. -/
def EPZSSliceInit_mv_scale (poc_cur poc_i poc_k : Int) : Int :=
  mvScaleFactor (iClip3 (-128) 127 (poc_cur - poc_i)) (iClip3 (-128) 127 (poc_cur - poc_k))

/-- The table `MIN_THRES_BASE[8]`. -/
def MIN_THRES_BASE : List Int := [0, 64, 32, 32, 16, 8, 8, 4]

/-- The table `MED_THRES_BASE[8]`. -/
def MED_THRES_BASE : List Int := [0, 256, 128, 128, 64, 32, 32, 16]

/-- The table `MAX_THRES_BASE[8]`. -/
def MAX_THRES_BASE : List Int := [0, 768, 384, 384, 192, 96, 96, 48]

/-- The inputs of the threshold loop of `EPZSStructInit`. `chromaWeighted b`
stands for the floating-point expression `(int) (b * chroma_weight + 0.5)` when
chroma-aware motion estimation is enabled. -/
structure EPZSThresInput where
  bitdepth_luma : Int
  ChromaMEEnable : Bool
  chromaWeighted : Int → Int
  EPZSMinThresScale : Int
  EPZSMedThresScale : Int
  EPZSMaxThresScale : Int
  EPZSSubPelThresScale : Int

/-- The four threshold arrays of `EPZSParameters`. -/
structure EPZSThresholds where
  medthres : List Int
  maxthres : List Int
  minthres : List Int
  subthres : List Int
  deriving DecidableEq

/-- The term `(int) (base * chroma_weight + 0.5)`: with chroma-aware motion
estimation disabled `chroma_weight` is `0` and the term is `(int) 0.5 = 0`. -/
def chromaTerm (inp : EPZSThresInput) (base : Int) : Int :=
  if inp.ChromaMEEnable then inp.chromaWeighted base else 0

/-- The threshold loop of `EPZSStructInit`, with
`pel_error_me = 1 << (bitdepth_luma - 8)`. All operations are `int`
operations and are reduced to 32 bits: the shift is `2 ^ n` reduced to 32 bits
(C defines it for `0 <= n < 31`; a negative count is taken as 0), and so are
the product with the base value, the sum with the chroma term and the product
with the scale multiplier. -/
def EPZSStructInit_thresholds (inp : EPZSThresInput) : EPZSThresholds :=
  let pel_error_me : Int := wrap32 (2 ^ (inp.bitdepth_luma - 8).toNat)
  let weighted := fun (base : Int) =>
    wrap32 (wrap32 (base * pel_error_me) + chromaTerm inp base)
  { medthres := MED_THRES_BASE.map (fun b => wrap32 (inp.EPZSMedThresScale * weighted b))
    maxthres := MAX_THRES_BASE.map (fun b => wrap32 (inp.EPZSMaxThresScale * weighted b))
    minthres := MIN_THRES_BASE.map (fun b => wrap32 (inp.EPZSMinThresScale * weighted b))
    subthres := MED_THRES_BASE.map (fun b => wrap32 (inp.EPZSSubPelThresScale * weighted b)) }

/-! ## EPZS stop criterion and `RoundLog2` (lencod/src/me_epzs_common.c) -/

/-- The constant `INT_MAX` of the C library header `<limits.h>` for a 32-bit
`int`. -/
def INT_MAX : Int := 2147483647

/-- The routine `EPZSDetermineStopCriterion`. The thresholds are those of
`p_EPZS`; `prevSad` is the array of stored distortions around the pointer
`prevSad` (index 0 is the block above); `availA`, `availB`, `availC` are
`block[0].available`, `block[1].available`, `block[2].available`; `blocktype`
and `blocksize_x` are the fields of `mv_block`. The sums and the product are
`int` operations and are reduced to 32 bits. The result is `none` when
`blocktype` is outside the threshold arrays. -/
def EPZSDetermineStopCriterion (p_EPZS : EPZSThresholds) (prevSad : Int → Int)
    (blocktype blocksize_x availA availB availC lambda_dist : Int) : Option Int :=
  let blockshape_x := Int.shiftRight blocksize_x 2
  let sadA := if availA ≠ 0 then prevSad (-blockshape_x) else INT_MAX
  let sadB := if availB ≠ 0 then prevSad 0 else INT_MAX
  let sadC := if availC ≠ 0 then prevSad blockshape_x else INT_MAX
  match tabGet p_EPZS.minthres blocktype, tabGet p_EPZS.maxthres blocktype,
      tabGet p_EPZS.medthres blocktype with
  | some minthres, some maxthres, some medthres =>
    let stopCriterion := imin sadA (imin sadB sadC)
    let stopCriterion := imax stopCriterion minthres
    let stopCriterion := imin stopCriterion (wrap32 (maxthres + lambda_dist))
    let stopCriterion :=
      Int.shiftRight
        (wrap32 (wrap32 (9 * imax (wrap32 (medthres + lambda_dist)) stopCriterion)
          + wrap32 (2 * medthres))) 3
    some (wrap32 (stopCriterion + lambda_dist))
  | _, _, _ => none

/-- The loop `while ((1 << (iRet + 1)) <= iValue_square) ++iRet;` of `RoundLog2`,
entered with the current `iRet` and cut off after `fuel` tests of the
condition; `1 << n` is `2 ^ n` (no overflow below bit 31). -/
def RoundLog2_loop (iValue_square : Int) : Nat → Nat → Option Nat
  | 0, _ => none
  | fuel + 1, iRet =>
    if (2 : Int) ^ (iRet + 1) ≤ iValue_square then
      RoundLog2_loop iValue_square fuel (iRet + 1)
    else some iRet

/-- The routine `RoundLog2`, its loop cut off after `fuel` tests. -/
def RoundLog2 (fuel : Nat) (iValue : Int) : Option Nat :=
  match RoundLog2_loop (iValue * iValue) fuel 0 with
  | some iRet => some ((iRet + 1) >>> 1)
  | none => none

/-! ## SEI payload types (ldecod/inc/sei.h) -/

/-- The enumeration `SEI_type`, its enumerators in the order of declaration. -/
inductive SEI_type where
  | SEI_BUFFERING_PERIOD
  | SEI_PIC_TIMING
  | SEI_PAN_SCAN_RECT
  | SEI_FILLER_PAYLOAD
  | SEI_USER_DATA_REGISTERED_ITU_T_T35
  | SEI_USER_DATA_UNREGISTERED
  | SEI_RECOVERY_POINT
  | SEI_DEC_REF_PIC_MARKING_REPETITION
  | SEI_SPARE_PIC
  | SEI_SCENE_INFO
  | SEI_SUB_SEQ_INFO
  | SEI_SUB_SEQ_LAYER_CHARACTERISTICS
  | SEI_SUB_SEQ_CHARACTERISTICS
  | SEI_FULL_FRAME_FREEZE
  | SEI_FULL_FRAME_FREEZE_RELEASE
  | SEI_FULL_FRAME_SNAPSHOT
  | SEI_PROGRESSIVE_REFINEMENT_SEGMENT_START
  | SEI_PROGRESSIVE_REFINEMENT_SEGMENT_END
  | SEI_MOTION_CONSTRAINED_SLICE_GROUP_SET
  | SEI_FILM_GRAIN_CHARACTERISTICS
  | SEI_DEBLOCKING_FILTER_DISPLAY_PREFERENCE
  | SEI_STEREO_VIDEO_INFO
  | SEI_POST_FILTER_HINTS
  | SEI_TONE_MAPPING
  | SEI_MAX_ELEMENTS
  deriving DecidableEq

/-- The integer value of an enumerator: the first one is given as `0` and, by
the C rule, each later one is one more than its predecessor, that is its
position in the declaration. -/
def SEI_type.value (t : SEI_type) : Nat := t.toCtorIdx

/-- The enumerators of `SEI_type` in the order of declaration. -/
def SEI_type.all : List SEI_type :=
  [.SEI_BUFFERING_PERIOD, .SEI_PIC_TIMING, .SEI_PAN_SCAN_RECT, .SEI_FILLER_PAYLOAD,
   .SEI_USER_DATA_REGISTERED_ITU_T_T35, .SEI_USER_DATA_UNREGISTERED, .SEI_RECOVERY_POINT,
   .SEI_DEC_REF_PIC_MARKING_REPETITION, .SEI_SPARE_PIC, .SEI_SCENE_INFO, .SEI_SUB_SEQ_INFO,
   .SEI_SUB_SEQ_LAYER_CHARACTERISTICS, .SEI_SUB_SEQ_CHARACTERISTICS, .SEI_FULL_FRAME_FREEZE,
   .SEI_FULL_FRAME_FREEZE_RELEASE, .SEI_FULL_FRAME_SNAPSHOT,
   .SEI_PROGRESSIVE_REFINEMENT_SEGMENT_START, .SEI_PROGRESSIVE_REFINEMENT_SEGMENT_END,
   .SEI_MOTION_CONSTRAINED_SLICE_GROUP_SET, .SEI_FILM_GRAIN_CHARACTERISTICS,
   .SEI_DEBLOCKING_FILTER_DISPLAY_PREFERENCE, .SEI_STEREO_VIDEO_INFO, .SEI_POST_FILTER_HINTS,
   .SEI_TONE_MAPPING, .SEI_MAX_ELEMENTS]

/-- The payload type codes: every enumerator except the final counter
`SEI_MAX_ELEMENTS`. -/
def SEI_type.payloadTypes : List SEI_type :=
  SEI_type.all.filter (fun t => t ≠ SEI_type.SEI_MAX_ELEMENTS)

/-! ## Macroblock mode of P, B and SI slices (ldecod/src/macroblock.c) -/

/-- Further header constants used by the mode interpreters; like those of
`Defines` they are defined outside the modelled files and taken as a
parameter. -/
structure ModeDefines where
  P8x8 : Int
  SI4MB : Int
  B8x8 : Int
  ABT_OFF : Int

/-- The state written by the mode interpreters of P, B and SI slices: the
macroblock record `currMB` with its further arrays `abt_mode[4]` and
`bipred_weighting_type[4]`, the flag `img->allrefzero`, and the entry
`img->siblock[img->mb_x][img->mb_y]` of the current macroblock. -/
structure MbModeState where
  currMB : Macroblock
  abt_mode : List Int
  bipred_weighting_type : List Int
  allrefzero : Int
  siblock : Int

/-- The routine `interpret_mb_mode_P`; `none` when the read of `ICBPTAB` is
outside the table. -/
def interpret_mb_mode_P (D : Defines) (M : ModeDefines) (s : MbModeState) :
    Option MbModeState :=
  let mbmode := s.currMB.mb_type
  if mbmode < 4 then
    some { s with
      currMB := { s.currMB with
        mb_type := mbmode
        b8mode := List.replicate 4 mbmode
        b8pdir := List.replicate 4 0
        useABT := List.replicate 4 (if D.USEABT ≠ D.NO_ABT then 1 else 0) }
      abt_mode := List.replicate 4 (if D.USEABT ≠ 0 then M.B8x8 else M.ABT_OFF) }
  else if mbmode = 4 ∨ mbmode = 5 then
    some { s with
      currMB := { s.currMB with mb_type := M.P8x8 }
      allrefzero := if mbmode = 5 then 1 else 0 }
  else if mbmode = 6 then
    some { s with
      currMB := { s.currMB with
        mb_type := D.I4MB
        b8mode := List.replicate 4 D.IBLOCK
        b8pdir := List.replicate 4 (-1)
        useABT := List.replicate 4 (if D.USEABT = D.INTER_INTRA_ABT then 1 else 0) } }
  else
    match tabGet ICBPTAB (Int.shiftRight (mbmode - 7) 2) with
    | some c =>
      some { s with
        currMB :=
          { mb_type := D.I16MB
            b8mode := List.replicate 4 0
            b8pdir := List.replicate 4 (-1)
            useABT := List.replicate 4 D.NO_ABT
            cbp := c
            i16mode := Int.land (mbmode - 7) 3 } }
    | none => none

/-- The table `offset2pdir16x16[12]` of `interpret_mb_mode_B`. -/
def offset2pdir16x16 : List Int := [0, 0, 1, 2, 0, 0, 0, 0, 0, 0, 0, 0]

/-- The table `offset2pdir16x8[22][2]` of `interpret_mb_mode_B`. -/
def offset2pdir16x8 : List (List Int) :=
  [[0, 0], [0, 0], [0, 0], [0, 0], [0, 0], [0, 0], [1, 1], [0, 0], [0, 1], [0, 0], [1, 0],
   [0, 0], [0, 2], [0, 0], [1, 2], [0, 0], [2, 0], [0, 0], [2, 1], [0, 0], [2, 2], [0, 0]]

/-- The table `offset2pdir8x16[22][2]` of `interpret_mb_mode_B`. -/
def offset2pdir8x16 : List (List Int) :=
  [[0, 0], [0, 0], [0, 0], [0, 0], [0, 0], [0, 0], [0, 0], [1, 1], [0, 0], [0, 1], [0, 0],
   [1, 0], [0, 0], [0, 2], [0, 0], [1, 2], [0, 0], [2, 0], [0, 0], [2, 1], [0, 0], [2, 2]]

/-- A read `t[i][j]` of a constant two-dimensional table; `none` when an index
lies outside the table. -/
def tabGet2 (t : List (List Int)) (i j : Int) : Option Int :=
  if 0 ≤ i then
    match t[i.toNat]? with
    | some row => tabGet row j
    | none => none
  else none

/-- The four values `t[mbtype][idx 0]`, ..., `t[mbtype][idx 3]` assigned to
`b8pdir[0..3]` by a loop `for(i=0;i<4;i++) b8pdir[i] = t[mbtype][idx i]`. -/
def pdirRow (t : List (List Int)) (mbtype : Int) (idx : Int → Int) : Option (List Int) :=
  match tabGet2 t mbtype (idx 0), tabGet2 t mbtype (idx 1), tabGet2 t mbtype (idx 2),
      tabGet2 t mbtype (idx 3) with
  | some d0, some d1, some d2, some d3 => some [d0, d1, d2, d3]
  | _, _, _, _ => none

/-- One iteration of the direct-mode loop of `interpret_mb_mode_B`:
`b8mode[i]=0; b8pdir[i]=2; if (USEABT) getDirectModeABT(i,img);`. The routine
`getDirectModeABT` is defined outside the modelled files and is taken as a
parameter acting on the state. -/
def directModeStep (D : Defines) (getDirectModeABT : Nat → MbModeState → MbModeState)
    (s : MbModeState) (i : Nat) : MbModeState :=
  let s1 : MbModeState := { s with
    currMB := { s.currMB with
      b8mode := s.currMB.b8mode.set i 0
      b8pdir := s.currMB.b8pdir.set i 2 } }
  if D.USEABT ≠ 0 then getDirectModeABT i s1 else s1

/-- The routine `interpret_mb_mode_B`; `none` when a table is read outside its
bounds. -/
def interpret_mb_mode_B (D : Defines) (M : ModeDefines)
    (getDirectModeABT : Nat → MbModeState → MbModeState) (s : MbModeState) :
    Option MbModeState :=
  let mbtype := s.currMB.mb_type
  let s0 : MbModeState := { s with
    currMB := { s.currMB with useABT := List.replicate 4 D.USEABT }
    bipred_weighting_type := List.replicate 4 0 }
  if mbtype = 0 then
    let s1 := [0, 1, 2, 3].foldl (directModeStep D getDirectModeABT) s0
    some { s1 with currMB := { s1.currMB with mb_type := 0 } }
  else if mbtype = 23 then
    some { s0 with
      currMB := { s0.currMB with
        mb_type := D.I4MB
        b8mode := List.replicate 4 D.IBLOCK
        b8pdir := List.replicate 4 (-1)
        useABT := List.replicate 4 (if D.USEABT = D.INTER_INTRA_ABT then 1 else 0) } }
  else if mbtype > 23 then
    match tabGet ICBPTAB (Int.shiftRight (mbtype - 24) 2) with
    | some c =>
      some { s0 with
        currMB :=
          { mb_type := D.I16MB
            b8mode := List.replicate 4 0
            b8pdir := List.replicate 4 (-1)
            useABT := List.replicate 4 D.NO_ABT
            cbp := c
            i16mode := Int.land (mbtype - 24) 3 } }
    | none => none
  else if mbtype = 22 then
    some { s0 with currMB := { s0.currMB with mb_type := M.P8x8 } }
  else if mbtype < 4 then
    match tabGet offset2pdir16x16 mbtype with
    | some d =>
      some { s0 with
        currMB := { s0.currMB with
          mb_type := 1
          b8mode := List.replicate 4 1
          b8pdir := List.replicate 4 d }
        abt_mode := List.replicate 4 M.B8x8 }
    | none => none
  else if Int.tmod mbtype 2 = 0 then
    match pdirRow offset2pdir16x8 mbtype (fun i => Int.tdiv i 2) with
    | some pdir =>
      some { s0 with
        currMB := { s0.currMB with
          mb_type := 2
          b8mode := List.replicate 4 2
          b8pdir := pdir }
        abt_mode := List.replicate 4 M.B8x8 }
    | none => none
  else
    match pdirRow offset2pdir8x16 mbtype (fun i => Int.tmod i 2) with
    | some pdir =>
      some { s0 with
        currMB := { s0.currMB with
          mb_type := 3
          b8mode := List.replicate 4 3
          b8pdir := pdir }
        abt_mode := List.replicate 4 M.B8x8 }
    | none => none

/-- The routine `interpret_mb_mode_SI`; `none` when the read of `ICBPTAB` is
outside the table. -/
def interpret_mb_mode_SI (D : Defines) (M : ModeDefines) (s : MbModeState) :
    Option MbModeState :=
  let mbmode := s.currMB.mb_type
  if mbmode = 0 then
    some { s with
      currMB := { s.currMB with
        mb_type := M.SI4MB
        b8mode := List.replicate 4 D.IBLOCK
        b8pdir := List.replicate 4 (-1)
        useABT := List.replicate 4 (if D.USEABT = D.INTER_INTRA_ABT then 1 else 0) }
      siblock := 1 }
  else if mbmode = 1 then
    some { s with
      currMB := { s.currMB with
        mb_type := D.I4MB
        b8mode := List.replicate 4 D.IBLOCK
        b8pdir := List.replicate 4 (-1)
        useABT := List.replicate 4 (if D.USEABT = D.INTER_INTRA_ABT then 1 else 0) } }
  else
    match tabGet ICBPTAB (Int.shiftRight (mbmode - 1) 2) with
    | some c =>
      some { s with
        currMB :=
          { mb_type := D.I16MB
            b8mode := List.replicate 4 0
            b8pdir := List.replicate 4 (-1)
            useABT := List.replicate 4 D.NO_ABT
            cbp := c
            i16mode := Int.land (mbmode - 2) 3 } }
    | none => none

/-! ## `start_macroblock` (ldecod/src/macroblock.c) -/

/-- Modelled from the spec: the header constant `BLOCK_SIZE`, the side of a
4x4 luma block. -/
def BLOCK_SIZE : Int := 4

/-- The fields of `struct img_par` read and written by the address and
coordinate part of `start_macroblock`. -/
structure ImgPosition where
  current_mb_nr : Int
  max_mb_nr : Int
  width : Int
  mb_frame_field_flag : Int
  mb_x : Int
  mb_y : Int
  block_x : Int
  block_y : Int
  pix_x : Int
  pix_y : Int
  pix_c_x : Int
  pix_c_y : Int
  deriving DecidableEq

/-- The first part of `start_macroblock`: the assertion on the address that
`img->current_mb_nr` holds on entry, the assignment of the argument to it and
the update of the macroblock, block and pixel coordinates. The result is `none` when the assertion fails. The
rest of the routine (slice number, neighbour availability, reset of the
macroblock record) does not touch these fields. -/
def start_macroblock (img : ImgPosition) (CurrentMBInScanOrder : Int) : Option ImgPosition :=
  if 0 ≤ img.current_mb_nr ∧ img.current_mb_nr < img.max_mb_nr then
    let current_mb_nr := CurrentMBInScanOrder
    let mb_xy : Int × Int :=
      if img.mb_frame_field_flag ≠ 0 then
        let mb_x := Int.tmod current_mb_nr (Int.tdiv (2 * img.width) MB_BLOCK_SIZE)
        let mb_y := 2 * Int.tdiv current_mb_nr (Int.tdiv (2 * img.width) MB_BLOCK_SIZE)
        let mb_y := if Int.tmod mb_x 2 ≠ 0 then mb_y + 1 else mb_y
        (Int.tdiv mb_x 2, mb_y)
      else
        (Int.tmod current_mb_nr (Int.tdiv img.width MB_BLOCK_SIZE),
         Int.tdiv current_mb_nr (Int.tdiv img.width MB_BLOCK_SIZE))
    some { img with
      current_mb_nr := current_mb_nr
      mb_x := mb_xy.1
      mb_y := mb_xy.2
      block_y := mb_xy.2 * BLOCK_SIZE
      pix_y := mb_xy.2 * MB_BLOCK_SIZE
      pix_c_y := Int.tdiv (mb_xy.2 * MB_BLOCK_SIZE) 2
      block_x := mb_xy.1 * BLOCK_SIZE
      pix_x := mb_xy.1 * MB_BLOCK_SIZE
      pix_c_x := Int.tdiv (mb_xy.1 * MB_BLOCK_SIZE) 2 }
  else none

/-! ## `CheckAvailabilityOfNeighbors` (ldecod/src/macroblock.c) -/

/-- The data `CheckAvailabilityOfNeighbors` reads and writes: fields of
`struct img_par`, the `slice_nr` of every entry of `img->mb_data`, and the
array `mb_available[3][3]` of the current macroblock. A pointer
`&img->mb_data[k]` is `some k` and `NULL` is `none`. -/
structure NeighborState where
  width : Int
  current_mb_nr : Int
  pix_x : Int
  pix_y : Int
  block_x : Int
  block_y : Int
  UseConstrainedIntraPred : Int
  slice_nr : Int → Int
  intra_block : Int → Int → Int
  ipredmode : Int → Int → Int
  mb_available : Int → Int → Option Int

/-- The assignment `a[x][y] = v` on an array held as a function. -/
def setCell {α : Type} (a : Int → Int → α) (x y : Int) (v : α) : Int → Int → α :=
  fun p q => if p = x ∧ q = y then v else a p q

/-- The writes of `CheckAvailabilityOfNeighbors` to `mb_available` of the
current macroblock, in the order of the source: the reset of all nine entries,
the current macroblock, then the left, above, left-above and right-above
neighbours. -/
def CheckAvailabilityOfNeighbors_mb_available (img : NeighborState) : Int → Int → Option Int :=
  let mb_width := Int.tdiv img.width MB_BLOCK_SIZE
  let mb_nr := img.current_mb_nr
  -- mark all neighbors as unavailable
  let avail : Int → Int → Option Int :=
    fun i j => if 0 ≤ i ∧ i < 3 ∧ 0 ≤ j ∧ j < 3 then none else img.mb_available i j
  let avail := setCell avail 1 1 (some mb_nr)
  -- Check MB to the left
  let avail :=
    if img.pix_x ≥ MB_BLOCK_SIZE ∧ ¬ (img.slice_nr mb_nr ≠ img.slice_nr (mb_nr - 1)) then
      setCell avail 1 0 (some (mb_nr - 1))
    else avail
  -- Check MB above
  let avail :=
    if img.pix_y ≥ MB_BLOCK_SIZE ∧
        ¬ (img.slice_nr mb_nr ≠ img.slice_nr (mb_nr - mb_width)) then
      setCell avail 0 1 (some (mb_nr - mb_width))
    else avail
  -- Check MB left above
  let avail :=
    if img.pix_x ≥ MB_BLOCK_SIZE ∧ img.pix_y ≥ MB_BLOCK_SIZE ∧
        img.slice_nr mb_nr = img.slice_nr (mb_nr - mb_width - 1) then
      setCell avail 0 0 (some (mb_nr - mb_width - 1))
    else avail
  -- Check MB right above
  if img.pix_y ≥ MB_BLOCK_SIZE ∧ img.pix_x < img.width - MB_BLOCK_SIZE ∧
      img.slice_nr mb_nr = img.slice_nr (mb_nr - mb_width + 1) then
    setCell avail 0 2 (some (mb_nr - mb_width + 1))
  else avail

/-- The writes of `CheckAvailabilityOfNeighbors` to `img->ipredmode`, in the
order of the source: the upper and the lower two blocks of the left border,
then the two halves of the top border. `remove_prediction` is the comparison
of the two slice numbers. -/
def CheckAvailabilityOfNeighbors_ipredmode (img : NeighborState) : Int → Int → Int :=
  let mb_width := Int.tdiv img.width MB_BLOCK_SIZE
  let mb_nr := img.current_mb_nr
  let ipred := img.ipredmode
  -- Check MB to the left
  let remove_left : Bool := img.slice_nr mb_nr ≠ img.slice_nr (mb_nr - 1)
  let ipred :=
    if img.pix_x ≥ MB_BLOCK_SIZE ∧
        (remove_left ∨ (img.UseConstrainedIntraPred ≠ 0 ∧ img.intra_block (mb_nr - 1) 1 = 0)) then
      setCell (setCell ipred img.block_x (img.block_y + 1) (-1)) img.block_x (img.block_y + 2) (-1)
    else ipred
  let ipred :=
    if img.pix_x ≥ MB_BLOCK_SIZE ∧
        (remove_left ∨ (img.UseConstrainedIntraPred ≠ 0 ∧ img.intra_block (mb_nr - 1) 3 = 0)) then
      setCell (setCell ipred img.block_x (img.block_y + 3) (-1)) img.block_x (img.block_y + 4) (-1)
    else ipred
  -- Check MB above
  let remove_up : Bool := img.slice_nr mb_nr ≠ img.slice_nr (mb_nr - mb_width)
  let ipred :=
    if img.pix_y ≥ MB_BLOCK_SIZE ∧
        (remove_up ∨
          (img.UseConstrainedIntraPred ≠ 0 ∧ img.intra_block (mb_nr - mb_width) 2 = 0)) then
      setCell (setCell ipred (img.block_x + 1) img.block_y (-1)) (img.block_x + 2) img.block_y (-1)
    else ipred
  if img.pix_y ≥ MB_BLOCK_SIZE ∧
      (remove_up ∨
        (img.UseConstrainedIntraPred ≠ 0 ∧ img.intra_block (mb_nr - mb_width) 3 = 0)) then
    setCell (setCell ipred (img.block_x + 3) img.block_y (-1)) (img.block_x + 4) img.block_y (-1)
  else ipred

/-- The routine `CheckAvailabilityOfNeighbors`: its writes to the two arrays do
not depend on each other. -/
def CheckAvailabilityOfNeighbors (img : NeighborState) : NeighborState :=
  { img with
    ipredmode := CheckAvailabilityOfNeighbors_ipredmode img
    mb_available := CheckAvailabilityOfNeighbors_mb_available img }

/-! ## 4x4 intra mode decision (lencod/src/rd_intra_jm444.c) -/

/-- The 4x4 intra prediction mode numbers and their count `NO_INTRA_PMODE`,
constants of the encoder's headers. -/
structure IntraDefines where
  VERT_PRED : Int
  HOR_PRED : Int
  DC_PRED : Int
  DIAG_DOWN_LEFT_PRED : Int
  VERT_LEFT_PRED : Int
  HOR_UP_PRED : Int
  NO_INTRA_PMODE : Int

/-- The fields of `PixelPos` used by the mode decision, as filled in by
`get4x4Neighbour`. -/
structure PixelPos where
  available : Int
  mb_addr : Int
  pos_x : Int
  pos_y : Int

/-- The statement
`b.available = b.available ? p_Img->intra_block[b.mb_addr] : 0`, executed when
`UseConstrainedIntraPred` is set. -/
def constrainedAvailable (UseConstrainedIntraPred : Int) (intra_block : Int → Int)
    (b : PixelPos) : Int :=
  if UseConstrainedIntraPred ≠ 0 then
    (if b.available ≠ 0 then intra_block b.mb_addr else 0)
  else b.available

/-- The mode of a neighbouring block: `avail ? p_Img->ipredmode[pos_y][pos_x] : -1`,
held in a `char` (taken to be signed). -/
def neighbourMode (ipredmode : Int → Int → Int) (avail : Int) (b : PixelPos) : Int :=
  if avail ≠ 0 then ipredmode b.pos_y b.pos_x else -1

/-- The computation of `mostProbableMode`, the same in
`Mode_Decision_for_4x4IntraBlocks_JM_High444` and
`Mode_Decision_for_4x4IntraBlocks_JM_Low444`; `left_block` and `top_block` are
the results of the two calls of `get4x4Neighbour`. -/
def mostProbableMode (D : IntraDefines) (UseConstrainedIntraPred : Int)
    (intra_block : Int → Int) (ipredmode : Int → Int → Int)
    (left_block top_block : PixelPos) : Int :=
  let left_available := constrainedAvailable UseConstrainedIntraPred intra_block left_block
  let top_available := constrainedAvailable UseConstrainedIntraPred intra_block top_block
  let upMode := neighbourMode ipredmode top_available top_block
  let leftMode := neighbourMode ipredmode left_available left_block
  if upMode < 0 ∨ leftMode < 0 then D.DC_PRED
  else if upMode < leftMode then upMode else leftMode

/-- The flag `available_mode` of the loop over the prediction modes;
`all_available`, `up_available` and `left_available` are the outputs of
`set_intrapred_4x4`. -/
def available_mode (D : IntraDefines) (all_available up_available left_available : Int)
    (ipmode : Int) : Bool :=
  (all_available ≠ 0) || (ipmode = D.DC_PRED) ||
    (up_available ≠ 0 && (ipmode = D.VERT_PRED || ipmode = D.VERT_LEFT_PRED ||
      ipmode = D.DIAG_DOWN_LEFT_PRED)) ||
    (left_available ≠ 0 && (ipmode = D.HOR_PRED || ipmode = D.HOR_UP_PRED))

/-- The inputs of the mode loops that stay fixed during the loop. The routines
`valid_intra_mode`, `compute_cost4x4` and `rdcost_for_4x4_intra_blocks` are
defined outside this file and are taken as they are called:
`compute_cost4x4 plane ipmode cost min_cost` is the value left in `cost` by the
call for the colour plane `plane` (0, 1, 2 for Y, U, V), and
`rdcost_for_4x4_intra_blocks ipmode min_rdcost` is the returned cost. -/
structure ModeLoopInput where
  all_available : Int
  up_available : Int
  left_available : Int
  P444_joined : Int
  mostProbableMode : Int
  valid_intra_mode : Int → Int
  compute_cost4x4 : Int → Int → Int → Int → Int
  rdcost_for_4x4_intra_blocks : Int → Rat → Rat

/-- The variables `best_ipmode` and `*min_cost` of
`Mode_Decision_for_4x4IntraBlocks_JM_Low444`. The costs stored in `*min_cost`
are `int` values. -/
structure Low444State where
  best_ipmode : Int
  min_cost : Int
  deriving DecidableEq

/-- The value of `cost` before the comparison `cost < *min_cost` in the loop
body of `Mode_Decision_for_4x4IntraBlocks_JM_Low444`: the rate term, then the
call of `compute_cost4x4` for the luma plane and, when `P444_joined` is set,
for the two chroma planes. -/
def Low444_cost (inp : ModeLoopInput) (fixedcost : Int) (ipmode min_cost : Int) : Int :=
  let cost := if ipmode = inp.mostProbableMode then 0 else fixedcost
  let cost := inp.compute_cost4x4 0 ipmode cost min_cost
  if inp.P444_joined ≠ 0 then
    let cost := inp.compute_cost4x4 1 ipmode cost min_cost
    inp.compute_cost4x4 2 ipmode cost min_cost
  else cost

/-- One iteration of the loop over the prediction modes in
`Mode_Decision_for_4x4IntraBlocks_JM_Low444`. -/
def Low444_step (D : IntraDefines) (inp : ModeLoopInput) (fixedcost : Int)
    (s : Low444State) (ipmode : Nat) : Low444State :=
  if inp.valid_intra_mode ipmode = 0 then s
  else if available_mode D inp.all_available inp.up_available inp.left_available ipmode then
    let cost := Low444_cost inp fixedcost ipmode s.min_cost
    if cost < s.min_cost then { best_ipmode := ipmode, min_cost := cost } else s
  else s

/-- The mode selection of `Mode_Decision_for_4x4IntraBlocks_JM_Low444`:
`fixedcost = (int) floor(4 * lambda)`, `*min_cost = INT_MAX`,
`best_ipmode = 0`, then the loop `for (ipmode = 0; ipmode < NO_INTRA_PMODE; ipmode++)`.
The result holds the mode stored in `ipredmode[pic_block_y][pic_block_x]` and
the final `*min_cost`. -/
def Mode_Decision_for_4x4IntraBlocks_JM_Low444 (D : IntraDefines) (inp : ModeLoopInput)
    (lambda : Rat) : Low444State :=
  let fixedcost := Rat.floor (4 * lambda)
  (List.range D.NO_INTRA_PMODE.toNat).foldl (Low444_step D inp fixedcost)
    { best_ipmode := 0, min_cost := INT_MAX }

/-- The variables `best_ipmode`, `min_rdcost` and `*min_cost` of
`Mode_Decision_for_4x4IntraBlocks_JM_High444`; `*min_cost` is `none` while it
holds its initial value `INT_MAX`. -/
structure High444State where
  best_ipmode : Int
  min_rdcost : Rat
  min_cost : Option Rat
  deriving DecidableEq

/-- The initial value `1e30` of `min_rdcost`, as the `double` closest to it. -/
def MIN_RDCOST_INIT : Rat := 1000000000000000019884624838656

/-- One iteration of the loop over the prediction modes in
`Mode_Decision_for_4x4IntraBlocks_JM_High444`. -/
def High444_step (D : IntraDefines) (inp : ModeLoopInput) (s : High444State) (ipmode : Nat) :
    High444State :=
  if inp.valid_intra_mode ipmode = 0 then s
  else if available_mode D inp.all_available inp.up_available inp.left_available ipmode then
    let rdcost := inp.rdcost_for_4x4_intra_blocks ipmode s.min_rdcost
    if rdcost < s.min_rdcost then
      { best_ipmode := ipmode, min_rdcost := rdcost, min_cost := some rdcost }
    else s
  else s

/-- The mode selection of `Mode_Decision_for_4x4IntraBlocks_JM_High444`:
`min_rdcost = 1e30`, `best_ipmode = 0`, then the loop over the prediction
modes. The result holds the mode stored in `ipredmode[pic_block_y][pic_block_x]`. -/
def Mode_Decision_for_4x4IntraBlocks_JM_High444 (D : IntraDefines) (inp : ModeLoopInput) :
    High444State :=
  (List.range D.NO_INTRA_PMODE.toNat).foldl (High444_step D inp)
    { best_ipmode := 0, min_rdcost := MIN_RDCOST_INIT, min_cost := none }

/-- The cost of a candidate mode as the specification words it: the fixed rate
term, 0 for the most probable mode and `fixedcost` for every other mode, plus
the distortion `dist plane m` of each colour plane that takes part (luma alone,
or all three planes when `P444_joined` is set). -/
def candidateCost (inp : ModeLoopInput) (fixedcost : Int) (dist : Int → Nat → Int)
    (m : Nat) : Int :=
  (if (m : Int) = inp.mostProbableMode then 0 else fixedcost) + dist 0 m +
    (if inp.P444_joined ≠ 0 then dist 1 m + dist 2 m else 0)

/-- The modes the loop over `ipmode` evaluates: those below `NO_INTRA_PMODE`
that `valid_intra_mode` accepts and for which `available_mode` is set. -/
def isCandidate (D : IntraDefines) (inp : ModeLoopInput) (m : Nat) : Bool :=
  decide (m < D.NO_INTRA_PMODE.toNat) && decide (inp.valid_intra_mode m ≠ 0) &&
    available_mode D inp.all_available inp.up_available inp.left_available m

/-! ## EPZS predictors (lencod/src/me_epzs_common.c) -/

/-- The value a 16-bit two's-complement `short` holds for the mathematical
integer `x`. -/
def wrap16 (x : Int) : Int := (x + 32768) % 65536 - 32768

/-- The type `MotionVector`: the two `short` components. -/
structure MotionVector where
  mv_x : Int
  mv_y : Int
  deriving DecidableEq

/-- An array of `SPoint`, of which only the field `motion` is modelled, after
the points `pts` have been written to the entries `start`, `start + 1`, ... -/
def storePoints (point : Int → MotionVector) (start : Int) (pts : List MotionVector) :
    Int → MotionVector :=
  fun i => if start ≤ i ∧ i < start + pts.length then pts.getD (i - start).toNat (point i)
    else point i

/-- The inputs of `EPZSSpatialPredictors`: `block[0..3]` (left, above,
above-right, above-left), the reference indices `refPic[y][x]`, the motion
vectors `tmp_mv[y][x]`, the row `mot_scale` of the scale table, the flag
`mb_field` of every macroblock, and the routine `scale_mv` of the encoder's
headers, taken as `scale_mv scale mv shift`, the vector it stores. -/
structure SpatialInput where
  MbaffFrameFlag : Int
  list_offset : Int
  block : Nat → PixelPos
  refPic : Int → Int → Int
  tmp_mv : Int → Int → MotionVector
  mot_scale : Int → Int
  mb_field : Int → Int
  scale_mv : Int → MotionVector → Int → MotionVector

/-- The reference index `refA`, ..., `refD` of neighbour `k`: the stored index,
doubled (field macroblock, frame neighbour) or halved (frame macroblock, field
neighbour) under MB-AFF, and -1 for an unavailable neighbour. -/
def spatialRef (inp : SpatialInput) (k : Nat) : Int :=
  let b := inp.block k
  if inp.MbaffFrameFlag = 0 then
    (if b.available ≠ 0 then inp.refPic b.pos_y b.pos_x else -1)
  else if inp.list_offset ≠ 0 then
    (if b.available ≠ 0 then
      (if inp.mb_field b.mb_addr ≠ 0 then inp.refPic b.pos_y b.pos_x
        else wrap16 (inp.refPic b.pos_y b.pos_x * 2))
      else -1)
  else
    (if b.available ≠ 0 then
      (if inp.mb_field b.mb_addr ≠ 0 then Int.shiftRight (inp.refPic b.pos_y b.pos_x) 1
        else inp.refPic b.pos_y b.pos_x)
      else -1)

/-- The predictor written for neighbour `k`: the scaled vector of an available
neighbour, with `mv_y` doubled or halved under MB-AFF when the neighbour's
field/frame mode differs, and the fixed vector `sentinel` otherwise. -/
def spatialPoint (inp : SpatialInput) (k : Nat) (sentinel : MotionVector) : MotionVector :=
  let b := inp.block k
  if b.available ≠ 0 then
    let p := inp.scale_mv (inp.mot_scale (spatialRef inp k)) (inp.tmp_mv b.pos_y b.pos_x) 8
    if inp.MbaffFrameFlag = 0 then p
    else if inp.list_offset ≠ 0 then
      (if inp.mb_field b.mb_addr = 0 then { p with mv_y := wrap16 (p.mv_y * 2) } else p)
    else
      (if inp.mb_field b.mb_addr ≠ 0 then { p with mv_y := wrap16 (rshift_rnd_sf p.mv_y 1) }
        else p)
  else sentinel

/-- The points `EPZSSpatialPredictors` writes through `point++`, in order: the
zero predictor, then left, above, above-right and above-left. In the frame
macroblock branch of MB-AFF the fixed vector for a missing above-left neighbour
is (12, 0), elsewhere (0, -12). -/
def EPZSSpatialPredictors_points (inp : SpatialInput) : List MotionVector :=
  [{ mv_x := 0, mv_y := 0 },
   spatialPoint inp 0 { mv_x := 12, mv_y := 0 },
   spatialPoint inp 1 { mv_x := 0, mv_y := 12 },
   spatialPoint inp 2 { mv_x := -12, mv_y := 0 },
   spatialPoint inp 3
     (if inp.MbaffFrameFlag ≠ 0 ∧ inp.list_offset = 0 then { mv_x := 12, mv_y := 0 }
      else { mv_x := 0, mv_y := -12 })]

/-- The inputs of `EPZSTemporalPredictors`: the co-located vectors
`col_mv[y][x]`, the flags `block_available[0..3]` computed by
`is_block_available`, the fields of `mv_block`, the scale factor, the two
costs, and the routine `add_predictor` of the encoder's headers, taken as
`add_predictor prd_mv mvScale shift`, the vector it stores and the value it
returns. -/
structure TemporalInput where
  col_mv : Int → Int → MotionVector
  block_available : Int → Int
  blockshape_x : Int
  blockshape_y : Int
  o_block_x : Int
  o_block_y : Int
  ref : Int
  mvScale : Int
  stopCriterion : Int
  min_mcost : Int
  add_predictor : MotionVector → Int → Int → MotionVector × Int

/-- The statement
`*prednum += add_predictor (&point[*prednum].motion, prd_mv, mvScale, 8)` on
the pair of the point array and `*prednum`. -/
def addPredictor (inp : TemporalInput) (s : (Int → MotionVector) × Int)
    (prd_mv : MotionVector) : (Int → MotionVector) × Int :=
  (storePoints s.1 s.2 [(inp.add_predictor prd_mv inp.mvScale 8).1],
   s.2 + (inp.add_predictor prd_mv inp.mvScale 8).2)

/-- The blocks `if (block_available[2]) { ... }` and `if (block_available[0]) { ... }`
of `EPZSTemporalPredictors`, which differ in the flag and in the column `x` of
the co-located vectors: the neighbour in the same row, then the one above and
the one below it. -/
def temporalColumn (inp : TemporalInput) (avail x : Int) (s : (Int → MotionVector) × Int) :
    (Int → MotionVector) × Int :=
  if avail ≠ 0 then
    let s := addPredictor inp s (inp.col_mv inp.o_block_y x)
    let s := if inp.block_available 3 ≠ 0 then
      addPredictor inp s (inp.col_mv (inp.o_block_y - 1) x) else s
    if inp.block_available 1 ≠ 0 then
      addPredictor inp s (inp.col_mv (inp.o_block_y + inp.blockshape_y) x) else s
  else s

/-- The routine `EPZSTemporalPredictors` on the pair of the point array and
`*prednum`. -/
def EPZSTemporalPredictors (inp : TemporalInput) (s : (Int → MotionVector) × Int) :
    (Int → MotionVector) × Int :=
  let s := addPredictor inp s (inp.col_mv inp.o_block_y inp.o_block_x)
  if inp.min_mcost > inp.stopCriterion ∧ inp.ref < 2 then
    let s := temporalColumn inp (inp.block_available 2) (inp.o_block_x - 1) s
    -- Up
    let s := if inp.block_available 3 ≠ 0 then
      addPredictor inp s (inp.col_mv (inp.o_block_y - 1) inp.o_block_x) else s
    -- Up - Right
    let s := temporalColumn inp (inp.block_available 0) (inp.o_block_x + inp.blockshape_x) s
    if inp.block_available 1 ≠ 0 then
      addPredictor inp s (inp.col_mv (inp.o_block_y + inp.blockshape_y) inp.o_block_x) else s
  else s

/-- The fields `searchPoints` and `point` of `EPZSStructure`; the list holds
the entries of the array that have been assigned. -/
structure EPZSStructure where
  searchPoints : Int
  point : List MotionVector
  deriving DecidableEq

/-- The eight points of one pass of the first `for (i = 1; i >= -1; i -= 2)`
loop pair of `EPZSWindowPredictorInit`, stored as `short`. -/
def windowRing (searchpos : Int) : List MotionVector :=
  [1, -1].flatMap (fun (i : Int) =>
    [{ mv_x := wrap16 (i * searchpos), mv_y := 0 },
     { mv_x := wrap16 (i * searchpos), mv_y := wrap16 (i * searchpos) },
     { mv_x := 0, mv_y := wrap16 (i * searchpos) },
     { mv_x := wrap16 (-i * searchpos), mv_y := wrap16 (i * searchpos) }])

/-- The twelve points of the second loop of `EPZSWindowPredictorInit`
(`mode != 0`). -/
def windowFieldRing (searchpos fieldsearchpos : Int) : List MotionVector :=
  [1, -1].flatMap (fun (i : Int) =>
    [{ mv_x := wrap16 (i * fieldsearchpos), mv_y := wrap16 (-i * searchpos) },
     { mv_x := wrap16 (i * fieldsearchpos), mv_y := 0 },
     { mv_x := wrap16 (i * fieldsearchpos), mv_y := wrap16 (i * searchpos) },
     { mv_x := wrap16 (i * searchpos), mv_y := wrap16 (i * fieldsearchpos) },
     { mv_x := 0, mv_y := wrap16 (i * fieldsearchpos) },
     { mv_x := wrap16 (-i * searchpos), mv_y := wrap16 (i * fieldsearchpos) }])

/-- The points generated for one value of `pos`, with
`searchpos = (search_range << 2) >> pos` and
`fieldsearchpos = ((3 * searchpos + 1) << 2) >> 1`, both `short`. -/
def windowLevel (search_range mode : Int) (pos : Nat) : List MotionVector :=
  let searchpos := wrap16 (Int.shiftRight (search_range * 4) pos)
  if mode = 0 then windowRing searchpos
  else
    let fieldsearchpos := wrap16 (Int.shiftRight ((3 * searchpos + 1) * 4) 1)
    windowRing searchpos ++ windowFieldRing searchpos fieldsearchpos

/-- The routine `EPZSWindowPredictorInit`: the loop
`for (pos = RoundLog2 (search_range) - 2; pos > -1; pos--)` writes its points to
`point[++prednum]`, starting from `prednum = -1`, and the final `prednum` is
stored in `searchPoints`. `RoundLog2` is run with 30 tests of its loop
condition, enough for every `short`. -/
def EPZSWindowPredictorInit (search_range mode : Int) : Option EPZSStructure :=
  match RoundLog2 30 search_range with
  | some l =>
    let pts := (List.range (l - 1)).reverse.flatMap (windowLevel search_range mode)
    some { searchPoints := -1 + (pts.length : Int), point := pts }
  | none => none

/-- Modelled from the spec: the helper `add_MVs` of the encoder's headers, the
translation of a vector by a base vector, component by component in `short`. -/
def add_MVs (mv0 mv1 : MotionVector) : MotionVector :=
  { mv_x := wrap16 (mv0.mv_x + mv1.mv_x), mv_y := wrap16 (mv0.mv_y + mv1.mv_y) }

/-- The points `EPZSWindowPredictors` writes: one for every
`pos < windowPred->searchPoints`. Entries of the pattern array that were never
assigned read as zero (the array comes from `calloc`). -/
def EPZSWindowPredictors_points (mv : MotionVector) (windowPred : EPZSStructure) :
    List MotionVector :=
  (List.range windowPred.searchPoints.toNat).map (fun pos =>
    add_MVs (windowPred.point.getD pos { mv_x := 0, mv_y := 0 }) mv)

/-- The routine `EPZSWindowPredictors` on the pair of the point array of
`predictor` and `*prednum`. -/
def EPZSWindowPredictors (mv : MotionVector) (s : (Int → MotionVector) × Int)
    (windowPred : EPZSStructure) : (Int → MotionVector) × Int :=
  (storePoints s.1 s.2 (EPZSWindowPredictors_points mv windowPred),
   s.2 + windowPred.searchPoints)

/-! ## Coefficient-count prediction (ldecod/src/macroblock.c) -/

/-- The routine `predict_nnz`; `nz_coeff mb_x mb_y i j` is
`img->nz_coeff[mb_x][mb_y][i][j]`. -/
def predict_nnz (mb_x mb_y : Int) (nz_coeff : Int → Int → Int → Int → Int) (i j : Int) : Int :=
  let Left_block :=
    if i ≠ 0 then nz_coeff mb_x mb_y (i - 1) j
    else (if mb_x > 0 then nz_coeff (mb_x - 1) mb_y 3 j else -1)
  let Top_block :=
    if j ≠ 0 then nz_coeff mb_x mb_y i (j - 1)
    else (if mb_y > 0 then nz_coeff mb_x (mb_y - 1) i 3 else -1)
  let pred_nnz : Int := 0
  let cnt : Int := 0
  let pred_nnz := if Left_block > -1 then Left_block else pred_nnz
  let cnt := if Left_block > -1 then cnt + 1 else cnt
  let pred_nnz := if Top_block > -1 then pred_nnz + Top_block else pred_nnz
  let cnt := if Top_block > -1 then cnt + 1 else cnt
  if cnt ≠ 0 then Int.tdiv pred_nnz cnt else pred_nnz

/-- The choice of `numcoeff_vlc` from the prediction `nnz` in
`readCoeff4x4_CAVLC`. -/
def numcoeff_vlc (nnz : Int) : Int :=
  if nnz < 2 then 0 else if nnz < 4 then 1 else if nnz < 8 then 2 else 3

/-! ## Temporal direct mode (ldecod/src/macroblock.c) -/

/-- The forward vector component of temporal direct mode,
`(mv_scale * mv + 128) >> 8`, evaluated in `int`. -/
def directForwardMv (mv_scale mv : Int) : Int :=
  Int.shiftRight (wrap32 (wrap32 (mv_scale * mv) + 128)) 8

/-- The backward vector component of temporal direct mode,
`((mv_scale - 256) * mv + 128) >> 8`, evaluated in `int`. -/
def directBackwardMv (mv_scale mv : Int) : Int :=
  Int.shiftRight (wrap32 (wrap32 (wrap32 (mv_scale - 256) * mv) + 128)) 8

/-! ## EPZS refinement patterns (lencod/src/me_epzs_common.c) -/

/-- The table `pattern_data[5][12][4]`, each entry being
`{mv_x, mv_y, start_nmbr, next_points}`. The rows are given as far as they are
initialised; the remaining entries of the C array are zero and are never read. -/
def pattern_data : List (List (List Int)) :=
  [ -- Small Diamond pattern
    [[0, 4, 3, 3], [4, 0, 0, 3], [0, -4, 1, 3], [-4, 0, 2, 3]],
    -- Square pattern
    [[0, 4, 7, 3], [4, 4, 7, 5], [4, 0, 1, 3], [4, -4, 1, 5],
     [0, -4, 3, 3], [-4, -4, 3, 5], [-4, 0, 5, 3], [-4, 4, 5, 5]],
    -- Enhanced Diamond pattern
    [[-4, 4, 10, 5], [0, 8, 10, 8], [0, 4, 10, 7], [4, 4, 1, 5],
     [8, 0, 1, 8], [4, 0, 1, 7], [4, -4, 4, 5], [0, -8, 4, 8],
     [0, -4, 4, 7], [-4, -4, 7, 5], [-8, 0, 7, 8], [-4, 0, 7, 7]],
    -- Large Diamond pattern
    [[0, 8, 6, 5], [4, 4, 0, 3], [8, 0, 0, 5], [4, -4, 2, 3],
     [0, -8, 2, 5], [-4, -4, 4, 3], [-8, 0, 4, 5], [-4, 4, 6, 3]],
    -- Extended Subpixel pattern
    [[0, 8, 6, 12], [4, 4, 0, 12], [8, 0, 0, 12], [4, -4, 2, 12],
     [0, -8, 2, 12], [-4, -4, 4, 12], [-8, 0, 4, 12], [-4, 4, 6, 12],
     [0, 2, 6, 12], [2, 0, 0, 12], [0, -2, 2, 12], [-2, 0, 4, 12]] ]

/-- The pattern type numbers `SDIAMOND`, ..., `SBDIAMOND`, constants of the
encoder's headers that select a row of `pattern_data`. -/
structure PatternTypes where
  SDIAMOND : Int
  SQUARE : Int
  EDIAMOND : Int
  LDIAMOND : Int
  SBDIAMOND : Int

/-- The fields of `SPoint` set by `assignEPZSpattern`. -/
structure SPoint where
  motion : MotionVector
  start_nmbr : Int
  next_points : Int
  deriving DecidableEq

/-- A search pattern as `allocEPZSpattern` and `assignEPZSpattern` leave it:
`searchPoints`, the array `point`, and the two flags. The pointer `nextpattern`
is not modelled. -/
structure SearchPattern where
  searchPoints : Int
  point : List SPoint
  stopSearch : Int
  nextLast : Int
  deriving DecidableEq

/-- The read `pattern_data[type][i][c]`; `none` outside the initialised part of
the table. -/
def pattern_entry (type : Int) (i : Nat) (c : Nat) : Option Int :=
  if 0 ≤ type then
    match pattern_data[type.toNat]? with
    | some row =>
      match row[i]? with
      | some e => e[c]?
      | none => none
    | none => none
  else none

/-- The point `pattern->point[i]` written by one pass of the loop of
`assignEPZSpattern`. -/
def assignEPZSpattern_point (type : Int) (i : Nat) : Option SPoint :=
  match pattern_entry type i 0, pattern_entry type i 1, pattern_entry type i 2,
      pattern_entry type i 3 with
  | some x, some y, some s, some n =>
    some { motion := { mv_x := x, mv_y := y }, start_nmbr := s, next_points := n }
  | _, _, _, _ => none

/-- The calls `allocEPZSpattern (searchpoints)` and
`assignEPZSpattern (pattern, type, stopSearch, nextLast, nextpattern)`. -/
def assignEPZSpattern (searchpoints : Nat) (type stopSearch nextLast : Int) :
    Option SearchPattern :=
  match (List.range searchpoints).mapM (assignEPZSpattern_point type) with
  | some pts =>
    some { searchPoints := searchpoints, point := pts, stopSearch := stopSearch,
           nextLast := nextLast }
  | none => none

/-- The six patterns built by `EPZSInit`. -/
structure EPZSPatterns where
  sdiamond : SearchPattern
  square : SearchPattern
  ediamond : SearchPattern
  ldiamond : SearchPattern
  sbdiamond : SearchPattern
  pmvfast : SearchPattern

/-- The routine `EPZSInit`, with `TRUE = 1` and `FALSE = 0`. -/
def EPZSInit (T : PatternTypes) : Option EPZSPatterns :=
  match assignEPZSpattern 4 T.SDIAMOND 1 1, assignEPZSpattern 8 T.SQUARE 1 1,
      assignEPZSpattern 12 T.EDIAMOND 1 1, assignEPZSpattern 8 T.LDIAMOND 1 1,
      assignEPZSpattern 12 T.SBDIAMOND 0 1, assignEPZSpattern 8 T.LDIAMOND 0 1 with
  | some a, some b, some c, some d, some e, some f =>
    some { sdiamond := a, square := b, ediamond := c, ldiamond := d, sbdiamond := e,
           pmvfast := f }
  | _, _, _, _, _, _ => none

/-- The point indices of the cyclic window
`[start_nmbr, start_nmbr + next_points)` of a point, in a pattern of `n`
points. -/
def nextWindow (n : Nat) (p : SPoint) : List Nat :=
  (List.range p.next_points.toNat).map (fun k => (p.start_nmbr.toNat + k) % n)

/-- The property of a self-chaining pattern as the specification words it: for
each point with offset `d`, `start_nmbr` is a valid point index, `next_points`
does not exceed the pattern size, and every pattern offset `p` for which `d + p`
is neither the old centre (0,0) nor an offset of the pattern has its index in
the cyclic window of the point. -/
def coversUnvisited (pat : SearchPattern) : Bool :=
  pat.point.all (fun pt =>
    decide (0 ≤ pt.start_nmbr) && decide (pt.start_nmbr < pat.point.length) &&
    decide (pt.next_points ≤ pat.point.length) &&
    (List.range pat.point.length).all (fun i =>
      match pat.point[i]? with
      | some q =>
        let t : MotionVector :=
          { mv_x := pt.motion.mv_x + q.motion.mv_x, mv_y := pt.motion.mv_y + q.motion.mv_y }
        decide (t = { mv_x := 0, mv_y := 0 }) || (pat.point.map (fun z => z.motion)).contains t ||
          (nextWindow pat.point.length pt).contains i
      | none => true))

/-! ## Allocation of the window predictors (lencod/src/me_epzs_common.c) -/

/-- The window predictors as `EPZSStructInit` leaves them: the numbers of points
passed to `allocEPZSpattern` for `window_predictor` and `window_predictor_ext`,
and the two structures after `EPZSWindowPredictorInit`. -/
structure WindowPredictors where
  window_predictor_alloc : Int
  window_predictor_ext_alloc : Int
  window_predictor : EPZSStructure
  window_predictor_ext : EPZSStructure
  deriving DecidableEq

/-- The part of `EPZSStructInit` that allocates and fills the window
predictors: `searchlevels = RoundLog2 (search_range) - 1`, the allocations of
`searchlevels * 8` and `searchlevels * 20` points, and the two calls of
`EPZSWindowPredictorInit` with `(short) search_range` and modes 0 and 1. -/
def EPZSStructInit_windows (search_range : Int) : Option WindowPredictors :=
  match RoundLog2 30 search_range with
  | some l =>
    let searchlevels : Int := (l : Int) - 1
    match EPZSWindowPredictorInit (wrap16 search_range) 0,
        EPZSWindowPredictorInit (wrap16 search_range) 1 with
    | some w, some e =>
      some { window_predictor_alloc := searchlevels * 8,
             window_predictor_ext_alloc := searchlevels * 20,
             window_predictor := w, window_predictor_ext := e }
    | _, _ => none
  | none => none

/-! ## The run loop of `readCoeff4x4_CAVLC` (ldecod/src/macroblock.c) -/

/-- The indices `i % NumberOfMBs` at which one call of `RandomIntraNewPicture`
in state `s` reads `RefreshPattern`, for `j = 0 .. NumberIntraPerPicture-1`,
with `i` starting from the advanced cursor. -/
def refreshIndices (s : IntraRefresh) : List Int :=
  let walk := wrap32 (s.WalkAround + s.NumberIntraPerPicture)
  (List.range s.NumberIntraPerPicture.toNat).map (fun (j : Nat) =>
    Int.tmod (wrap32 (walk + (j : Int))) s.NumberOfMBs)

/-! ## Frame and field views of a macroblock pair (ldecod/src/macroblock.c) -/

/-- The array the global pointer `imgY` points to: one of `imgY_frm`,
`imgY_top`, `imgY_bot`. -/
inductive LumaView where
  | frm
  | top
  | bot
  deriving DecidableEq

/-- The luma data `init_super_macroblock` and `exit_super_macroblock` work on:
the three sample arrays (three separate allocations), the pointer `imgY`, and
the fields of `struct img_par` they read. -/
structure SuperMB where
  imgY_frm : Int → Int → Int
  imgY_top : Int → Int → Int
  imgY_bot : Int → Int → Int
  imgY : LumaView
  mb_x : Int
  mb_y : Int
  mb_field : Int
  current_mb_nr : Int

/-- The array read through the pointer `imgY`. -/
def SuperMB.imgY_read (s : SuperMB) : Int → Int → Int :=
  match s.imgY with
  | LumaView.frm => s.imgY_frm
  | LumaView.top => s.imgY_top
  | LumaView.bot => s.imgY_bot

/-- The routine `init_super_macroblock`, its assignment to `imgY`. -/
def init_super_macroblock (s : SuperMB) : SuperMB :=
  if s.mb_field = 0 then { s with imgY := LumaView.frm }
  else if Int.tmod s.current_mb_nr 2 ≠ 0 then { s with imgY := LumaView.bot } -- bottom field
  else { s with imgY := LumaView.top }

/-- The index pairs `(i, j)` of a loop nest
`for (i=0;i<n;i++) for (j=0;j<m;j++)`, in the order of execution. -/
def loopPairs (n m : Nat) : List (Nat × Nat) :=
  (List.range n).flatMap (fun i => (List.range m).map (fun j => (i, j)))

/-- The body of the luma loop of the frame branch of `exit_super_macroblock`:
`imgY_top[field_y+i][offset_x+j] = imgY[offset_y+i*2][offset_x+j];`
`imgY_bot[field_y+i][offset_x+j] = imgY[offset_y+i*2+1][offset_x+j];`. -/
def fillFieldStep (offset_y offset_x field_y : Int) (s : SuperMB) (ij : Nat × Nat) : SuperMB :=
  let top := s.imgY_read (offset_y + ij.1 * 2) (offset_x + ij.2)
  let s1 := { s with imgY_top := setCell s.imgY_top (field_y + ij.1) (offset_x + ij.2) top }
  let bot := s1.imgY_read (offset_y + ij.1 * 2 + 1) (offset_x + ij.2)
  { s1 with imgY_bot := setCell s1.imgY_bot (field_y + ij.1) (offset_x + ij.2) bot }

/-- The body of the luma loop of the field branch for an odd address:
`imgY_frm[offset_y+i*2][offset_x+j] = imgY_bot[field_y+i][offset_x+j];`. -/
def fillFrameFromBotStep (offset_y offset_x field_y : Int) (s : SuperMB) (ij : Nat × Nat) :
    SuperMB :=
  let v := s.imgY_bot (field_y + ij.1) (offset_x + ij.2)
  { s with imgY_frm := setCell s.imgY_frm (offset_y + ij.1 * 2) (offset_x + ij.2) v }

/-- The body of the luma loop of the field branch for an even address:
`imgY_frm[offset_y+i*2][offset_x+j] = imgY_top[field_y+i][offset_x+j];`. -/
def fillFrameFromTopStep (offset_y offset_x field_y : Int) (s : SuperMB) (ij : Nat × Nat) :
    SuperMB :=
  let v := s.imgY_top (field_y + ij.1) (offset_x + ij.2)
  { s with imgY_frm := setCell s.imgY_frm (offset_y + ij.1 * 2) (offset_x + ij.2) v }

/-- The luma part of `exit_super_macroblock`: the three luma loops and the
final `imgY = imgY_frm`. The writes to `field_anchor` and the chroma loops
work on other arrays. -/
def exit_super_macroblock (s : SuperMB) : SuperMB :=
  let offset_y := s.mb_y * MB_BLOCK_SIZE
  let offset_x := s.mb_x * MB_BLOCK_SIZE
  let field_y := Int.tdiv offset_y 2
  let r :=
    if s.mb_field = 0 then
      -- fill field buffer
      (loopPairs (MB_BLOCK_SIZE / 2).toNat MB_BLOCK_SIZE.toNat).foldl
        (fillFieldStep offset_y offset_x field_y) s
    else if Int.tmod s.current_mb_nr 2 ≠ 0 then
      let offset_y := offset_y - (MB_BLOCK_SIZE - 1)
      let field_y := field_y - MB_BLOCK_SIZE / 2
      (loopPairs MB_BLOCK_SIZE.toNat MB_BLOCK_SIZE.toNat).foldl
        (fillFrameFromBotStep offset_y offset_x field_y) s
    else
      (loopPairs MB_BLOCK_SIZE.toNat MB_BLOCK_SIZE.toNat).foldl
        (fillFrameFromTopStep offset_y offset_x field_y) s
  { r with imgY := LumaView.frm }

/-! ## Concrete inputs used in the examples -/

/-- Sample values for the header constants, with the quantiser range `0..51`
of H.264. -/
def exDefines : Defines :=
  { FRAME := 0, B_IMG_1 := 3, B_IMG_MULT := 4, DC_PRED := 0, IBLOCK := 11, I4MB := 9,
    I16MB := 10, NO_ABT := 0, INTER_INTRA_ABT := 2, USEABT := 0, MIN_QP := 0, MAX_QP := 51 }

/-- A frame macroblock at macroblock position (1,1) of a picture four
macroblocks wide. -/
def exImg : img_par :=
  { block_x := 4, block_y := 4, width := 64, mb_x := 1, mb_y := 1, structure_ := 0,
    mb_field := 0, current_mb_nr := 5, type := 0, mb_frame_field_flag := 0,
    mv_top := fun _ _ _ => 0, mv_bot := fun _ _ _ => 0 }

/-- A reference-index array `refFrArr[y][x]`: the left neighbour (4,3) and the
upper neighbour (3,4) of block (4,4) use reference 0, all other blocks
reference 1. -/
def exRef : Int → Int → Int :=
  fun y x => if (y = 4 ∧ x = 3) ∨ (y = 3 ∧ x = 4) then 0 else 1

/-- A motion-vector array `tmp_mv[x][y][hv]`: horizontal component 4 at the
left neighbour (7,4), 0 at the upper neighbour (8,3) and -4 elsewhere; all
vertical components 0. -/
def exMv : Int → Int → Int → Int :=
  fun x y hv =>
    if hv = 0 then (if x = 7 ∧ y = 4 then 4 else if x = 8 ∧ y = 3 then 0 else -4) else 0

/-- A macroblock record carrying the macroblock-type code `c`. -/
def exMb (c : Int) : Macroblock :=
  { mb_type := c, b8mode := [0, 0, 0, 0], b8pdir := [0, 0, 0, 0], useABT := [0, 0, 0, 0],
    cbp := 0, i16mode := 0 }

/-- A reader returning the listed values in order (and 0 afterwards). -/
def readFrom (vals : List Int) : Nat → Int := fun n => vals.getD n 0

/-- A `rand()` sequence for the examples: the `k`-th call returns `k`. -/
def exRand : Nat → Nat := fun k => k

/-- Array contents for the examples: every entry reads 0. -/
def zeroMem : Int → Int := fun _ => 0

/-- Threshold inputs: 8-bit luma, chroma-aware motion estimation disabled, and
the three multipliers as given. -/
def exThresInput (smin smed smax : Int) : EPZSThresInput :=
  { bitdepth_luma := 8, ChromaMEEnable := false, chromaWeighted := fun _ => 0,
    EPZSMinThresScale := smin, EPZSMedThresScale := smed, EPZSMaxThresScale := smax,
    EPZSSubPelThresScale := 1 }

/-- The thresholds for 8-bit luma with all three multipliers 1. -/
def exThresholds : EPZSThresholds := EPZSStructInit_thresholds (exThresInput 1 1 1)

/-- Sample values for the further header constants. -/
def exModeDefines : ModeDefines := { P8x8 := 8, SI4MB := 12, B8x8 := 0, ABT_OFF := -1 }

/-- A mode-interpreter state whose macroblock record carries the type code `c`. -/
def exModeState (c : Int) : MbModeState :=
  { currMB := exMb c, abt_mode := [0, 0, 0, 0], bipred_weighting_type := [0, 0, 0, 0],
    allrefzero := 0, siblock := 0 }

/-- A decoder position record for a picture `W` macroblocks wide with
field/frame-adaptive coding switched on (`flag = 1`) or off (`flag = 0`), the
address on entry being 0 of 99. -/
def exPosition (W flag : Int) : ImgPosition :=
  { current_mb_nr := 0, max_mb_nr := 99, width := 16 * W, mb_frame_field_flag := flag,
    mb_x := 0, mb_y := 0, block_x := 0, block_y := 0, pix_x := 0, pix_y := 0,
    pix_c_x := 0, pix_c_y := 0 }

/-- A macroblock at position (`mb_x`, `mb_y`) of a picture `W` macroblocks wide,
with the given slice numbers, intra flags and prior content of the mode grid;
`mb_available` starts with every entry pointing at macroblock 99. -/
def exNeighborState (W mb_x mb_y constrained : Int) (slice_nr : Int → Int)
    (intra_block : Int → Int → Int) (ipredmode : Int → Int → Int) : NeighborState :=
  { width := 16 * W
    current_mb_nr := mb_y * W + mb_x
    pix_x := 16 * mb_x
    pix_y := 16 * mb_y
    block_x := 4 * mb_x
    block_y := 4 * mb_y
    UseConstrainedIntraPred := constrained
    slice_nr := slice_nr
    intra_block := intra_block
    ipredmode := ipredmode
    mb_available := fun _ _ => some 99 }

/-- Slice numbers of a picture whose first five macroblocks form slice 0 and
the others slice 1. -/
def exSliceNr : Int → Int := fun k => if k < 5 then 0 else 1

/-- The 4x4 intra prediction mode numbers of H.264. -/
def exIntraDefines : IntraDefines :=
  { VERT_PRED := 0, HOR_PRED := 1, DC_PRED := 2, DIAG_DOWN_LEFT_PRED := 3,
    VERT_LEFT_PRED := 7, HOR_UP_PRED := 8, NO_INTRA_PMODE := 9 }

/-- A neighbouring block at position (`x`, `y`) of the mode grid, in
macroblock `addr`. -/
def exPixelPos (available addr x y : Int) : PixelPos :=
  { available := available, mb_addr := addr, pos_x := x, pos_y := y }

/-- Loop inputs with every mode valid, the given availability flags and
most probable mode, a distortion of `dist m` for mode `m` in the luma plane and
none in the chroma planes, and a rate-distortion cost of `dist m`. -/
def exModeLoopInput (all up left mpm : Int) (dist : Int → Int) : ModeLoopInput :=
  { all_available := all, up_available := up, left_available := left, P444_joined := 0,
    mostProbableMode := mpm, valid_intra_mode := fun _ => 1,
    compute_cost4x4 := fun plane m cost _ => if plane = 0 then cost + dist m else cost,
    rdcost_for_4x4_intra_blocks := fun m _ => (dist m : Rat) }

/-- A luma distortion per mode: 30 for mode 1, 40 for mode 2 and 50 for the
other modes. -/
def exDist : Int → Int := fun m => if m = 1 then 30 else if m = 2 then 40 else 50

/-- A stand-in for `add_predictor`: it stores the vector scaled by
`mvScale / 2^shift` and returns 1 when the stored vector is not zero. -/
def exAddPredictor : MotionVector → Int → Int → MotionVector × Int :=
  fun prd mvScale shift =>
    ({ mv_x := wrap16 (rshift_rnd_sf (mvScale * prd.mv_x) shift.toNat),
       mv_y := wrap16 (rshift_rnd_sf (mvScale * prd.mv_y) shift.toNat) },
     if wrap16 (rshift_rnd_sf (mvScale * prd.mv_x) shift.toNat) = 0 ∧
        wrap16 (rshift_rnd_sf (mvScale * prd.mv_y) shift.toNat) = 0 then 0 else 1)

/-- Temporal-predictor inputs for an 8x8 block at block position (4, 4) with
reference 0, unit scale, a running cost of 1000 above the stop criterion 100,
and the given co-located vectors and availability flags. -/
def exTemporalInput (col_mv : Int → Int → MotionVector) (avail : Int → Int) : TemporalInput :=
  { col_mv := col_mv, block_available := avail, blockshape_x := 2, blockshape_y := 2,
    o_block_x := 4, o_block_y := 4, ref := 0, mvScale := 256, stopCriterion := 100,
    min_mcost := 1000, add_predictor := exAddPredictor }

/-- A point array holding the vector (99, 99) in every entry. -/
def exPoints : Int → MotionVector := fun _ => { mv_x := 99, mv_y := 99 }

/-- Coefficient counts: 5 in every block of macroblock (1,1), 2 in every block
of its left neighbour and 9 in every block of its upper neighbour. -/
def exNzCoeff : Int → Int → Int → Int → Int :=
  fun mb_x mb_y _ _ => if mb_x = 0 ∧ mb_y = 1 then 2 else if mb_x = 1 ∧ mb_y = 0 then 9 else 5

/-- Spatial-predictor inputs with the given MB-AFF flag, list offset and
availability of the four neighbours; every stored reference is 0, every stored
vector is (8, 8), the scale is 256 and `scale_mv` returns the vector unscaled. -/
def exSpatialInput (mbaff list_offset : Int) (avail : Nat → Int) : SpatialInput :=
  { MbaffFrameFlag := mbaff, list_offset := list_offset,
    block := fun k => { available := avail k, mb_addr := 0, pos_x := 0, pos_y := 0 },
    refPic := fun _ _ => 0, tmp_mv := fun _ _ => { mv_x := 8, mv_y := 8 },
    mot_scale := fun _ => 256, mb_field := fun _ => 0, scale_mv := fun _ mv _ => mv }

/-- The pattern type numbers in the order of the rows of `pattern_data`. -/
def exPatternTypes : PatternTypes :=
  { SDIAMOND := 0, SQUARE := 1, EDIAMOND := 2, LDIAMOND := 3, SBDIAMOND := 4 }

/-- A macroblock at `mb_x = 1` whose three luma arrays hold distinguishable
samples: `1000 + 100 p + c` in the frame array, `20000 + 100 p + c` in the top
field and `30000 + 100 p + c` in the bottom field, with `imgY` on `imgY_frm`. -/
def exSuperMB (mb_field current_mb_nr mb_y : Int) : SuperMB :=
  { imgY_frm := fun p c => 1000 + 100 * p + c
    imgY_top := fun p c => 20000 + 100 * p + c
    imgY_bot := fun p c => 30000 + 100 * p + c
    imgY := LumaView.frm
    mb_x := 1
    mb_y := mb_y
    mb_field := mb_field
    current_mb_nr := current_mb_nr }

/-! # Theorems -/

/-! ## Median motion-vector prediction -/

/-- When no single neighbour matches the target reference and no directional
rule applies, the prediction type stays `MVPRED_MEDIAN`. -/
theorem mvPredType_median (rL rU rUR ref_frame mb_x mb_y blockshape_x blockshape_y : Int)
    (hone : ¬ ((rL = ref_frame ∧ rU ≠ ref_frame ∧ rUR ≠ ref_frame) ∨
      (rL ≠ ref_frame ∧ rU = ref_frame ∧ rUR ≠ ref_frame) ∨
      (rL ≠ ref_frame ∧ rU ≠ ref_frame ∧ rUR = ref_frame)))
    (htall : blockshape_x = 8 ∧ blockshape_y = 16 →
      (mb_x = 0 → rL ≠ ref_frame) ∧ (mb_x ≠ 0 → rUR ≠ ref_frame))
    (hwide : blockshape_x = 16 ∧ blockshape_y = 8 →
      (mb_y = 0 → rU ≠ ref_frame) ∧ (mb_y ≠ 0 → rL ≠ ref_frame)) :
    mvPredType rL rU rUR ref_frame mb_x mb_y blockshape_x blockshape_y
      = MvPredType.MVPRED_MEDIAN := by
  have n1 : ¬ (rL = ref_frame ∧ rU ≠ ref_frame ∧ rUR ≠ ref_frame) :=
    fun h => hone (Or.inl h)
  have n2 : ¬ (rL ≠ ref_frame ∧ rU = ref_frame ∧ rUR ≠ ref_frame) :=
    fun h => hone (Or.inr (Or.inl h))
  have n3 : ¬ (rL ≠ ref_frame ∧ rU ≠ ref_frame ∧ rUR = ref_frame) :=
    fun h => hone (Or.inr (Or.inr h))
  unfold mvPredType
  rw [if_neg n1, if_neg n2, if_neg n3]
  by_cases hs : blockshape_x = 8 ∧ blockshape_y = 16
  · rw [if_pos hs]
    by_cases hx : mb_x = 0
    · rw [if_pos hx, if_neg ((htall hs).1 hx)]
    · rw [if_neg hx, if_neg ((htall hs).2 hx)]
  · rw [if_neg hs]
    by_cases hw : blockshape_x = 16 ∧ blockshape_y = 8
    · rw [if_pos hw]
      by_cases hy : mb_y = 0
      · rw [if_pos hy, if_neg ((hwide hw).1 hy)]
      · rw [if_neg hy, if_neg ((hwide hw).2 hy)]
    · rw [if_neg hw]

/-- In a frame macroblock the context keeps the caller's motion-vector array
and addresses the block at `(img.block_x + block_x, img.block_y + block_y)`. -/
theorem mbContext_frame (D : Defines) (img : img_par) (tmp_mv : Int → Int → Int → Int)
    (block_x block_y : Int) (hframe : isFieldMb D img = false) :
    (mbContext D img tmp_mv block_x block_y).pic_block_x = img.block_x + block_x ∧
    (mbContext D img tmp_mv block_x block_y).pic_block_y = img.block_y + block_y ∧
    (mbContext D img tmp_mv block_x block_y).tmp_mv = tmp_mv := by
  simp [mbContext, hframe]

/-- C1 (amended): in a frame (non-field) macroblock, for every block position
and block shape, if the left, above and above-right neighbours are all
available, it is not the case that exactly one of their reference indices
equals the target reference, and the block is not an 8x16 or 16x8 block whose
directionally preferred neighbour (8x16: left in the left column, above-right
otherwise; 16x8: above in the top row, left otherwise) carries the target
reference, then each returned component is `a+b+c-min(a,b,c)-max(a,b,c)` of
the three neighbours' components. -/
theorem SetMotionVectorPredictor_median (D : Defines) (img : img_par) (ref_frame : Int)
    (refFrArr : Int → Int → Int) (tmp_mv : Int → Int → Int → Int)
    (block_x block_y blockshape_x blockshape_y : Int)
    (hframe : isFieldMb D img = false)
    (hL : (blockAvail (mbContext D img tmp_mv block_x block_y) block_x block_y
      blockshape_x).block_available_left = true)
    (hU : (blockAvail (mbContext D img tmp_mv block_x block_y) block_x block_y
      blockshape_x).block_available_up = true)
    (hUR : (blockAvail (mbContext D img tmp_mv block_x block_y) block_x block_y
      blockshape_x).block_available_upright = true)
    (rL rU rUR : Int)
    (hrL : rL = refFrArr (img.block_y + block_y) (img.block_x + block_x - 1))
    (hrU : rU = refFrArr (img.block_y + block_y - 1) (img.block_x + block_x))
    (hrUR : rUR = refFrArr (img.block_y + block_y - 1)
      (img.block_x + block_x + Int.tdiv blockshape_x 4))
    (hone : ¬ ((rL = ref_frame ∧ rU ≠ ref_frame ∧ rUR ≠ ref_frame) ∨
      (rL ≠ ref_frame ∧ rU = ref_frame ∧ rUR ≠ ref_frame) ∨
      (rL ≠ ref_frame ∧ rU ≠ ref_frame ∧ rUR = ref_frame)))
    (htall : blockshape_x = 8 ∧ blockshape_y = 16 →
      (4 * block_x = 0 → rL ≠ ref_frame) ∧ (4 * block_x ≠ 0 → rUR ≠ ref_frame))
    (hwide : blockshape_x = 16 ∧ blockshape_y = 8 →
      (4 * block_y = 0 → rU ≠ ref_frame) ∧ (4 * block_y ≠ 0 → rL ≠ ref_frame))
    (a b c : Int → Int)
    (ha : ∀ hv, a hv = tmp_mv (4 + (img.block_x + block_x) - 1) (img.block_y + block_y) hv)
    (hb : ∀ hv, b hv = tmp_mv (4 + (img.block_x + block_x)) (img.block_y + block_y - 1) hv)
    (hc : ∀ hv, c hv = tmp_mv (4 + (img.block_x + block_x) + Int.tdiv blockshape_x 4)
      (img.block_y + block_y - 1) hv) :
    SetMotionVectorPredictor D img ref_frame refFrArr tmp_mv block_x block_y
        blockshape_x blockshape_y =
      (a 0 + b 0 + c 0 - cmin (a 0) (cmin (b 0) (c 0)) - cmax (a 0) (cmax (b 0) (c 0)),
       a 1 + b 1 + c 1 - cmin (a 1) (cmin (b 1) (c 1)) - cmax (a 1) (cmax (b 1) (c 1))) := by
  obtain ⟨hpx, hpy, hmv⟩ := mbContext_frame D img tmp_mv block_x block_y hframe
  have h1 : rFrameL (mbContext D img tmp_mv block_x block_y)
      (blockAvail (mbContext D img tmp_mv block_x block_y) block_x block_y blockshape_x)
      refFrArr = rL := by
    simp [rFrameL, hL, hpx, hpy, hrL]
  have h2 : rFrameU (mbContext D img tmp_mv block_x block_y)
      (blockAvail (mbContext D img tmp_mv block_x block_y) block_x block_y blockshape_x)
      refFrArr = rU := by
    simp [rFrameU, hU, hpx, hpy, hrU]
  have h3 : rFrameUR (mbContext D img tmp_mv block_x block_y)
      (blockAvail (mbContext D img tmp_mv block_x block_y) block_x block_y blockshape_x)
      refFrArr blockshape_x = rUR := by
    simp [rFrameUR, hUR, hpx, hpy, hrUR]
  have ht := mvPredType_median rL rU rUR ref_frame (4 * block_x) (4 * block_y)
    blockshape_x blockshape_y hone htall hwide
  unfold SetMotionVectorPredictor
  simp only [h1, h2, h3, ht]
  simp [predVec, hL, hU, hUR, hpx, hpy, hmv, ha, hb, hc]

/-- Witness for C1 (amended): a 16x16 block whose left and upper neighbours
both use the target reference; the horizontal components 4, 0, -4 give 0. -/
theorem SetMotionVectorPredictor_median_witness :
    SetMotionVectorPredictor exDefines exImg 0 exRef exMv 0 0 16 16 = (0, 0) := by
  have h := SetMotionVectorPredictor_median exDefines exImg 0 exRef exMv 0 0 16 16
    (by decide) (by decide) (by decide) (by decide) 0 0 1 (by decide) (by decide)
    (by decide) (by decide) (by decide) (by decide)
    (fun hv => exMv 7 4 hv) (fun hv => exMv 8 3 hv) (fun hv => exMv 12 3 hv)
    (fun _ => rfl) (fun _ => rfl) (fun _ => rfl)
  rw [h]
  decide

/-- C1 (counterexample): an 8x16 block in the left column of a frame
macroblock with all three neighbours available, whose left and upper
neighbours both use the target reference 0 (the above-right one does not).
The horizontal components are 4, 0, -4 with median 0, but the routine
returns the left neighbour's 4. -/
theorem SetMotionVectorPredictor_median_counterexample :
    isFieldMb exDefines exImg = false ∧
    blockAvail (mbContext exDefines exImg exMv 0 0) 0 0 8 =
      { block_available_up := true, block_available_left := true,
        block_available_upright := true, block_available_upleft := true } ∧
    exRef 4 3 = 0 ∧ exRef 3 4 = 0 ∧ exRef 3 6 = 1 ∧
    exMv 7 4 0 = 4 ∧ exMv 8 3 0 = 0 ∧ exMv 10 3 0 = -4 ∧
    (4 : Int) + 0 + (-4) - cmin 4 (cmin 0 (-4)) - cmax 4 (cmax 0 (-4)) = 0 ∧
    SetMotionVectorPredictor exDefines exImg 0 exRef exMv 0 0 8 16 = (4, 0) := by
  decide

/-! ## Intra prediction modes -/

/-- C2: in `read_ipred_modes`, for neighbour modes `up`, `left` in `0..8` the
most probable mode is the one with the smaller rank in `mapTab` (`left` when
the ranks are equal), and it is `DC_PRED` whenever either neighbour mode is
negative; for `left = 8`, `up = 3` the ranks are 6 and 4 and the most probable
mode is 3. -/
theorem mostProbableIntraPredMode_rank (D : Defines) (up left : Int) :
    (0 ≤ up ∧ up ≤ 8 ∧ 0 ≤ left ∧ left ≤ 8 →
      ∃ ru rl, tabGet mapTab up = some ru ∧ tabGet mapTab left = some rl ∧
        mostProbableIntraPredMode D up left = some (if ru < rl then up else left)) ∧
    (up < 0 ∨ left < 0 → mostProbableIntraPredMode D up left = some D.DC_PRED) ∧
    (tabGet mapTab 8 = some 6 ∧ tabGet mapTab 3 = some 4 ∧
      mostProbableIntraPredMode D 3 8 = some 3) := by
  refine ⟨?_, ?_, by decide, by decide, ?_⟩
  · rintro ⟨h1, h2, h3, h4⟩
    interval_cases up <;> interval_cases left <;>
      simp [mostProbableIntraPredMode, tabGet, mapTab]
  · intro h
    simp [mostProbableIntraPredMode, h]
  · simp [mostProbableIntraPredMode, tabGet, mapTab]

/-- Witness for C2: the neighbour modes `up = 3`, `left = 8`. -/
theorem mostProbableIntraPredMode_rank_witness :
    ∃ ru rl, tabGet mapTab 3 = some ru ∧ tabGet mapTab 8 = some rl ∧
      mostProbableIntraPredMode exDefines 3 8 = some (if ru < rl then 3 else 8) :=
  (mostProbableIntraPredMode_rank exDefines 3 8).1 (by decide)

/-- C3 (counterexample): for mode `m = 0` and most probable mode `p = 1` the
encoder stores the code 0, which the decoder's mapping with the same `p`
turns into mode 2, not 0. -/
theorem intraPredMode_roundtrip_counterexample :
    intraPredModeCode 1 0 = 0 ∧ decodeIntraPredMode (intraPredModeCode 1 0) 1 = some 2 := by
  decide

/-- C3 (amended): for every intra-4x4 mode `m` and most probable mode `p` in
`0..8`, the relative code the encoder stores lies in `-1..7` and the decoder's
mapping, applied with the most probable mode `revMapTab[p]` (the mode `p` in
the decoder's own mode numbering), decodes it to `revMapTab[m]`, the mode whose
`mapTab` entry is `m`. -/
theorem intraPredMode_roundtrip (m p : Int) (hm : 0 ≤ m ∧ m ≤ 8) (hp : 0 ≤ p ∧ p ≤ 8) :
    -1 ≤ intraPredModeCode p m ∧ intraPredModeCode p m ≤ 7 ∧
    ∃ pd md, tabGet revMapTab p = some pd ∧ tabGet revMapTab m = some md ∧
      tabGet mapTab pd = some p ∧ tabGet mapTab md = some m ∧
      decodeIntraPredMode (intraPredModeCode p m) pd = some md := by
  obtain ⟨h1, h2⟩ := hm
  obtain ⟨h3, h4⟩ := hp
  refine ⟨?_, ?_, revMapTab.getD p.toNat 0, revMapTab.getD m.toNat 0, ?_⟩ <;>
    interval_cases m <;> interval_cases p <;> decide

/-- Witness for C3 (amended): mode `m = 0` with most probable mode `p = 1`. -/
theorem intraPredMode_roundtrip_witness :
    -1 ≤ intraPredModeCode 1 0 ∧ intraPredModeCode 1 0 ≤ 7 ∧
    ∃ pd md, tabGet revMapTab 1 = some pd ∧ tabGet revMapTab 0 = some md ∧
      tabGet mapTab pd = some 1 ∧ tabGet mapTab md = some 0 ∧
      decodeIntraPredMode (intraPredModeCode 1 0) pd = some md :=
  intraPredMode_roundtrip 0 1 (by decide) (by decide)

/-! ## Pseudo-random intra refresh -/

/-- C4 (counterexample): a picture of 3 x 1 macroblocks with refresh rate 2 and
the `rand()` sequence 0, 1, 2, ...: the refresh pattern is 0, 1, 2, the span is
`ceil(3/2) = 2` pictures, and their forced-intra sets are {2, 0} and {1, 2}:
position 2 is forced twice. -/
theorem RandomIntra_span_counterexample :
    refreshSpan (3 * 1) 2 = 2 ∧
    (RandomIntraInit exRand 1 (freshModule zeroMem) zeroMem zeroMem 3 1 2).map
      (fun s => ((List.range 3).map (fun p => s.RefreshPattern p),
        forcedSets (refreshSpan (3 * 1) 2) s)) = some ([0, 1, 2], [[2, 0], [1, 2]]) := by
  decide

/-- The drawn position `rand() % N` lies in `0..N-1`. -/
theorem tmod_rand_range (x : Nat) (N : Int) (hN : 0 < N) :
    0 ≤ Int.tmod (x : Int) N ∧ Int.tmod (x : Int) N < N := by
  rw [Int.tmod_eq_emod (Int.ofNat_nonneg x) hN.le]
  exact ⟨Int.emod_nonneg _ (Int.ne_of_gt hN), Int.emod_lt_of_pos _ hN⟩

/-- The position returned by the draw loop is in range and was free. -/
theorem drawFreePos_spec (rnd : Nat → Nat) (N : Int) (hN : 0 < N) (pat : Int → Int)
    (fuel : Nat) : ∀ (k : Nat) (pos : Int) (k1 : Nat),
      drawFreePos rnd N pat fuel k = some (pos, k1) →
      0 ≤ pos ∧ pos < N ∧ pat pos = -1 := by
  induction fuel with
  | zero => intro k pos k1 h; simp [drawFreePos] at h
  | succ f ih =>
    intro k pos k1 h
    unfold drawFreePos at h
    simp only at h
    split_ifs at h with hp
    · exact ih _ _ _ h
    · simp only [Option.some.injEq, Prod.mk.injEq] at h
      obtain ⟨rfl, _⟩ := h
      exact ⟨(tmod_rand_range _ N hN).1, (tmod_rand_range _ N hN).2, by simpa using hp⟩

/-- A draw loop that returns with some fuel returns the same with more. -/
theorem drawFreePos_mono (rnd : Nat → Nat) (N : Int) (pat : Int → Int) (fuel : Nat) :
    ∀ (k : Nat) (x : Int × Nat), drawFreePos rnd N pat fuel k = some x →
      ∀ fuel1, fuel ≤ fuel1 → drawFreePos rnd N pat fuel1 k = some x := by
  induction fuel with
  | zero => intro k x h; simp [drawFreePos] at h
  | succ f ih =>
    intro k x h fuel1 hle
    obtain ⟨g, rfl⟩ : ∃ g, fuel1 = g + 1 := ⟨fuel1 - 1, by omega⟩
    unfold drawFreePos at h ⊢
    simp only at h ⊢
    split_ifs at h ⊢ with hp
    · exact ih _ _ h g (by omega)
    · exact h

/-- The draw loop returns once the `rand()` sequence reaches a free position. -/
theorem drawFreePos_terminates (rnd : Nat → Nat) (N : Int) (pat : Int → Int)
    (p : Int) (hp : pat p = -1) (d : Nat) :
    ∀ k, Int.tmod (rnd (k + d) : Int) N = p →
      ∃ x, drawFreePos rnd N pat (d + 1) k = some x := by
  induction d with
  | zero =>
    intro k hk
    simp only [Nat.add_zero] at hk
    unfold drawFreePos
    simp [hk, hp, drawFreePos]
  | succ d ih =>
    intro k hk
    unfold drawFreePos
    simp only
    split_ifs with hq
    · have e : k + 1 + d = k + (d + 1) := by omega
      exact ih (k + 1) (by rw [e]; exact hk)
    · exact ⟨_, rfl⟩

/-- The invariant holds before the first iteration of the fill loop. -/
theorem patternInv_init (N : Int) (mem : Int → Int) :
    PatternInv N 0 (fun p => if 0 ≤ p ∧ p < N then -1 else mem p) := by
  refine ⟨?_, ?_, ?_, ?_⟩
  · intro p h0 h1
    left
    simp [h0, h1]
  · intro v h0 h1
    simp at h1
    omega
  · intro p q hp0 hp1 _ _ _ hne
    simp [hp0, hp1] at hne
  · have : (Finset.Ico 0 N).filter (fun p => (if 0 ≤ p ∧ p < N then -1 else mem p) = -1)
        = Finset.Ico 0 N := by
      apply Finset.filter_true_of_mem
      intro p hp
      rw [Finset.mem_Ico] at hp
      simp [hp.1, hp.2]
    rw [this, Int.card_Ico]
    simp

/-- Storing `i` at a free position keeps the invariant. -/
theorem patternInv_step (N : Int) (i : Nat) (pat : Int → Int) (pos : Int)
    (h : PatternInv N i pat) (h0 : 0 ≤ pos) (h1 : pos < N) (hfree : pat pos = -1) :
    PatternInv N (i + 1) (Function.update pat pos (i : Int)) := by
  obtain ⟨hrange, honto, hinj, hcard⟩ := h
  refine ⟨?_, ?_, ?_, ?_⟩
  · intro p hp0 hp1
    by_cases e : p = pos
    · subst e
      right
      simp
    · rw [Function.update_noteq e]
      rcases hrange p hp0 hp1 with h | ⟨ha, hb⟩
      · exact Or.inl h
      · right
        push_cast
        omega
  · intro v hv0 hv1
    by_cases e : v = (i : Int)
    · exact ⟨pos, h0, h1, by simp [e]⟩
    · obtain ⟨p, hp0, hp1, hpv⟩ := honto v hv0 (by push_cast at hv1; omega)
      have hne : p ≠ pos := by
        rintro rfl
        omega
      exact ⟨p, hp0, hp1, by rw [Function.update_noteq hne]; exact hpv⟩
  · intro p q hp0 hp1 hq0 hq1 heq hne
    by_cases e1 : p = pos
    · by_cases e2 : q = pos
      · rw [e1, e2]
      · subst e1
        rw [Function.update_same, Function.update_noteq e2] at heq
        rcases hrange q hq0 hq1 with h | ⟨_, hb⟩ <;> omega
    · by_cases e2 : q = pos
      · subst e2
        rw [Function.update_same, Function.update_noteq e1] at heq
        rcases hrange p hp0 hp1 with h | ⟨_, hb⟩ <;> omega
      · rw [Function.update_noteq e1, Function.update_noteq e2] at heq
        rw [Function.update_noteq e1] at hne
        exact hinj p q hp0 hp1 hq0 hq1 heq hne
  · have hmem : pos ∈ (Finset.Ico 0 N).filter (fun p => pat p = -1) := by
      simp [h0, h1, hfree]
    have heq : (Finset.Ico 0 N).filter (fun p => Function.update pat pos (i : Int) p = -1)
        = ((Finset.Ico 0 N).filter (fun p => pat p = -1)).erase pos := by
      ext p
      simp only [Finset.mem_filter, Finset.mem_erase, Finset.mem_Ico]
      by_cases e : p = pos
      · subst e
        simp
      · rw [Function.update_noteq e]
        tauto
    rw [heq, Finset.card_erase_of_mem hmem]
    have hpos := Finset.card_pos.mpr ⟨pos, hmem⟩
    omega

/-- While fewer than `N` iterations have run, a free position exists. -/
theorem patternInv_free_slot (N : Int) (i : Nat) (pat : Int → Int)
    (h : PatternInv N i pat) (hi : i < N.toNat) :
    ∃ p, 0 ≤ p ∧ p < N ∧ pat p = -1 := by
  have hcard : 0 < ((Finset.Ico 0 N).filter (fun p => pat p = -1)).card := by
    have := h.free
    omega
  obtain ⟨p, hp⟩ := Finset.card_pos.mp hcard
  simp only [Finset.mem_filter, Finset.mem_Ico] at hp
  exact ⟨p, hp.1.1, hp.1.2, hp.2⟩

/-- After `N` iterations the array is a bijection of `0..N-1`. -/
theorem patternInv_full (N : Int) (pat : Int → Int) (h : PatternInv N N.toNat pat) :
    (∀ p, 0 ≤ p → p < N → 0 ≤ pat p ∧ pat p < N) ∧
    (∀ v, 0 ≤ v → v < N → ∃ p, 0 ≤ p ∧ p < N ∧ pat p = v) ∧
    (∀ p q, 0 ≤ p → p < N → 0 ≤ q → q < N → pat p = pat q → p = q) := by
  have hnone : ∀ p, 0 ≤ p → p < N → pat p ≠ -1 := by
    intro p hp0 hp1 hp
    have hmem : p ∈ (Finset.Ico 0 N).filter (fun p => pat p = -1) := by
      simp [hp0, hp1, hp]
    have hpos := Finset.card_pos.mpr ⟨p, hmem⟩
    have := h.free
    omega
  refine ⟨?_, ?_, ?_⟩
  · intro p hp0 hp1
    rcases h.range p hp0 hp1 with e | ⟨ha, hb⟩
    · exact absurd e (hnone p hp0 hp1)
    · exact ⟨ha, by omega⟩
  · intro v hv0 hv1
    exact h.onto v hv0 (by omega)
  · intro p q hp0 hp1 hq0 hq1 heq
    exact h.inj p q hp0 hp1 hq0 hq1 heq (hnone p hp0 hp1)

/-- The fill loop maintains the invariant. -/
theorem fillPattern_inv (rnd : Nat → Nat) (fuel : Nat) (N : Int) (hN : 0 < N)
    (mem : Int → Int) (i : Nat) :
    ∀ pat k, fillPattern rnd fuel N (fun p => if 0 ≤ p ∧ p < N then -1 else mem p) i
      = some (pat, k) → PatternInv N i pat := by
  induction i with
  | zero =>
    intro pat k h
    simp only [fillPattern, Option.some.injEq, Prod.mk.injEq] at h
    rw [← h.1]
    exact patternInv_init N mem
  | succ i ih =>
    intro pat k h
    unfold fillPattern at h
    split at h
    · rename_i pat0 k0 h0
      split at h
      · rename_i pos k1 h1
        simp only [Option.some.injEq, Prod.mk.injEq] at h
        rw [← h.1]
        obtain ⟨a, b, c⟩ := drawFreePos_spec rnd N hN pat0 fuel k0 pos k1 h1
        exact patternInv_step N i pat0 pos (ih pat0 k0 h0) a b c
      · simp at h
    · simp at h

/-- A fill loop that returns with some fuel returns the same with more. -/
theorem fillPattern_mono (rnd : Nat → Nat) (N : Int) (init : Int → Int) (fuel fuel1 : Nat)
    (hle : fuel ≤ fuel1) (i : Nat) :
    ∀ x, fillPattern rnd fuel N init i = some x → fillPattern rnd fuel1 N init i = some x := by
  induction i with
  | zero => intro x h; simpa [fillPattern] using h
  | succ i ih =>
    intro x h
    unfold fillPattern at h ⊢
    split at h
    · rename_i pat0 k0 h0
      rw [ih _ h0]
      split at h
      · rename_i pos k1 h1
        simp only
        rw [drawFreePos_mono rnd N pat0 fuel k0 _ h1 fuel1 hle]
        exact h
      · simp at h
    · simp at h

/-- The fill loop returns for every `rand()` sequence in which each residue
modulo `N` keeps occurring. -/
theorem fillPattern_terminates (rnd : Nat → Nat) (N : Int) (hN : 0 < N) (mem : Int → Int)
    (hfair : ∀ (k : Nat) (p : Int), 0 ≤ p → p < N →
      ∃ j, k ≤ j ∧ Int.tmod (rnd j : Int) N = p)
    (i : Nat) (hi : i ≤ N.toNat) :
    ∃ fuel x, fillPattern rnd fuel N (fun p => if 0 ≤ p ∧ p < N then -1 else mem p) i
      = some x := by
  induction i with
  | zero => exact ⟨0, _, rfl⟩
  | succ i ih =>
    obtain ⟨fuel0, ⟨pat0, k0⟩, h0⟩ := ih (by omega)
    have hinv := fillPattern_inv rnd fuel0 N hN mem i pat0 k0 h0
    obtain ⟨p, hp0, hp1, hfree⟩ := patternInv_free_slot N i pat0 hinv (by omega)
    obtain ⟨j, hj, hjp⟩ := hfair k0 p hp0 hp1
    obtain ⟨⟨pos, k1⟩, hx⟩ := drawFreePos_terminates rnd N pat0 p hfree (j - k0) k0
      (by rw [Nat.add_sub_cancel' hj]; exact hjp)
    refine ⟨max fuel0 (j - k0 + 1), (Function.update pat0 pos (i : Int), k1), ?_⟩
    unfold fillPattern
    rw [fillPattern_mono rnd N _ fuel0 _ (le_max_left _ _) i _ h0]
    simp only
    rw [drawFreePos_mono rnd N pat0 _ k0 _ hx _ (le_max_right _ _)]

/-- A value inside the 32-bit range is unchanged by `wrap32`. -/
theorem wrap32_of_range (x : Int) (h0 : -2147483648 ≤ x) (h1 : x < 2147483648) :
    wrap32 x = x := by
  unfold wrap32
  omega

/-- The forced-intra set written by one call of `RandomIntraNewPicture`. -/
theorem forcedSet_newPicture (s : IntraRefresh) :
    forcedSet (RandomIntraNewPicture s) =
      (List.range s.NumberIntraPerPicture.toNat).map (fun j : Nat =>
        s.RefreshPattern (Int.tmod
          (wrap32 (wrap32 (s.WalkAround + s.NumberIntraPerPicture) + (j : Int)))
          s.NumberOfMBs)) := by
  unfold forcedSet RandomIntraNewPicture
  simp only
  apply List.map_congr_left
  intro j hj
  rw [List.mem_range] at hj
  have h1 : (0 : Int) ≤ (j : Int) := Int.ofNat_nonneg j
  have h2 : (j : Int) < s.NumberIntraPerPicture := by omega
  simp [h1, h2]

/-- The forced-intra sets of the next `n` pictures, while the cursor stays
inside the 32-bit range: picture `k+1` reads the pattern at the indices
`WalkAround + (k+1)*r + j`, `j < r`, modulo `N`. -/
theorem forcedSets_eq (n : Nat) :
    ∀ (s : IntraRefresh), 0 < s.NumberOfMBs → 0 ≤ s.NumberIntraPerPicture →
      0 ≤ s.WalkAround →
      s.WalkAround + ((n : Int) + 1) * s.NumberIntraPerPicture < 2147483648 →
      forcedSets n s = (List.range n).map (fun k : Nat =>
        (List.range s.NumberIntraPerPicture.toNat).map (fun j : Nat =>
          s.RefreshPattern
            ((s.WalkAround + ((k : Int) + 1) * s.NumberIntraPerPicture + (j : Int))
              % s.NumberOfMBs))) := by
  induction n with
  | zero => intro s _ _ _ _; rfl
  | succ n ih =>
    intro s hN hr hW hbound
    have hnr : 0 ≤ (n : Int) * s.NumberIntraPerPicture :=
      mul_nonneg (Int.ofNat_nonneg n) hr
    have hexp : ((n : Int) + 1 + 1) * s.NumberIntraPerPicture
        = (n : Int) * s.NumberIntraPerPicture + 2 * s.NumberIntraPerPicture := by ring
    push_cast at hbound
    rw [hexp] at hbound
    have hw : wrap32 (s.WalkAround + s.NumberIntraPerPicture)
        = s.WalkAround + s.NumberIntraPerPicture :=
      wrap32_of_range _ (by omega) (by omega)
    have hstep := ih (RandomIntraNewPicture s) hN hr
      (by simp only [RandomIntraNewPicture]; rw [hw]; omega)
      (by
        simp only [RandomIntraNewPicture]
        rw [hw]
        have : ((n : Int) + 1) * s.NumberIntraPerPicture
            = (n : Int) * s.NumberIntraPerPicture + s.NumberIntraPerPicture := by ring
        omega)
    rw [forcedSets, hstep, forcedSet_newPicture, List.range_succ_eq_map, List.map_cons,
      List.map_map]
    congr 1
    · apply List.map_congr_left
      intro j hj
      rw [List.mem_range] at hj
      have hj2 : (j : Int) < s.NumberIntraPerPicture := by omega
      rw [hw, wrap32_of_range _ (by omega) (by omega),
        Int.tmod_eq_emod (by omega) hN.le]
      congr 2
      push_cast
      ring
    · apply List.map_congr_left
      intro k _
      simp only [Function.comp, RandomIntraNewPicture]
      apply List.map_congr_left
      intro j _
      rw [hw]
      congr 2
      push_cast
      ring

/-- The next `n` pictures force `n * r` entries in total. -/
theorem length_flatten_forcedSets (n : Nat) :
    ∀ s : IntraRefresh,
      (forcedSets n s).flatten.length = n * s.NumberIntraPerPicture.toNat := by
  induction n with
  | zero => intro s; simp [forcedSets]
  | succ n ih =>
    intro s
    rw [forcedSets, List.flatten_cons, List.length_append, ih, forcedSet_newPicture]
    simp [RandomIntraNewPicture]
    ring

/-- Every pattern index `p` is read during one refresh span. -/
theorem span_index_exists (N r p : Int) (hN : 0 < N) (hr : 0 < r) (hp0 : 0 ≤ p)
    (hp1 : p < N) :
    ∃ k j : Nat, k < refreshSpan N r ∧ j < r.toNat ∧
      (((k : Int) + 1) * r + (j : Int)) % N = p := by
  have hmod0 : 0 ≤ (p - r) % N := Int.emod_nonneg _ (Int.ne_of_gt hN)
  have hmod1 : (p - r) % N < N := Int.emod_lt_of_pos _ hN
  obtain ⟨t, ht⟩ : ∃ t, t = r + (p - r) % N := ⟨_, rfl⟩
  have htp : t % N = p := by
    rw [ht, Int.add_emod_emod, add_sub_cancel, Int.emod_eq_of_lt hp0 hp1]
  have hq1 : 1 ≤ t / r := by
    rw [Int.le_ediv_iff_mul_le hr]
    omega
  have hqK : t / r ≤ (N + r - 1) / r := Int.ediv_le_ediv hr (by omega)
  have hj0 : 0 ≤ t % r := Int.emod_nonneg _ (Int.ne_of_gt hr)
  have hj1 : t % r < r := Int.emod_lt_of_pos _ hr
  have hdecomp : r * (t / r) + t % r = t := Int.ediv_add_emod t r
  refine ⟨(t / r - 1).toNat, (t % r).toNat, ?_, ?_, ?_⟩
  · unfold refreshSpan
    omega
  · omega
  · have e1 : (((t / r - 1).toNat : Nat) : Int) + 1 = t / r := by omega
    have e2 : (((t % r).toNat : Nat) : Int) = t % r := by omega
    rw [e1, e2, mul_comm, hdecomp, htp]

/-- When `r` divides `N` one refresh span reads exactly `N` entries. -/
theorem refreshSpan_mul (N r : Int) (hN : 0 < N) (hr : 0 < r) (hdvd : r ∣ N) :
    refreshSpan N r * r.toNat = N.toNat := by
  obtain ⟨c, rfl⟩ := hdvd
  have hc : 0 < c := by
    by_contra hcon
    have : r * c ≤ 0 := mul_nonpos_of_nonneg_of_nonpos hr.le (by omega)
    omega
  have hdiv : (r * c + r - 1) / r = c := by
    have : r * c + r - 1 = (r - 1) + r * c := by ring
    rw [this, Int.add_mul_ediv_left _ _ (Int.ne_of_gt hr),
      Int.ediv_eq_zero_of_lt (by omega) (by omega)]
    simp
  unfold refreshSpan
  rw [hdiv]
  zify
  rw [Int.toNat_of_nonneg hc.le, Int.toNat_of_nonneg hr.le,
    Int.toNat_of_nonneg (by positivity)]
  ring

/-- The state returned by `RandomIntraInit`. -/
theorem RandomIntraInit_some (rnd : Nat → Nat) (fuel : Nat) (s0 : IntraRefresh)
    (memPattern memIntra : Int → Int) (xsize ysize refresh : Int) (s : IntraRefresh)
    (hN : 1 ≤ xsize * ysize) (hsize : xsize * ysize < 2147483648)
    (h : RandomIntraInit rnd fuel s0 memPattern memIntra xsize ysize refresh = some s) :
    s.NumberOfMBs = xsize * ysize ∧ s.NumberIntraPerPicture = refresh ∧
    s.WalkAround = s0.WalkAround ∧ s.IntraMBs = memIntra ∧
    PatternInv (xsize * ysize) (xsize * ysize).toNat s.RefreshPattern := by
  unfold RandomIntraInit at h
  rw [wrap32_of_range _ (by omega) hsize] at h
  simp only at h
  split at h
  · rename_i pat k hfill
    simp only [Option.some.injEq] at h
    subst h
    exact ⟨rfl, rfl, rfl, rfl,
      fillPattern_inv rnd fuel _ (by omega) memPattern _ pat k hfill⟩
  · simp at h

/-- Coverage of one refresh span for a state whose pattern is a bijection. -/
theorem forcedSets_cover (s : IntraRefresh) (N r : Int) (hN : 0 < N) (hr : 0 < r)
    (hsize : N + 2 * r < 2147483648)
    (hsN : s.NumberOfMBs = N) (hsr : s.NumberIntraPerPicture = r) (hsW : s.WalkAround = 0)
    (hinv : PatternInv N N.toNat s.RefreshPattern) :
    (∀ m, 0 ≤ m → m < N → m ∈ (forcedSets (refreshSpan N r) s).flatten) ∧
    (r ∣ N → List.Perm (forcedSets (refreshSpan N r) s).flatten
      ((List.range N.toNat).map Int.ofNat)) := by
  obtain ⟨_, honto, _⟩ := patternInv_full N s.RefreshPattern hinv
  have hK : ((refreshSpan N r : Nat) : Int) * r ≤ N + r - 1 := by
    unfold refreshSpan
    have h1 : 0 ≤ (N + r - 1) / r := Int.ediv_nonneg (by omega) hr.le
    rw [Int.toNat_of_nonneg h1]
    exact Int.ediv_mul_le _ (Int.ne_of_gt hr)
  have hsets := forcedSets_eq (refreshSpan N r) s (by rw [hsN]; exact hN)
    (by rw [hsr]; exact hr.le) (by rw [hsW])
    (by
      rw [hsW, hsr]
      have : ((refreshSpan N r : Nat) + 1 : Int) * r = (refreshSpan N r : Nat) * r + r := by
        ring
      omega)
  rw [hsN, hsr, hsW] at hsets
  have hcover : ∀ m, 0 ≤ m → m < N → m ∈ (forcedSets (refreshSpan N r) s).flatten := by
    intro m hm0 hm1
    obtain ⟨p, hp0, hp1, hpm⟩ := honto m hm0 hm1
    obtain ⟨k, j, hk, hj, hkj⟩ := span_index_exists N r p hN hr hp0 hp1
    rw [List.mem_flatten, hsets]
    refine ⟨_, List.mem_map.mpr ⟨k, List.mem_range.mpr hk, rfl⟩, ?_⟩
    refine List.mem_map.mpr ⟨j, List.mem_range.mpr hj, ?_⟩
    rw [zero_add, hkj, hpm]
  refine ⟨hcover, ?_⟩
  intro hdvd
  have hlen : (forcedSets (refreshSpan N r) s).flatten.length = N.toNat := by
    rw [length_flatten_forcedSets, hsr, refreshSpan_mul N r hN hr hdvd]
  have hnodup : ((List.range N.toNat).map Int.ofNat).Nodup :=
    (List.nodup_range _).map Int.ofNat_injective
  have hsub : (List.range N.toNat).map Int.ofNat ⊆ (forcedSets (refreshSpan N r) s).flatten := by
    intro m hm
    rw [List.mem_map] at hm
    obtain ⟨a, ha, rfl⟩ := hm
    rw [List.mem_range] at ha
    exact hcover _ (Int.ofNat_nonneg a) (by
      have : ((a : Nat) : Int) < N := by omega
      exact this)
  exact ((List.subperm_of_subset hnodup hsub).perm_of_length_le
    (by rw [hlen]; simp)).symm

/-- C4 (amended): for every picture size w x h (N = w*h >= 1) and refresh rate
r >= 1 (with N + 2r below 2^31), after `RandomIntraInit(w,h,r)` on a fresh module
state, the forced-intra sets produced by the next `ceil(N/r)` calls of
`RandomIntraNewPicture` together contain every one of the N macroblock positions
at least once, and exactly once each when r divides N. `RandomIntraInit` does
return, for every `rand()` sequence in which each residue modulo N keeps
occurring. -/
theorem RandomIntra_refresh_span (rnd : Nat → Nat) (mem memPattern memIntra : Int → Int)
    (xsize ysize refresh : Int) (hN : 1 ≤ xsize * ysize) (hr : 1 ≤ refresh)
    (hsize : xsize * ysize + 2 * refresh < 2147483648) :
    (∀ fuel s,
      RandomIntraInit rnd fuel (freshModule mem) memPattern memIntra xsize ysize refresh
        = some s →
      (∀ m, 0 ≤ m → m < xsize * ysize →
        m ∈ (forcedSets (refreshSpan (xsize * ysize) refresh) s).flatten) ∧
      (refresh ∣ xsize * ysize →
        List.Perm (forcedSets (refreshSpan (xsize * ysize) refresh) s).flatten
          ((List.range (xsize * ysize).toNat).map Int.ofNat))) ∧
    ((∀ (k : Nat) (p : Int), 0 ≤ p → p < xsize * ysize →
        ∃ j, k ≤ j ∧ Int.tmod (rnd j : Int) (xsize * ysize) = p) →
      ∃ fuel s,
        RandomIntraInit rnd fuel (freshModule mem) memPattern memIntra xsize ysize refresh
          = some s) := by
  refine ⟨?_, ?_⟩
  · intro fuel s h
    obtain ⟨h1, h2, h3, _, h5⟩ := RandomIntraInit_some rnd fuel (freshModule mem) memPattern
      memIntra xsize ysize refresh s hN (by omega) h
    exact forcedSets_cover s (xsize * ysize) refresh (by omega) (by omega) hsize h1 h2
      (by rw [h3]; rfl) h5
  · intro hfair
    obtain ⟨fuel, ⟨pat, k⟩, hx⟩ := fillPattern_terminates rnd (xsize * ysize) (by omega)
      memPattern hfair (xsize * ysize).toNat le_rfl
    refine ⟨fuel, IntraRefresh.mk pat memIntra (freshModule mem).WalkAround
      (xsize * ysize) refresh, ?_⟩
    unfold RandomIntraInit
    rw [wrap32_of_range _ (by omega) (by omega)]
    simp only
    rw [hx]

/-- Witness for C4 (amended): a picture of 3 x 1 macroblocks with refresh rate 2
and the `rand()` sequence 0, 1, 2, ... -/
theorem RandomIntra_refresh_span_witness :
    ∃ fuel s,
      RandomIntraInit exRand fuel (freshModule zeroMem) zeroMem zeroMem 3 1 2 = some s ∧
      ∀ m, 0 ≤ m → m < 3 * 1 → m ∈ (forcedSets (refreshSpan (3 * 1) 2) s).flatten := by
  have h := RandomIntra_refresh_span exRand zeroMem zeroMem zeroMem 3 1 2 (by decide)
    (by decide) (by decide)
  obtain ⟨fuel, s, hs⟩ := h.2 (by
    intro k p hp0 hp1
    refine ⟨3 * k + p.toNat, by omega, ?_⟩
    rw [Int.tmod_eq_emod (Int.ofNat_nonneg _) (by decide)]
    unfold exRand
    omega)
  exact ⟨fuel, s, hs, (h.1 fuel s hs).1⟩

/-! ## Macroblock mode of I slices -/

/-- C5: `interpret_mb_mode_I` turns code 0 into an intra-4x4 macroblock (all four
`b8mode = IBLOCK`, `b8pdir = -1`) and every code `c` with `1 ≤ c ≤ 24` into an
intra-16x16 macroblock with `cbp = ICBPTAB[(c-1)>>2]` and `i16mode = (c-1)&3`,
where the table index `(c-1)>>2 = (c-1)/4` lies in `0..5` and
`(c-1)&3 = (c-1) mod 4`; code 9 gives `cbp = 32` and `i16mode = 0`. -/
theorem interpret_mb_mode_I_spec (D : Defines) (currMB : Macroblock) :
    (currMB.mb_type = 0 →
      ∃ r, interpret_mb_mode_I D currMB = some r ∧ r.mb_type = D.I4MB ∧
        r.b8mode = [D.IBLOCK, D.IBLOCK, D.IBLOCK, D.IBLOCK] ∧ r.b8pdir = [-1, -1, -1, -1]) ∧
    (1 ≤ currMB.mb_type ∧ currMB.mb_type ≤ 24 →
      0 ≤ Int.shiftRight (currMB.mb_type - 1) 2 ∧ Int.shiftRight (currMB.mb_type - 1) 2 ≤ 5 ∧
      Int.shiftRight (currMB.mb_type - 1) 2 = (currMB.mb_type - 1) / 4 ∧
      Int.land (currMB.mb_type - 1) 3 = (currMB.mb_type - 1) % 4 ∧
      ∃ r c, interpret_mb_mode_I D currMB = some r ∧ r.mb_type = D.I16MB ∧
        tabGet ICBPTAB (Int.shiftRight (currMB.mb_type - 1) 2) = some c ∧
        r.cbp = c ∧ r.i16mode = Int.land (currMB.mb_type - 1) 3 ∧
        r.b8mode = [0, 0, 0, 0] ∧ r.b8pdir = [-1, -1, -1, -1]) ∧
    (currMB.mb_type = 9 →
      ∃ r, interpret_mb_mode_I D currMB = some r ∧ r.cbp = 32 ∧ r.i16mode = 0) := by
  refine ⟨?_, ?_, ?_⟩
  · intro h
    simp [interpret_mb_mode_I, h, List.replicate]
  · rintro ⟨h1, h2⟩
    generalize hc : currMB.mb_type = c at h1 h2
    have hne : c ≠ 0 := by omega
    refine ⟨?_, ?_, ?_, ?_, ?_⟩
    · interval_cases c <;> decide
    · interval_cases c <;> decide
    · interval_cases c <;> decide
    · interval_cases c <;> decide
    · have hget : ∃ v, tabGet ICBPTAB (Int.shiftRight (c - 1) 2) = some v := by
        interval_cases c <;> exact ⟨_, rfl⟩
      obtain ⟨v, hv⟩ := hget
      simp [interpret_mb_mode_I, hc, hne, hv, List.replicate]
  · intro h
    have hv : tabGet ICBPTAB (Int.shiftRight 8 2) = some 32 := by decide
    have hl : Int.land 8 3 = 0 := by decide
    simp [interpret_mb_mode_I, h, hv, hl]

/-- Witness for C5: the macroblock-type code 9. -/
theorem interpret_mb_mode_I_spec_witness :
    ∃ r, interpret_mb_mode_I exDefines (exMb 9) = some r ∧ r.cbp = 32 ∧ r.i16mode = 0 :=
  (interpret_mb_mode_I_spec exDefines (exMb 9)).2.2 (by decide)

/-! ## Quantiser update -/

/-- C6 (counterexample): with the quantiser range `0..51`, the current
quantiser 0 and the decoded delta `-53`, the updated quantiser is `-1`, below
`MIN_QP`. -/
theorem updateQP_counterexample :
    exDefines.MIN_QP = 0 ∧ exDefines.MAX_QP = 51 ∧ updateQP exDefines 0 (-53) = -1 := by
  decide

/-- For every quantiser range, a delta below `-(MAX_QP-MIN_QP+1)` applied at
`qp = MIN_QP` leaves the range: `delta = -(MAX_QP-MIN_QP+1) - 1` gives
`MIN_QP - 1`. -/
theorem updateQP_below_min (D : Defines) (h : D.MIN_QP < D.MAX_QP) :
    updateQP D D.MIN_QP (-(D.MAX_QP - D.MIN_QP + 1) - 1) = D.MIN_QP - 1 := by
  unfold updateQP
  have e : D.MIN_QP - D.MIN_QP + (-(D.MAX_QP - D.MIN_QP + 1) - 1) + (D.MAX_QP - D.MIN_QP + 1)
      = -1 := by ring
  rw [e]
  have hpos : (1 : Int) < D.MAX_QP - D.MIN_QP + 1 := by omega
  obtain ⟨m, hm⟩ : ∃ m : Nat, D.MAX_QP - D.MIN_QP + 1 = ((m + 2 : Nat) : Int) :=
    ⟨(D.MAX_QP - D.MIN_QP + 1 - 2).toNat, by omega⟩
  rw [hm]
  have hmod : Int.tmod (Int.negSucc 0) ((m + 2 : Nat) : Int) = -1 := by
    simp only [Int.tmod]
    simp [Nat.mod_eq_of_lt]
  have hneg : (-1 : Int) = Int.negSucc 0 := rfl
  rw [hneg, hmod]
  ring

/-- C6 (amended): for every current QP in `[MIN_QP, MAX_QP]` and every decoded
delta-quant value that keeps the dividend `qp - MIN_QP + delta + (MAX_QP-MIN_QP+1)`
non-negative (in particular every `delta ≥ -(MAX_QP-MIN_QP+1)`), the updated
QP lies in `[MIN_QP, MAX_QP]`; and `delta = -5` at `qp = MIN_QP+2` gives
`MAX_QP-2`. -/
theorem updateQP_range (D : Defines) (qp delta : Int)
    (hqp : D.MIN_QP ≤ qp ∧ qp ≤ D.MAX_QP)
    (hdelta : 0 ≤ qp - D.MIN_QP + delta + (D.MAX_QP - D.MIN_QP + 1)) :
    D.MIN_QP ≤ updateQP D qp delta ∧ updateQP D qp delta ≤ D.MAX_QP ∧
    (-(D.MAX_QP - D.MIN_QP + 1) ≤ delta →
      0 ≤ qp - D.MIN_QP + delta + (D.MAX_QP - D.MIN_QP + 1)) ∧
    (D.MIN_QP + 2 ≤ D.MAX_QP → updateQP D (D.MIN_QP + 2) (-5) = D.MAX_QP - 2) := by
  obtain ⟨h1, h2⟩ := hqp
  have hpos : 0 ≤ D.MAX_QP - D.MIN_QP + 1 := by omega
  unfold updateQP
  have hpos1 : 0 < D.MAX_QP - D.MIN_QP + 1 := by omega
  refine ⟨?_, ?_, ?_, ?_⟩
  · rw [Int.tmod_eq_emod hdelta hpos]
    have := Int.emod_nonneg (qp - D.MIN_QP + delta + (D.MAX_QP - D.MIN_QP + 1))
      (Int.ne_of_gt hpos1)
    omega
  · rw [Int.tmod_eq_emod hdelta hpos]
    have := Int.emod_lt_of_pos (qp - D.MIN_QP + delta + (D.MAX_QP - D.MIN_QP + 1)) hpos1
    omega
  · intro h
    omega
  · intro h
    rw [Int.tmod_eq_emod (by omega) hpos, Int.emod_eq_of_lt (by omega) (by omega)]
    omega

/-- Witness for C6 (amended): range `0..51`, current quantiser 2, delta `-5`. -/
theorem updateQP_range_witness :
    exDefines.MIN_QP ≤ updateQP exDefines 2 (-5) ∧ updateQP exDefines 2 (-5) ≤ exDefines.MAX_QP ∧
    (-(exDefines.MAX_QP - exDefines.MIN_QP + 1) ≤ -5 →
      0 ≤ 2 - exDefines.MIN_QP + -5 + (exDefines.MAX_QP - exDefines.MIN_QP + 1)) ∧
    (exDefines.MIN_QP + 2 ≤ exDefines.MAX_QP →
      updateQP exDefines (exDefines.MIN_QP + 2) (-5) = exDefines.MAX_QP - 2) :=
  updateQP_range exDefines 2 (-5) (by decide) (by decide)

/-! ## Level-VLC table index -/

/-- C7 (counterexample): with starting table index 0, the decoded levels 5, 2,
30 (reader values 4, 2, 30, the first one raised by one) leave the index at
2, 2 and 3, not at 1, 1 and 2. -/
theorem vlcnum_trace_counterexample :
    (levelLoopInit 3 0).vlcnum = 0 ∧
    (decodeLevels 3 0 (readFrom [4, 2, 30])).map (fun s => s.levels) = some [5, 2, 30] ∧
    vlcnumsAfter true (levelLoopInit 3 0) (levelReads 3 0 (readFrom [4, 2, 30])) = [2, 2, 3] := by
  decide

/-- The reads of a level loop with exactly three iterations. -/
theorem levelReads_three (numcoeff numtrailingones : Int) (read : Nat → Int)
    (h : numcoeff - numtrailingones = 3) :
    levelReads numcoeff numtrailingones read = [read 0, read 1, read 2] := by
  unfold levelReads
  rw [h]
  rfl

/-- After the first level the reader's value is stored unchanged. -/
theorem levelOf_false (inf : Int) : levelOf false inf = inf := rfl

/-- C7 (amended): in the level loop of `readCoeff4x4_CAVLC` with starting table
index 0 and thresholds `{0,3,6,12,24,48,32768}`, decoding three levels of
magnitudes 5, 2, 30 in that order leaves the table index at 2 after the first
level (a first level above 3 sets it to 2), at 2 after the second and at 3
after the third. -/
theorem vlcnum_trace (numcoeff numtrailingones : Int) (read : Nat → Int)
    (hstart : (levelLoopInit numcoeff numtrailingones).vlcnum = 0)
    (hcount : numcoeff - numtrailingones = 3)
    (h0 : |levelOf (levelLoopInit numcoeff numtrailingones).level_two_or_higher (read 0)| = 5)
    (h1 : |read 1| = 2) (h2 : |read 2| = 30) :
    vlcnumsAfter true (levelLoopInit numcoeff numtrailingones)
      (levelReads numcoeff numtrailingones read) = [2, 2, 3] ∧
    ∃ s, decodeLevels numcoeff numtrailingones read = some s ∧
      s.levels.map (fun l => |l|) = [5, 2, 30] ∧ s.vlcnum = 3 := by
  rw [decodeLevels, levelReads_three numcoeff numtrailingones read hcount]
  have hl : (levelLoopInit numcoeff numtrailingones).levels = [] := rfl
  generalize levelLoopInit numcoeff numtrailingones = s0 at hstart h0 hl
  obtain ⟨f, v, n, l⟩ := s0
  simp only at hstart h0 hl
  subst hstart hl
  have e0 : tabGet incVlc 0 = some 0 := by decide
  have e2 : tabGet incVlc 2 = some 6 := by decide
  simp [vlcnumsAfter, levelLoop, levelStep, levelOf_false, e0, e2, h0, h1, h2]

/-- Witness for C7 (amended): three coefficients without trailing ones and the
reader values 4, 2, 30. -/
theorem vlcnum_trace_witness :
    vlcnumsAfter true (levelLoopInit 3 0) (levelReads 3 0 (readFrom [4, 2, 30])) = [2, 2, 3] ∧
    ∃ s, decodeLevels 3 0 (readFrom [4, 2, 30]) = some s ∧
      s.levels.map (fun l => |l|) = [5, 2, 30] ∧ s.vlcnum = 3 :=
  vlcnum_trace 3 0 (readFrom [4, 2, 30]) (by decide) (by decide) (by decide) (by decide)
    (by decide)

/-- C8 (counterexample): seven coefficients without trailing ones whose decoded
levels are 4, 7, 13, 25, 49, 32769, 1. The sixth level exceeds `incVlc[6]`, so
the seventh iteration selects the level reader with table index 7 and reads
`incVlc[7]`, outside the table. -/
theorem usedVlcnums_counterexample :
    usedVlcnums true (levelLoopInit 7 0)
      (levelReads 7 0 (readFrom [3, 7, 13, 25, 49, 32769, 1])) = [0, 2, 3, 4, 5, 6, 7] ∧
    tabGet incVlc 7 = none ∧
    decodeLevels 7 0 (readFrom [3, 7, 13, 25, 49, 32769, 1]) = none := by
  decide

/-- A reader value of magnitude at most 32767 gives a level of magnitude at
most 32768. -/
theorem levelOf_abs_le (f : Bool) (inf : Int) (h : |inf| ≤ 32767) :
    |levelOf f inf| ≤ 32768 := by
  rw [abs_le] at h ⊢
  unfold levelOf
  split_ifs <;> omega

/-- One iteration of the level loop keeps the table index in `0..6` when the
reader value has magnitude at most 32767. -/
theorem levelStep_bound (first : Bool) (s : LevelLoop) (inf : Int)
    (h0 : 0 ≤ s.vlcnum) (h6 : s.vlcnum ≤ 6) (hb : |inf| ≤ 32767) :
    ∃ s1, levelStep first s inf = some s1 ∧ 0 ≤ s1.vlcnum ∧ s1.vlcnum ≤ 6 := by
  have hl := levelOf_abs_le s.level_two_or_higher inf hb
  obtain ⟨f, v, n, l⟩ := s
  simp only at h0 h6 hl
  unfold levelStep
  simp only
  generalize levelOf f inf = L at hl
  have key : ∃ thr, tabGet incVlc v = some thr ∧ (v = 6 → thr = 32768) := by
    interval_cases v <;> exact ⟨_, rfl, by decide⟩
  obtain ⟨thr, hthr, h32⟩ := key
  rw [hthr]
  refine ⟨_, rfl, ?_, ?_⟩
  · simp only
    split_ifs <;> omega
  · simp only
    split_ifs <;> omega

/-- The level loop keeps the table index in `0..6` when every reader value has
magnitude at most 32767: every iteration runs, with an index in `0..6`. -/
theorem levelLoop_bound (infs : List Int) :
    ∀ (first : Bool) (s : LevelLoop), 0 ≤ s.vlcnum → s.vlcnum ≤ 6 →
      (∀ inf ∈ infs, |inf| ≤ 32767) →
      (∀ v ∈ usedVlcnums first s infs, 0 ≤ v ∧ v ≤ 6) ∧
      (usedVlcnums first s infs).length = infs.length ∧
      ∃ s1, levelLoop first s infs = some s1 ∧ 0 ≤ s1.vlcnum ∧ s1.vlcnum ≤ 6 := by
  induction infs with
  | nil =>
    intro first s h0 h6 _
    exact ⟨by simp [usedVlcnums], by simp [usedVlcnums], s, rfl, h0, h6⟩
  | cons inf rest ih =>
    intro first s h0 h6 hb
    obtain ⟨s1, hs1, h10, h16⟩ :=
      levelStep_bound first s inf h0 h6 (hb inf (List.mem_cons_self _ _))
    obtain ⟨hu, hlen, s2, hs2, h20, h26⟩ :=
      ih false s1 h10 h16 (fun x hx => hb x (List.mem_cons_of_mem _ hx))
    refine ⟨?_, ?_, s2, ?_, h20, h26⟩
    · intro v hv
      simp only [usedVlcnums, hs1, List.mem_cons] at hv
      rcases hv with rfl | hv
      · exact ⟨h0, h6⟩
      · exact hu v hv
    · simp [usedVlcnums, hs1, hlen]
    · simp [levelLoop, hs1, hs2]

/-- C8 (amended): in `readCoeff4x4_CAVLC`, for every coefficient count,
trailing-ones count and every sequence of values returned by the level readers
whose magnitudes are at most 32767 (so that every decoded level has magnitude
at most 32768 = `incVlc[6]`), every iteration of the level loop runs and the
table index it uses to select the level reader and to index `incVlc` lies in
`0..6`. -/
theorem usedVlcnums_le_six (numcoeff numtrailingones : Int) (read : Nat → Int)
    (hb : ∀ n, |read n| ≤ 32767) :
    (∀ v ∈ usedVlcnums true (levelLoopInit numcoeff numtrailingones)
      (levelReads numcoeff numtrailingones read), 0 ≤ v ∧ v ≤ 6) ∧
    (usedVlcnums true (levelLoopInit numcoeff numtrailingones)
      (levelReads numcoeff numtrailingones read)).length =
      (numcoeff - numtrailingones).toNat ∧
    ∃ s, decodeLevels numcoeff numtrailingones read = some s ∧ 0 ≤ s.vlcnum ∧ s.vlcnum ≤ 6 := by
  have hinit : 0 ≤ (levelLoopInit numcoeff numtrailingones).vlcnum ∧
      (levelLoopInit numcoeff numtrailingones).vlcnum ≤ 6 := by
    unfold levelLoopInit
    simp only
    split_ifs <;> decide
  have hreads : ∀ inf ∈ levelReads numcoeff numtrailingones read, |inf| ≤ 32767 := by
    intro inf hinf
    simp only [levelReads, List.mem_map] at hinf
    obtain ⟨n, _, rfl⟩ := hinf
    exact hb n
  obtain ⟨hu, hlen, hs⟩ := levelLoop_bound (levelReads numcoeff numtrailingones read) true
    (levelLoopInit numcoeff numtrailingones) hinit.1 hinit.2 hreads
  refine ⟨hu, ?_, hs⟩
  rw [hlen]
  simp [levelReads]

/-- Witness for C8 (amended): twelve coefficients, one trailing one, and reader
values that climb through the whole threshold table. -/
theorem usedVlcnums_le_six_witness :
    (∀ n, |readFrom [3, 7, 13, 25, 49, 32767, 1] n| ≤ 32767) ∧
    (∀ v ∈ usedVlcnums true (levelLoopInit 12 1)
      (levelReads 12 1 (readFrom [3, 7, 13, 25, 49, 32767, 1])), 0 ≤ v ∧ v ≤ 6) := by
  have hb : ∀ n, |readFrom [3, 7, 13, 25, 49, 32767, 1] n| ≤ 32767 := by
    intro n
    unfold readFrom
    rcases n with _ | _ | _ | _ | _ | _ | _ | n <;> simp [List.getD]
  exact ⟨hb, (usedVlcnums_le_six 12 1 (readFrom [3, 7, 13, 25, 49, 32767, 1]) hb).1⟩

/-! ## EPZS scale factors and thresholds -/

/-- C9 (counterexample): for the equal clipped distances `iTRb = iTRp = 72` the
prescale is `(16384 + 36) / 72 = 228`, and
`(72 * 228 + 32) >> 6 = 16448 >> 6 = 257`, not 256. -/
theorem mvScaleFactor_counterexample :
    Int.tdiv (16384 + iabs (Int.tdiv 72 2)) 72 = 228 ∧
    rshift_rnd_sf (72 * 228) 6 = 257 ∧ mvScaleFactor 72 72 = 257 := by
  decide

/-- C9 (amended): in `EPZSSliceInit`, for equal clipped picture-order-count
distances `iTRb = iTRp` in `[-128, 127]` the derived scale factor lies in
`255..257`, and it equals exactly 256 whenever `|iTRp| ≤ 71` (including the
case `iTRp = 0`, where 256 is assigned directly). -/
theorem mvScaleFactor_equal_distance (iTRb iTRp : Int) (heq : iTRb = iTRp)
    (hlo : -128 ≤ iTRp) (hhi : iTRp ≤ 127) :
    255 ≤ mvScaleFactor iTRb iTRp ∧ mvScaleFactor iTRb iTRp ≤ 257 ∧
    (-71 ≤ iTRp ∧ iTRp ≤ 71 → mvScaleFactor iTRb iTRp = 256) := by
  subst heq
  interval_cases iTRb <;> decide

/-- Witness for C9 (amended): the equal distances `iTRb = iTRp = 3`. -/
theorem mvScaleFactor_equal_distance_witness :
    255 ≤ mvScaleFactor 3 3 ∧ mvScaleFactor 3 3 ≤ 257 ∧
    (-71 ≤ (3 : Int) ∧ (3 : Int) ≤ 71 → mvScaleFactor 3 3 = 256) :=
  mvScaleFactor_equal_distance 3 3 rfl (by decide) (by decide)

/-- C10 (counterexample): 8-bit luma, chroma-aware motion estimation disabled,
multipliers `EPZSMinThresScale = 5`, `EPZSMedThresScale = 1`,
`EPZSMaxThresScale = 1`: for block type 1 (16x16) `minthres = 320` exceeds
`medthres = 256`. And with the three multipliers equal to 2796203 the product
`2796203 * 768 = 2147483904` does not fit an `int`: `maxthres[1]` wraps to
-2147483392, below `medthres[1] = 715827968`. -/
theorem EPZSStructInit_thresholds_counterexample :
    (EPZSStructInit_thresholds (exThresInput 5 1 1)).minthres =
      [0, 320, 160, 160, 80, 40, 40, 20] ∧
    (EPZSStructInit_thresholds (exThresInput 5 1 1)).medthres =
      [0, 256, 128, 128, 64, 32, 32, 16] ∧
    (EPZSStructInit_thresholds (exThresInput 5 1 1)).maxthres =
      [0, 768, 384, 384, 192, 96, 96, 48] ∧
    tabGet (EPZSStructInit_thresholds (exThresInput 2796203 2796203 2796203)).minthres 1
      = some 178956992 ∧
    tabGet (EPZSStructInit_thresholds (exThresInput 2796203 2796203 2796203)).medthres 1
      = some 715827968 ∧
    tabGet (EPZSStructInit_thresholds (exThresInput 2796203 2796203 2796203)).maxthres 1
      = some (-2147483392) := by
  decide

/-- A threshold entry whose products fit an `int` is the exact product. -/
theorem threshold_entry_exact (scale b bmax pel : Int) (hs : 0 ≤ scale) (hb : 0 ≤ b)
    (hbm : b ≤ bmax) (hbm768 : bmax ≤ 768) (hpel : 0 < pel) (hp : 768 * pel < 2147483648)
    (hr : scale * (bmax * pel) < 2147483648) :
    wrap32 (scale * wrap32 (wrap32 (b * wrap32 pel) + 0)) = scale * (b * pel) := by
  have h1 : wrap32 pel = pel := wrap32_of_range _ (by omega) (by omega)
  have hbp0 : 0 ≤ b * pel := mul_nonneg hb hpel.le
  have hbp1 : b * pel ≤ bmax * pel := mul_le_mul_of_nonneg_right hbm hpel.le
  have hbp2 : bmax * pel ≤ 768 * pel := mul_le_mul_of_nonneg_right hbm768 hpel.le
  have h2 : wrap32 (b * pel) = b * pel := wrap32_of_range _ (by omega) (by omega)
  have hs0 : 0 ≤ scale * (b * pel) := mul_nonneg hs hbp0
  have hs1 : scale * (b * pel) ≤ scale * (bmax * pel) := mul_le_mul_of_nonneg_left hbp1 hs
  rw [h1, h2, add_zero, h2]
  exact wrap32_of_range _ (by omega) (by omega)

/-- With chroma-aware motion estimation disabled and no `int` overflow each
threshold is the scale multiplier times the base value times `pel_error_me`. -/
theorem thresholds_no_chroma (inp : EPZSThresInput) (hc : inp.ChromaMEEnable = false)
    (hmin : 0 ≤ inp.EPZSMinThresScale) (hmed : 0 ≤ inp.EPZSMedThresScale)
    (hmax : 0 ≤ inp.EPZSMaxThresScale)
    (hpel : 768 * 2 ^ (inp.bitdepth_luma - 8).toNat < (2147483648 : Int))
    (hminr : inp.EPZSMinThresScale * (64 * 2 ^ (inp.bitdepth_luma - 8).toNat) < 2147483648)
    (hmedr : inp.EPZSMedThresScale * (256 * 2 ^ (inp.bitdepth_luma - 8).toNat) < 2147483648)
    (hmaxr : inp.EPZSMaxThresScale * (768 * 2 ^ (inp.bitdepth_luma - 8).toNat) < 2147483648) :
    (EPZSStructInit_thresholds inp).minthres =
      MIN_THRES_BASE.map
        (fun b => inp.EPZSMinThresScale * (b * 2 ^ (inp.bitdepth_luma - 8).toNat)) ∧
    (EPZSStructInit_thresholds inp).medthres =
      MED_THRES_BASE.map
        (fun b => inp.EPZSMedThresScale * (b * 2 ^ (inp.bitdepth_luma - 8).toNat)) ∧
    (EPZSStructInit_thresholds inp).maxthres =
      MAX_THRES_BASE.map
        (fun b => inp.EPZSMaxThresScale * (b * 2 ^ (inp.bitdepth_luma - 8).toNat)) := by
  have hpos : (0 : Int) < 2 ^ (inp.bitdepth_luma - 8).toNat := by positivity
  have hdef : (EPZSStructInit_thresholds inp).minthres =
        MIN_THRES_BASE.map (fun b => wrap32 (inp.EPZSMinThresScale *
          wrap32 (wrap32 (b * wrap32 (2 ^ (inp.bitdepth_luma - 8).toNat)) + 0))) ∧
      (EPZSStructInit_thresholds inp).medthres =
        MED_THRES_BASE.map (fun b => wrap32 (inp.EPZSMedThresScale *
          wrap32 (wrap32 (b * wrap32 (2 ^ (inp.bitdepth_luma - 8).toNat)) + 0))) ∧
      (EPZSStructInit_thresholds inp).maxthres =
        MAX_THRES_BASE.map (fun b => wrap32 (inp.EPZSMaxThresScale *
          wrap32 (wrap32 (b * wrap32 (2 ^ (inp.bitdepth_luma - 8).toNat)) + 0))) := by
    unfold EPZSStructInit_thresholds chromaTerm
    simp only [hc, Bool.false_eq_true, if_false, and_self]
  obtain ⟨e1, e2, e3⟩ := hdef
  rw [e1, e2, e3]
  generalize (2 : Int) ^ (inp.bitdepth_luma - 8).toNat = pel at hpel hminr hmedr hmaxr hpos ⊢
  refine ⟨?_, ?_, ?_⟩
  · apply List.map_congr_left
    intro b hb
    have hb' : 0 ≤ b ∧ b ≤ 64 := by
      simp only [MIN_THRES_BASE, List.mem_cons, List.mem_singleton, List.not_mem_nil,
        or_false] at hb
      omega
    exact threshold_entry_exact _ b 64 pel hmin hb'.1 hb'.2 (by decide) hpos hpel hminr
  · apply List.map_congr_left
    intro b hb
    have hb' : 0 ≤ b ∧ b ≤ 256 := by
      simp only [MED_THRES_BASE, List.mem_cons, List.mem_singleton, List.not_mem_nil,
        or_false] at hb
      omega
    exact threshold_entry_exact _ b 256 pel hmed hb'.1 hb'.2 (by decide) hpos hpel hmedr
  · apply List.map_congr_left
    intro b hb
    have hb' : 0 ≤ b ∧ b ≤ 768 := by
      simp only [MAX_THRES_BASE, List.mem_cons, List.mem_singleton, List.not_mem_nil,
        or_false] at hb
      omega
    exact threshold_entry_exact _ b 768 pel hmax hb'.1 hb'.2 (by decide) hpos hpel hmaxr

/-- C10 (amended): after `EPZSStructInit` with chroma-aware motion estimation
disabled, for every luma bit depth of at least 8 and non-negative multipliers
for which the `int` operations that compute the three arrays do not overflow
(the products `768 * 2^(depth-8)`, `EPZSMinThresScale * 64 * 2^(depth-8)`,
`EPZSMedThresScale * 256 * 2^(depth-8)` and
`EPZSMaxThresScale * 768 * 2^(depth-8)` are below `2^31`),
`minthres[t] ≤ medthres[t] ≤ maxthres[t]` holds for all eight block types
exactly when `EPZSMinThresScale ≤ 4 * EPZSMedThresScale` and
`EPZSMedThresScale ≤ 3 * EPZSMaxThresScale`; in particular it holds when the
three multipliers are equal. -/
theorem EPZSStructInit_thresholds_ordered (inp : EPZSThresInput)
    (hc : inp.ChromaMEEnable = false) (hdepth : 8 ≤ inp.bitdepth_luma)
    (hmin : 0 ≤ inp.EPZSMinThresScale) (hmed : 0 ≤ inp.EPZSMedThresScale)
    (hmax : 0 ≤ inp.EPZSMaxThresScale)
    (hpelr : 768 * 2 ^ (inp.bitdepth_luma - 8).toNat < (2147483648 : Int))
    (hminr : inp.EPZSMinThresScale * (64 * 2 ^ (inp.bitdepth_luma - 8).toNat) < 2147483648)
    (hmedr : inp.EPZSMedThresScale * (256 * 2 ^ (inp.bitdepth_luma - 8).toNat) < 2147483648)
    (hmaxr : inp.EPZSMaxThresScale * (768 * 2 ^ (inp.bitdepth_luma - 8).toNat) < 2147483648) :
    ((∀ t : Nat, t < 8 →
        ∃ lo mid hi, (EPZSStructInit_thresholds inp).minthres[t]? = some lo ∧
          (EPZSStructInit_thresholds inp).medthres[t]? = some mid ∧
          (EPZSStructInit_thresholds inp).maxthres[t]? = some hi ∧ lo ≤ mid ∧ mid ≤ hi) ↔
      (inp.EPZSMinThresScale ≤ 4 * inp.EPZSMedThresScale ∧
        inp.EPZSMedThresScale ≤ 3 * inp.EPZSMaxThresScale)) ∧
    (inp.EPZSMinThresScale = inp.EPZSMedThresScale ∧
      inp.EPZSMedThresScale = inp.EPZSMaxThresScale →
      inp.EPZSMinThresScale ≤ 4 * inp.EPZSMedThresScale ∧
        inp.EPZSMedThresScale ≤ 3 * inp.EPZSMaxThresScale) := by
  obtain ⟨e1, e2, e3⟩ := thresholds_no_chroma inp hc hmin hmed hmax hpelr hminr hmedr hmaxr
  rw [e1, e2, e3]
  have hpel : (0 : Int) < 2 ^ (inp.bitdepth_luma - 8).toNat := by positivity
  clear hpelr hminr hmedr hmaxr e1 e2 e3
  generalize (2 : Int) ^ (inp.bitdepth_luma - 8).toNat = pel at hpel ⊢
  generalize inp.EPZSMinThresScale = smin at hmin ⊢
  generalize inp.EPZSMedThresScale = smed at hmed ⊢
  generalize inp.EPZSMaxThresScale = smax at hmax ⊢
  refine ⟨⟨?_, ?_⟩, ?_⟩
  · intro h
    obtain ⟨lo, mid, hi, h1, h2, h3, h4, h5⟩ := h 1 (by decide)
    simp [MIN_THRES_BASE, MED_THRES_BASE, MAX_THRES_BASE] at h1 h2 h3
    subst h1 h2 h3
    constructor
    · by_contra hcon
      nlinarith [mul_pos (show (0 : Int) < smin - 4 * smed by omega) hpel]
    · by_contra hcon
      nlinarith [mul_pos (show (0 : Int) < smed - 3 * smax by omega) hpel]
  · rintro ⟨h1, h2⟩ t ht
    have k1 : ∀ b : Int, 0 ≤ b → smin * (b * pel) ≤ smed * (4 * b * pel) := by
      intro b hb
      nlinarith [mul_nonneg (mul_nonneg hb hpel.le) (show (0 : Int) ≤ 4 * smed - smin by omega)]
    have k2 : ∀ b : Int, 0 ≤ b → smed * (b * pel) ≤ smax * (3 * b * pel) := by
      intro b hb
      nlinarith [mul_nonneg (mul_nonneg hb hpel.le) (show (0 : Int) ≤ 3 * smax - smed by omega)]
    interval_cases t
    · exact ⟨_, _, _, rfl, rfl, rfl, by simp [MIN_THRES_BASE, MED_THRES_BASE],
        by simp [MED_THRES_BASE, MAX_THRES_BASE]⟩
    · exact ⟨_, _, _, rfl, rfl, rfl, by simpa using k1 64 (by decide),
        by simpa using k2 256 (by decide)⟩
    · exact ⟨_, _, _, rfl, rfl, rfl, by simpa using k1 32 (by decide),
        by simpa using k2 128 (by decide)⟩
    · exact ⟨_, _, _, rfl, rfl, rfl, by simpa using k1 32 (by decide),
        by simpa using k2 128 (by decide)⟩
    · exact ⟨_, _, _, rfl, rfl, rfl, by simpa using k1 16 (by decide),
        by simpa using k2 64 (by decide)⟩
    · exact ⟨_, _, _, rfl, rfl, rfl, by simpa using k1 8 (by decide),
        by simpa using k2 32 (by decide)⟩
    · exact ⟨_, _, _, rfl, rfl, rfl, by simpa using k1 8 (by decide),
        by simpa using k2 32 (by decide)⟩
    · exact ⟨_, _, _, rfl, rfl, rfl, by simpa using k1 4 (by decide),
        by simpa using k2 16 (by decide)⟩
  · rintro ⟨h1, h2⟩
    omega

/-- Witness for C10 (amended): 8-bit luma, the multipliers 1, 1, 1 and block
type 1 (16x16), with the thresholds 64, 256 and 768. -/
theorem EPZSStructInit_thresholds_ordered_witness :
    (∃ lo mid hi, (EPZSStructInit_thresholds (exThresInput 1 1 1)).minthres[1]? = some lo ∧
      (EPZSStructInit_thresholds (exThresInput 1 1 1)).medthres[1]? = some mid ∧
      (EPZSStructInit_thresholds (exThresInput 1 1 1)).maxthres[1]? = some hi ∧
      lo ≤ mid ∧ mid ≤ hi) ∧
    (EPZSStructInit_thresholds (exThresInput 1 1 1)).minthres[1]? = some 64 ∧
    (EPZSStructInit_thresholds (exThresInput 1 1 1)).medthres[1]? = some 256 ∧
    (EPZSStructInit_thresholds (exThresInput 1 1 1)).maxthres[1]? = some 768 :=
  ⟨(EPZSStructInit_thresholds_ordered (exThresInput 1 1 1) rfl (by decide) (by decide)
    (by decide) (by decide) (by decide) (by decide) (by decide) (by decide)).1.2
      (by decide) 1 (by decide), by decide, by decide, by decide⟩

/-! ## EPZS stop criterion -/

/-- C11 (counterexample): block type 1 (16x16) with the thresholds 64, 256, 768,
`lambda_dist = 0` and no neighbour available: the routine returns
`(9*768 + 2*256) >> 3 = 928`, above `maxthres + 2*lambda_dist = 768`. And for
block type 5 with the multipliers -12, -3, -1 (all three thresholds -96) it
returns -132, below `minthres + lambda_dist = -96`. -/
theorem EPZSDetermineStopCriterion_counterexample :
    (tabGet exThresholds.minthres 1 = some 64 ∧ tabGet exThresholds.medthres 1 = some 256 ∧
      tabGet exThresholds.maxthres 1 = some 768 ∧
      EPZSDetermineStopCriterion exThresholds zeroMem 1 16 0 0 0 0 = some 928) ∧
    (tabGet (EPZSStructInit_thresholds (exThresInput (-12) (-3) (-1))).minthres 5 = some (-96) ∧
      tabGet (EPZSStructInit_thresholds (exThresInput (-12) (-3) (-1))).medthres 5 = some (-96) ∧
      tabGet (EPZSStructInit_thresholds (exThresInput (-12) (-3) (-1))).maxthres 5 = some (-96) ∧
      EPZSDetermineStopCriterion (EPZSStructInit_thresholds (exThresInput (-12) (-3) (-1)))
        zeroMem 5 8 0 0 0 0 = some (-132)) := by
  decide

/-- C11 (amended): for every block type t with
`0 <= minthres[t] <= medthres[t] <= maxthres[t]` (only `0 <= medthres[t]` is
used), every `lambda_dist >= 0` with
`9*(maxthres[t] + lambda_dist) + 2*medthres[t] < 2^31` (no `int` overflow), and
every availability pattern and stored distortions of the left, above and
above-right neighbours, `EPZSDetermineStopCriterion` returns a value that is at
least `medthres[t] + 2*lambda_dist`, hence at least `minthres[t] + lambda_dist`,
and at most `((9*(maxthres[t] + lambda_dist) + 2*medthres[t]) >> 3) + lambda_dist`,
hence at most `(11*maxthres[t] + 9*lambda_dist)/8 + lambda_dist`. -/
theorem EPZSDetermineStopCriterion_bounds (p_EPZS : EPZSThresholds) (prevSad : Int → Int)
    (blocktype blocksize_x availA availB availC lambda_dist minthres medthres maxthres : Int)
    (hmin : tabGet p_EPZS.minthres blocktype = some minthres)
    (hmed : tabGet p_EPZS.medthres blocktype = some medthres)
    (hmax : tabGet p_EPZS.maxthres blocktype = some maxthres)
    (h0 : 0 ≤ medthres) (h1 : minthres ≤ medthres) (h2 : medthres ≤ maxthres)
    (hl : 0 ≤ lambda_dist)
    (hov : 9 * (maxthres + lambda_dist) + 2 * medthres < 2147483648) :
    ∃ r, EPZSDetermineStopCriterion p_EPZS prevSad blocktype blocksize_x availA availB availC
        lambda_dist = some r ∧
      minthres + lambda_dist ≤ r ∧ medthres + 2 * lambda_dist ≤ r ∧
      r ≤ (9 * (maxthres + lambda_dist) + 2 * medthres) / 8 + lambda_dist ∧
      r ≤ (11 * maxthres + 9 * lambda_dist) / 8 + lambda_dist := by
  unfold EPZSDetermineStopCriterion
  simp only [hmin, hmed, hmax]
  refine ⟨_, rfl, ?_⟩
  generalize imin (if availA ≠ 0 then prevSad (-Int.shiftRight blocksize_x 2) else INT_MAX)
    (imin (if availB ≠ 0 then prevSad 0 else INT_MAX)
      (if availC ≠ 0 then prevSad (Int.shiftRight blocksize_x 2) else INT_MAX)) = s
  have hshift : ∀ x : Int, Int.shiftRight x 3 = x / 8 := by
    intro x
    have := Int.shiftRight_eq_div_pow x 3
    simpa using this
  rw [hshift, wrap32_of_range (maxthres + lambda_dist) (by omega) (by omega),
    wrap32_of_range (medthres + lambda_dist) (by omega) (by omega),
    wrap32_of_range (2 * medthres) (by omega) (by omega)]
  have hm : medthres + lambda_dist ≤ imax (medthres + lambda_dist)
        (imin (imax s minthres) (maxthres + lambda_dist)) ∧
      imax (medthres + lambda_dist) (imin (imax s minthres) (maxthres + lambda_dist))
        ≤ maxthres + lambda_dist := by
    unfold imin imax
    split_ifs <;> omega
  generalize imax (medthres + lambda_dist)
    (imin (imax s minthres) (maxthres + lambda_dist)) = m at hm
  rw [wrap32_of_range (9 * m) (by omega) (by omega),
    wrap32_of_range (9 * m + 2 * medthres) (by omega) (by omega),
    wrap32_of_range ((9 * m + 2 * medthres) / 8 + lambda_dist) (by omega) (by omega)]
  omega

/-- Witness for C11 (amended): block type 1 with the thresholds 64, 256, 768,
`lambda_dist = 0` and no neighbour available. -/
theorem EPZSDetermineStopCriterion_bounds_witness :
    ∃ r, EPZSDetermineStopCriterion exThresholds zeroMem 1 16 0 0 0 0 = some r ∧
      64 + 0 ≤ r ∧ 256 + 2 * 0 ≤ r ∧
      r ≤ (9 * (768 + 0) + 2 * 256) / 8 + 0 ∧ r ≤ (11 * 768 + 9 * 0) / 8 + 0 :=
  EPZSDetermineStopCriterion_bounds exThresholds zeroMem 1 16 0 0 0 0 64 256 768
    (by decide) (by decide) (by decide) (by decide) (by decide) (by decide) (by decide)
    (by decide)

/-! ## `RoundLog2` -/

/-- C12 (counterexample): `RoundLog2(5)` squares to 25, counts `iRet = 4`
(`16 <= 25 < 32`) and returns `(4 + 1) >> 1 = 2`, whereas `ceil(log2(5)) = 3`. -/
theorem RoundLog2_counterexample :
    RoundLog2_loop (5 * 5) 30 0 = some 4 ∧ RoundLog2 30 5 = some 2 ∧ Nat.clog 2 5 = 3 := by
  refine ⟨by decide, by decide, ?_⟩
  norm_num [Nat.clog]

/-- The loop of `RoundLog2` returns the position of the highest set bit of the
square, given enough fuel. -/
theorem RoundLog2_loop_spec (sq : Int) :
    ∀ (fuel iRet : Nat), (2 : Int) ^ iRet ≤ sq → sq < 2 ^ (iRet + fuel) →
      ∃ r, RoundLog2_loop sq fuel iRet = some r ∧ (2 : Int) ^ r ≤ sq ∧ sq < 2 ^ (r + 1) := by
  intro fuel
  induction fuel with
  | zero =>
    intro iRet h1 h2
    simp only [Nat.add_zero] at h2
    omega
  | succ f ih =>
    intro iRet h1 h2
    unfold RoundLog2_loop
    split_ifs with hc
    · exact ih (iRet + 1) hc (by rw [show iRet + 1 + f = iRet + (f + 1) by omega]; exact h2)
    · exact ⟨iRet, rfl, h1, by omega⟩

/-- C12 (amended): for every integer `v >= 1` with `v*v < 2^30` (so that
`1 << (iRet + 1)` does not overflow), `RoundLog2(v)` returns `log2(v)` rounded
to the nearest integer: the `k` with `2^(2k-1) <= v*v < 2^(2k+1)` (`k = 0` for
`v = 1`). It lies between `floor(log2(v))` and `ceil(log2(v))` and equals
`ceil(log2(v))` for the powers of two. -/
theorem RoundLog2_rounds (n fuel : Nat) (hn : 1 ≤ n) (hsq : n * n < 2 ^ 30)
    (hfuel : 30 ≤ fuel) :
    ∃ k, RoundLog2 fuel (n : Int) = some k ∧ n * n < 2 ^ (2 * k + 1) ∧
      (k = 0 ∨ 2 ^ (2 * k - 1) ≤ n * n) ∧ Nat.log 2 n ≤ k ∧ k ≤ Nat.clog 2 n ∧
      (∀ e, n = 2 ^ e → k = e) := by
  have hsqI : (2 : Int) ^ 0 ≤ (n : Int) * (n : Int) := by
    have : 1 ≤ n * n := Nat.mul_le_mul hn hn
    simp only [pow_zero]
    exact_mod_cast this
  have hltI : (n : Int) * (n : Int) < 2 ^ (0 + fuel) := by
    have h30 : (2 : Nat) ^ 30 ≤ 2 ^ fuel := Nat.pow_le_pow_right (by decide) hfuel
    have : n * n < 2 ^ fuel := lt_of_lt_of_le hsq h30
    rw [Nat.zero_add]
    exact_mod_cast this
  obtain ⟨r, hr, hr1, hr2⟩ := RoundLog2_loop_spec ((n : Int) * (n : Int)) fuel 0 hsqI hltI
  have hr1N : 2 ^ r ≤ n * n := by exact_mod_cast hr1
  have hr2N : n * n < 2 ^ (r + 1) := by exact_mod_cast hr2
  have hk : (r + 1) >>> 1 = (r + 1) / 2 := by
    rw [Nat.shiftRight_eq_div_pow]
  have hupper : n * n < 2 ^ (2 * ((r + 1) / 2) + 1) :=
    lt_of_lt_of_le hr2N (Nat.pow_le_pow_right (by decide) (by omega))
  have hlower : (r + 1) / 2 = 0 ∨ 2 ^ (2 * ((r + 1) / 2) - 1) ≤ n * n := by
    by_cases h0 : (r + 1) / 2 = 0
    · exact Or.inl h0
    · exact Or.inr (le_trans (Nat.pow_le_pow_right (by decide) (by omega)) hr1N)
  refine ⟨(r + 1) / 2, ?_, hupper, hlower, ?_, ?_, ?_⟩
  · simp only [RoundLog2, hr, hk]
  · have h1 : 2 ^ Nat.log 2 n ≤ n := Nat.pow_log_le_self 2 (by omega)
    have h2 : 2 ^ (2 * Nat.log 2 n) ≤ n * n := by
      rw [two_mul, pow_add]
      exact Nat.mul_le_mul h1 h1
    have h3 : 2 ^ (2 * Nat.log 2 n) < 2 ^ (2 * ((r + 1) / 2) + 1) := lt_of_le_of_lt h2 hupper
    have h4 := (Nat.pow_lt_pow_iff_right (by decide : 1 < 2)).mp h3
    omega
  · rcases hlower with h0 | hlow
    · omega
    · have h1 : n ≤ 2 ^ Nat.clog 2 n := Nat.le_pow_clog (by decide) n
      have h2 : n * n ≤ 2 ^ (2 * Nat.clog 2 n) := by
        rw [two_mul, pow_add]
        exact Nat.mul_le_mul h1 h1
      have h3 : 2 ^ (2 * ((r + 1) / 2) - 1) ≤ 2 ^ (2 * Nat.clog 2 n) := le_trans hlow h2
      have h4 := (Nat.pow_le_pow_iff_right (by decide : 1 < 2)).mp h3
      omega
  · intro e he
    subst he
    have h1 : 2 ^ e * 2 ^ e = 2 ^ (2 * e) := by rw [two_mul, pow_add]
    rw [h1] at hr1N hr2N
    have h2 := (Nat.pow_le_pow_iff_right (by decide : 1 < 2)).mp hr1N
    have h3 := (Nat.pow_lt_pow_iff_right (by decide : 1 < 2)).mp hr2N
    omega

/-- Witness for C12 (amended): `RoundLog2(5) = 2`, between `floor(log2(5)) = 2`
and `ceil(log2(5)) = 3`. -/
theorem RoundLog2_rounds_witness :
    ∃ k, RoundLog2 30 ((5 : Nat) : Int) = some k ∧ 5 * 5 < 2 ^ (2 * k + 1) ∧
      (k = 0 ∨ 2 ^ (2 * k - 1) ≤ 5 * 5) ∧ Nat.log 2 5 ≤ k ∧ k ≤ Nat.clog 2 5 ∧
      (∀ e, 5 = 2 ^ e → k = e) :=
  RoundLog2_rounds 5 30 (by decide) (by decide) (by decide)

/-! ## SEI payload types -/

/-- C15 (counterexample): the enumeration has 24 payload type codes; tone mapping
is 23, not 22 (22 is the post-filter hints code), and `SEI_MAX_ELEMENTS` is 24. -/
theorem SEI_type_counterexample :
    SEI_type.payloadTypes.length = 24 ∧ SEI_type.SEI_TONE_MAPPING.value = 23 ∧
    SEI_type.SEI_POST_FILTER_HINTS.value = 22 ∧ SEI_type.SEI_MAX_ELEMENTS.value = 24 := by
  decide

/-- C15 (amended): the `SEI_type` enumeration defines exactly 24 payload type
codes numbered consecutively from buffering period = 0 through tone mapping =
23, so that `SEI_MAX_ELEMENTS = 24`. -/
theorem SEI_type_codes :
    SEI_type.payloadTypes.map SEI_type.value = List.range 24 ∧
    SEI_type.payloadTypes.head? = some SEI_type.SEI_BUFFERING_PERIOD ∧
    SEI_type.payloadTypes.getLast? = some SEI_type.SEI_TONE_MAPPING ∧
    SEI_type.SEI_BUFFERING_PERIOD.value = 0 ∧ SEI_type.SEI_TONE_MAPPING.value = 23 ∧
    SEI_type.SEI_MAX_ELEMENTS.value = SEI_type.payloadTypes.length ∧
    SEI_type.SEI_MAX_ELEMENTS.value = 24 ∧
    (∀ t : SEI_type, t ∈ SEI_type.all) ∧
    (∀ t : SEI_type, t ≠ SEI_type.SEI_MAX_ELEMENTS → t ∈ SEI_type.payloadTypes) := by
  refine ⟨by decide, by decide, by decide, by decide, by decide, by decide, by decide, ?_, ?_⟩
  · intro t
    cases t <;> decide
  · intro t ht
    cases t <;> first | decide | exact absurd rfl ht

/-! ## Pseudo-random intra refresh: the pattern and the forced set -/

/-- C13: whenever `RandomIntraInit(xsize, ysize, refresh)` terminates, for every
sequence of values returned by `rand()`, `RefreshPattern` is a permutation of
`0..N-1` with `N = NumberOfMBs = xsize*ysize` (as an `int`): every entry lies in
`0..N-1`, no value occurs twice, and every value of `0..N-1` occurs. -/
theorem RandomIntraInit_permutation (rnd : Nat → Nat) (fuel : Nat) (s0 : IntraRefresh)
    (memPattern memIntra : Int → Int) (xsize ysize refresh : Int) (s : IntraRefresh)
    (h : RandomIntraInit rnd fuel s0 memPattern memIntra xsize ysize refresh = some s) :
    s.NumberOfMBs = wrap32 (xsize * ysize) ∧
    (-2147483648 ≤ xsize * ysize ∧ xsize * ysize < 2147483648 →
      s.NumberOfMBs = xsize * ysize) ∧
    (∀ p, 0 ≤ p → p < s.NumberOfMBs →
      0 ≤ s.RefreshPattern p ∧ s.RefreshPattern p < s.NumberOfMBs) ∧
    (∀ p q, 0 ≤ p → p < s.NumberOfMBs → 0 ≤ q → q < s.NumberOfMBs →
      s.RefreshPattern p = s.RefreshPattern q → p = q) ∧
    (∀ v, 0 ≤ v → v < s.NumberOfMBs →
      ∃ p, 0 ≤ p ∧ p < s.NumberOfMBs ∧ s.RefreshPattern p = v) := by
  unfold RandomIntraInit at h
  simp only at h
  split at h
  · rename_i pat k hfill
    simp only [Option.some.injEq] at h
    subst h
    simp only
    refine ⟨trivial, fun hr => wrap32_of_range _ hr.1 hr.2, ?_⟩
    by_cases hN : 0 < wrap32 (xsize * ysize)
    · have hinv := fillPattern_inv rnd fuel _ hN memPattern _ pat k hfill
      obtain ⟨a, b, c⟩ := patternInv_full _ pat hinv
      exact ⟨a, c, b⟩
    · refine ⟨?_, ?_, ?_⟩
      · intro p h0 h1
        omega
      · intro p q h0 h1
        omega
      · intro v h0 h1
        omega
  · simp at h

/-- Witness for C13: a picture of 3 x 1 macroblocks and the `rand()` sequence
0, 1, 2, ..., for which the routine returns with one draw per position. -/
theorem RandomIntraInit_permutation_witness :
    ∃ s, RandomIntraInit exRand 1 (freshModule zeroMem) zeroMem zeroMem 3 1 2 = some s ∧
      s.NumberOfMBs = 3 ∧
      (∀ p, 0 ≤ p → p < s.NumberOfMBs →
        0 ≤ s.RefreshPattern p ∧ s.RefreshPattern p < s.NumberOfMBs) ∧
      (∀ p q, 0 ≤ p → p < s.NumberOfMBs → 0 ≤ q → q < s.NumberOfMBs →
        s.RefreshPattern p = s.RefreshPattern q → p = q) := by
  have hsome : (RandomIntraInit exRand 1 (freshModule zeroMem) zeroMem zeroMem 3 1 2).isSome
      = true := by decide
  obtain ⟨s, hs⟩ := Option.isSome_iff_exists.mp hsome
  have h := RandomIntraInit_permutation exRand 1 (freshModule zeroMem) zeroMem zeroMem 3 1 2
    s hs
  exact ⟨s, hs, by rw [h.1]; decide, h.2.2.1, h.2.2.2.1⟩

/-! ## Single-neighbour motion-vector prediction -/

/-- C16: in `SetMotionVectorPredictor`, for every block shape, whenever exactly
one of the three neighbour reference indices `rFrameL`, `rFrameU`, `rFrameUR`
equals the target reference, both returned components are that neighbour's
motion vector components: the left vector, the above vector, or for the third
neighbour the above-right vector (the above-left vector when above-right is
unavailable). An unavailable neighbour has reference -1 and vector 0, so for a
target reference other than -1 the chosen neighbour is available and the
components are read from the motion-vector array. -/
theorem SetMotionVectorPredictor_single (D : Defines) (img : img_par) (ref_frame : Int)
    (refFrArr : Int → Int → Int) (tmp_mv : Int → Int → Int → Int)
    (block_x block_y blockshape_x blockshape_y : Int) (c : MbContext) (a : BlockAvail)
    (hc : c = mbContext D img tmp_mv block_x block_y)
    (ha : a = blockAvail c block_x block_y blockshape_x) :
    (rFrameL c a refFrArr = ref_frame ∧ rFrameU c a refFrArr ≠ ref_frame ∧
        rFrameUR c a refFrArr blockshape_x ≠ ref_frame →
      SetMotionVectorPredictor D img ref_frame refFrArr tmp_mv block_x block_y
          blockshape_x blockshape_y =
        (if a.block_available_left then c.tmp_mv (4 + c.pic_block_x - 1) c.pic_block_y 0
          else 0,
         if a.block_available_left then c.tmp_mv (4 + c.pic_block_x - 1) c.pic_block_y 1
          else 0) ∧
      (ref_frame ≠ -1 → a.block_available_left = true)) ∧
    (rFrameL c a refFrArr ≠ ref_frame ∧ rFrameU c a refFrArr = ref_frame ∧
        rFrameUR c a refFrArr blockshape_x ≠ ref_frame →
      SetMotionVectorPredictor D img ref_frame refFrArr tmp_mv block_x block_y
          blockshape_x blockshape_y =
        (if a.block_available_up then c.tmp_mv (4 + c.pic_block_x) (c.pic_block_y - 1) 0
          else 0,
         if a.block_available_up then c.tmp_mv (4 + c.pic_block_x) (c.pic_block_y - 1) 1
          else 0) ∧
      (ref_frame ≠ -1 → a.block_available_up = true)) ∧
    (rFrameL c a refFrArr ≠ ref_frame ∧ rFrameU c a refFrArr ≠ ref_frame ∧
        rFrameUR c a refFrArr blockshape_x = ref_frame →
      SetMotionVectorPredictor D img ref_frame refFrArr tmp_mv block_x block_y
          blockshape_x blockshape_y =
        (if a.block_available_upright then
            c.tmp_mv (4 + c.pic_block_x + Int.tdiv blockshape_x 4) (c.pic_block_y - 1) 0
          else if a.block_available_upleft then
            c.tmp_mv (4 + c.pic_block_x - 1) (c.pic_block_y - 1) 0
          else 0,
         if a.block_available_upright then
            c.tmp_mv (4 + c.pic_block_x + Int.tdiv blockshape_x 4) (c.pic_block_y - 1) 1
          else if a.block_available_upleft then
            c.tmp_mv (4 + c.pic_block_x - 1) (c.pic_block_y - 1) 1
          else 0) ∧
      (ref_frame ≠ -1 →
        a.block_available_upright = true ∨ a.block_available_upleft = true)) := by
  subst hc ha
  refine ⟨?_, ?_, ?_⟩
  · rintro ⟨h1, h2, h3⟩
    constructor
    · unfold SetMotionVectorPredictor
      simp only [mvPredType, h1, h2, h3, ne_eq, not_true_eq_false, not_false_eq_true,
        and_self, if_true, predVec]
    · intro hne
      by_contra hav
      simp only [rFrameL, Bool.not_eq_true] at h1 hav
      rw [hav] at h1
      simp at h1
      exact hne h1.symm
  · rintro ⟨h1, h2, h3⟩
    constructor
    · unfold SetMotionVectorPredictor
      simp only [mvPredType, h1, h2, h3, ne_eq, not_true_eq_false, not_false_eq_true,
        and_self, and_false, false_and, if_true, if_false, predVec]
    · intro hne
      by_contra hav
      simp only [rFrameU, Bool.not_eq_true] at h2 hav
      rw [hav] at h2
      simp at h2
      exact hne h2.symm
  · rintro ⟨h1, h2, h3⟩
    constructor
    · unfold SetMotionVectorPredictor
      simp only [mvPredType, h1, h2, h3, ne_eq, not_true_eq_false, not_false_eq_true,
        and_self, and_false, false_and, if_true, if_false, predVec]
    · intro hne
      by_contra hav
      simp only [not_or, Bool.not_eq_true] at hav
      simp only [rFrameUR] at h3
      rw [hav.1, hav.2] at h3
      simp at h3
      exact hne h3.symm

/-- Witness for C16: a 16x16 block with target reference 1, which only the
above-right neighbour uses; the predictor is that neighbour's vector (-4, 0). -/
theorem SetMotionVectorPredictor_single_witness :
    SetMotionVectorPredictor exDefines exImg 1 exRef exMv 0 0 16 16 = (-4, 0) := by
  have h := (SetMotionVectorPredictor_single exDefines exImg 1 exRef exMv 0 0 16 16
    (mbContext exDefines exImg exMv 0 0)
    (blockAvail (mbContext exDefines exImg exMv 0 0) 0 0 16) rfl rfl).2.2 (by decide)
  rw [h.1]
  decide

/-! ## Macroblock mode of P, B and SI slices -/

/-- For an offset `0 ≤ x ≤ 23` the read `ICBPTAB[x >> 2]` is inside the table,
`x >> 2` is `x / 4` and `x & 3` is `x mod 4`. -/
theorem ICBPTAB_offset (x : Int) (h0 : 0 ≤ x) (h1 : x ≤ 23) :
    0 ≤ Int.shiftRight x 2 ∧ Int.shiftRight x 2 ≤ 5 ∧ Int.shiftRight x 2 = x / 4 ∧
    Int.land x 3 = x % 4 ∧ ∃ c, tabGet ICBPTAB (Int.shiftRight x 2) = some c := by
  interval_cases x <;> exact ⟨by decide, by decide, by decide, by decide, _, rfl⟩

/-- C17: in `interpret_mb_mode_P`, codes 0..3 set `mb_type` to the code with all
four `b8mode` equal to it and `b8pdir = 0`; codes 4 and 5 set `mb_type = P8x8`
with `allrefzero = 1` exactly for code 5; code 6 sets intra-4x4 (`b8mode =
IBLOCK`, `b8pdir = -1`); and every code `c` with `7 ≤ c ≤ 30` sets intra-16x16
with `cbp = ICBPTAB[(c-7)>>2]` and `i16mode = (c-7)&3`. -/
theorem interpret_mb_mode_P_spec (D : Defines) (M : ModeDefines) (s : MbModeState) :
    (0 ≤ s.currMB.mb_type ∧ s.currMB.mb_type ≤ 3 →
      ∃ r, interpret_mb_mode_P D M s = some r ∧ r.currMB.mb_type = s.currMB.mb_type ∧
        r.currMB.b8mode = [s.currMB.mb_type, s.currMB.mb_type, s.currMB.mb_type,
          s.currMB.mb_type] ∧
        r.currMB.b8pdir = [0, 0, 0, 0]) ∧
    (s.currMB.mb_type = 4 ∨ s.currMB.mb_type = 5 →
      ∃ r, interpret_mb_mode_P D M s = some r ∧ r.currMB.mb_type = M.P8x8 ∧
        (r.allrefzero = 1 ↔ s.currMB.mb_type = 5) ∧
        (r.allrefzero = 0 ↔ s.currMB.mb_type = 4)) ∧
    (s.currMB.mb_type = 6 →
      ∃ r, interpret_mb_mode_P D M s = some r ∧ r.currMB.mb_type = D.I4MB ∧
        r.currMB.b8mode = [D.IBLOCK, D.IBLOCK, D.IBLOCK, D.IBLOCK] ∧
        r.currMB.b8pdir = [-1, -1, -1, -1]) ∧
    (7 ≤ s.currMB.mb_type ∧ s.currMB.mb_type ≤ 30 →
      0 ≤ Int.shiftRight (s.currMB.mb_type - 7) 2 ∧
      Int.shiftRight (s.currMB.mb_type - 7) 2 ≤ 5 ∧
      ∃ r c, interpret_mb_mode_P D M s = some r ∧ r.currMB.mb_type = D.I16MB ∧
        tabGet ICBPTAB (Int.shiftRight (s.currMB.mb_type - 7) 2) = some c ∧
        r.currMB.cbp = c ∧ r.currMB.i16mode = Int.land (s.currMB.mb_type - 7) 3 ∧
        r.currMB.b8mode = [0, 0, 0, 0] ∧ r.currMB.b8pdir = [-1, -1, -1, -1]) := by
  refine ⟨?_, ?_, ?_, ?_⟩
  · rintro ⟨h0, h3⟩
    have hlt : s.currMB.mb_type < 4 := by omega
    simp [interpret_mb_mode_P, hlt, List.replicate]
  · intro h
    have hge : ¬ s.currMB.mb_type < 4 := by omega
    refine ⟨_, by simp only [interpret_mb_mode_P, hge, h, if_true, if_false]; rfl, rfl, ?_, ?_⟩
    · simp only
      rcases h with h | h <;> simp [h]
    · simp only
      rcases h with h | h <;> simp [h]
  · intro h
    simp [interpret_mb_mode_P, h, List.replicate]
  · rintro ⟨h7, h30⟩
    obtain ⟨a, b, _, _, c, hc⟩ := ICBPTAB_offset (s.currMB.mb_type - 7) (by omega) (by omega)
    have hge : ¬ s.currMB.mb_type < 4 := by omega
    have h45 : ¬ (s.currMB.mb_type = 4 ∨ s.currMB.mb_type = 5) := by omega
    have h6 : ¬ s.currMB.mb_type = 6 := by omega
    refine ⟨a, b, ?_⟩
    simp [interpret_mb_mode_P, hge, h45, h6, hc, List.replicate]

/-- Witness for C17: the code 13 gives intra-16x16 with `cbp = ICBPTAB[1] = 16`
and `i16mode = 2`. -/
theorem interpret_mb_mode_P_spec_witness :
    0 ≤ Int.shiftRight ((exModeState 13).currMB.mb_type - 7) 2 ∧
    Int.shiftRight ((exModeState 13).currMB.mb_type - 7) 2 ≤ 5 ∧
    ∃ r c, interpret_mb_mode_P exDefines exModeDefines (exModeState 13) = some r ∧
      r.currMB.mb_type = exDefines.I16MB ∧
      tabGet ICBPTAB (Int.shiftRight ((exModeState 13).currMB.mb_type - 7) 2) = some c ∧
      r.currMB.cbp = c ∧
      r.currMB.i16mode = Int.land ((exModeState 13).currMB.mb_type - 7) 3 ∧
      r.currMB.b8mode = [0, 0, 0, 0] ∧ r.currMB.b8pdir = [-1, -1, -1, -1] :=
  (interpret_mb_mode_P_spec exDefines exModeDefines (exModeState 13)).2.2.2 (by decide)

/-- The per-half directions of a 16x8 code: `b8pdir[i] = offset2pdir16x8[c][i/2]`. -/
theorem pdirRow_16x8 (c : Int) (h4 : 4 ≤ c) (h20 : c ≤ 20) (heven : c % 2 = 0) :
    Int.tmod c 2 = 0 ∧
    ∃ d0 d1, tabGet2 offset2pdir16x8 c 0 = some d0 ∧ tabGet2 offset2pdir16x8 c 1 = some d1 ∧
      pdirRow offset2pdir16x8 c (fun i => Int.tdiv i 2) = some [d0, d0, d1, d1] := by
  interval_cases c <;> first | omega | exact ⟨by decide, _, _, rfl, rfl, rfl⟩

/-- The per-half directions of an 8x16 code: `b8pdir[i] = offset2pdir8x16[c][i%2]`. -/
theorem pdirRow_8x16 (c : Int) (h5 : 5 ≤ c) (h21 : c ≤ 21) (hodd : c % 2 = 1) :
    Int.tmod c 2 ≠ 0 ∧
    ∃ d0 d1, tabGet2 offset2pdir8x16 c 0 = some d0 ∧ tabGet2 offset2pdir8x16 c 1 = some d1 ∧
      pdirRow offset2pdir8x16 c (fun i => Int.tmod i 2) = some [d0, d1, d0, d1] := by
  interval_cases c <;> first | omega | exact ⟨by decide, _, _, rfl, rfl, rfl⟩

/-- The direct-mode loop sets all four `b8mode` to 0 and all four `b8pdir` to 2
when `getDirectModeABT` is not called or leaves these two arrays alone. -/
theorem directModeLoop_spec (D : Defines) (g : Nat → MbModeState → MbModeState)
    (s : MbModeState) (h8 : s.currMB.b8mode.length = 4) (hp : s.currMB.b8pdir.length = 4)
    (hg : D.USEABT = 0 ∨ ∀ i t, (g i t).currMB.b8mode = t.currMB.b8mode ∧
      (g i t).currMB.b8pdir = t.currMB.b8pdir) :
    ([0, 1, 2, 3].foldl (directModeStep D g) s).currMB.b8mode = [0, 0, 0, 0] ∧
    ([0, 1, 2, 3].foldl (directModeStep D g) s).currMB.b8pdir = [2, 2, 2, 2] := by
  have hstep : ∀ (t : MbModeState) (i : Nat),
      (directModeStep D g t i).currMB.b8mode = t.currMB.b8mode.set i 0 ∧
      (directModeStep D g t i).currMB.b8pdir = t.currMB.b8pdir.set i 2 := by
    intro t i
    unfold directModeStep
    rcases hg with h0 | hg
    · simp [h0]
    · split_ifs
      · exact ⟨(hg _ _).1, (hg _ _).2⟩
      · exact ⟨rfl, rfl⟩
  obtain ⟨m, hm⟩ : ∃ m, s.currMB.b8mode = m := ⟨_, rfl⟩
  obtain ⟨q, hq⟩ : ∃ q, s.currMB.b8pdir = q := ⟨_, rfl⟩
  rw [hm] at h8
  rw [hq] at hp
  match m, h8, q, hp with
  | [m0, m1, m2, m3], _, [q0, q1, q2, q3], _ =>
    simp [List.foldl, hstep, hm, hq, List.set]

/-- C18: in `interpret_mb_mode_B`, code 0 yields direct mode (`mb_type` 0, every
`b8mode = 0`, `b8pdir = 2`); codes 1, 2, 3 yield 16x16 with direction 0, 1, 2;
even codes 4..20 yield 16x8 and odd codes 5..21 yield 8x16 with per-half
directions read from `offset2pdir16x8[code][i/2]` and `offset2pdir8x16[code][i%2]`;
code 22 yields P8x8; code 23 yields intra-4x4; and every code `c` with
`24 ≤ c ≤ 47` yields intra-16x16 with `cbp = ICBPTAB[(c-24)>>2]` and
`i16mode = (c-24)&3`. For code 0 the arrays have their four entries and
`getDirectModeABT`, when adaptive block transforms are in use, leaves `b8mode`
and `b8pdir` alone. -/
theorem interpret_mb_mode_B_spec (D : Defines) (M : ModeDefines)
    (g : Nat → MbModeState → MbModeState) (s : MbModeState) :
    (s.currMB.mb_type = 0 → s.currMB.b8mode.length = 4 → s.currMB.b8pdir.length = 4 →
      (D.USEABT = 0 ∨ ∀ i t, (g i t).currMB.b8mode = t.currMB.b8mode ∧
        (g i t).currMB.b8pdir = t.currMB.b8pdir) →
      ∃ r, interpret_mb_mode_B D M g s = some r ∧ r.currMB.mb_type = 0 ∧
        r.currMB.b8mode = [0, 0, 0, 0] ∧ r.currMB.b8pdir = [2, 2, 2, 2]) ∧
    (1 ≤ s.currMB.mb_type ∧ s.currMB.mb_type ≤ 3 →
      ∃ r, interpret_mb_mode_B D M g s = some r ∧ r.currMB.mb_type = 1 ∧
        r.currMB.b8mode = [1, 1, 1, 1] ∧
        r.currMB.b8pdir = [s.currMB.mb_type - 1, s.currMB.mb_type - 1,
          s.currMB.mb_type - 1, s.currMB.mb_type - 1]) ∧
    (4 ≤ s.currMB.mb_type ∧ s.currMB.mb_type ≤ 20 ∧ s.currMB.mb_type % 2 = 0 →
      ∃ r d0 d1, interpret_mb_mode_B D M g s = some r ∧ r.currMB.mb_type = 2 ∧
        r.currMB.b8mode = [2, 2, 2, 2] ∧
        tabGet2 offset2pdir16x8 s.currMB.mb_type 0 = some d0 ∧
        tabGet2 offset2pdir16x8 s.currMB.mb_type 1 = some d1 ∧
        r.currMB.b8pdir = [d0, d0, d1, d1]) ∧
    (5 ≤ s.currMB.mb_type ∧ s.currMB.mb_type ≤ 21 ∧ s.currMB.mb_type % 2 = 1 →
      ∃ r d0 d1, interpret_mb_mode_B D M g s = some r ∧ r.currMB.mb_type = 3 ∧
        r.currMB.b8mode = [3, 3, 3, 3] ∧
        tabGet2 offset2pdir8x16 s.currMB.mb_type 0 = some d0 ∧
        tabGet2 offset2pdir8x16 s.currMB.mb_type 1 = some d1 ∧
        r.currMB.b8pdir = [d0, d1, d0, d1]) ∧
    (s.currMB.mb_type = 22 →
      ∃ r, interpret_mb_mode_B D M g s = some r ∧ r.currMB.mb_type = M.P8x8) ∧
    (s.currMB.mb_type = 23 →
      ∃ r, interpret_mb_mode_B D M g s = some r ∧ r.currMB.mb_type = D.I4MB ∧
        r.currMB.b8mode = [D.IBLOCK, D.IBLOCK, D.IBLOCK, D.IBLOCK] ∧
        r.currMB.b8pdir = [-1, -1, -1, -1]) ∧
    (24 ≤ s.currMB.mb_type ∧ s.currMB.mb_type ≤ 47 →
      0 ≤ Int.shiftRight (s.currMB.mb_type - 24) 2 ∧
      Int.shiftRight (s.currMB.mb_type - 24) 2 ≤ 5 ∧
      ∃ r c, interpret_mb_mode_B D M g s = some r ∧ r.currMB.mb_type = D.I16MB ∧
        tabGet ICBPTAB (Int.shiftRight (s.currMB.mb_type - 24) 2) = some c ∧
        r.currMB.cbp = c ∧ r.currMB.i16mode = Int.land (s.currMB.mb_type - 24) 3 ∧
        r.currMB.b8mode = [0, 0, 0, 0] ∧ r.currMB.b8pdir = [-1, -1, -1, -1]) := by
  refine ⟨?_, ?_, ?_, ?_, ?_, ?_, ?_⟩
  · intro h h8 hp hg
    have hl := directModeLoop_spec D g
      { s with
        currMB := { s.currMB with useABT := List.replicate 4 D.USEABT }
        bipred_weighting_type := List.replicate 4 0 } h8 hp hg
    unfold interpret_mb_mode_B
    simp only []
    rw [if_pos h]
    exact ⟨_, rfl, rfl, hl.1, hl.2⟩
  · rintro ⟨h1, h3⟩
    have e0 : ¬ s.currMB.mb_type = 0 := by omega
    have e23 : ¬ s.currMB.mb_type = 23 := by omega
    have g23 : ¬ s.currMB.mb_type > 23 := by omega
    have e22 : ¬ s.currMB.mb_type = 22 := by omega
    have l4 : s.currMB.mb_type < 4 := by omega
    have hd : tabGet offset2pdir16x16 s.currMB.mb_type = some (s.currMB.mb_type - 1) := by
      generalize s.currMB.mb_type = c at h1 h3
      interval_cases c <;> rfl
    simp [interpret_mb_mode_B, e0, e23, g23, e22, l4, hd, List.replicate]
  · rintro ⟨h4, h20, heven⟩
    have e0 : ¬ s.currMB.mb_type = 0 := by omega
    have e23 : ¬ s.currMB.mb_type = 23 := by omega
    have g23 : ¬ s.currMB.mb_type > 23 := by omega
    have e22 : ¬ s.currMB.mb_type = 22 := by omega
    have l4 : ¬ s.currMB.mb_type < 4 := by omega
    obtain ⟨hm, d0, d1, hd0, hd1, hrow⟩ := pdirRow_16x8 s.currMB.mb_type h4 h20 heven
    unfold interpret_mb_mode_B
    simp only []
    rw [if_neg e0, if_neg e23, if_neg g23, if_neg e22, if_neg l4, if_pos hm, hrow]
    exact ⟨_, d0, d1, rfl, rfl, rfl, hd0, hd1, rfl⟩
  · rintro ⟨h5, h21, hodd⟩
    have e0 : ¬ s.currMB.mb_type = 0 := by omega
    have e23 : ¬ s.currMB.mb_type = 23 := by omega
    have g23 : ¬ s.currMB.mb_type > 23 := by omega
    have e22 : ¬ s.currMB.mb_type = 22 := by omega
    have l4 : ¬ s.currMB.mb_type < 4 := by omega
    obtain ⟨hm, d0, d1, hd0, hd1, hrow⟩ := pdirRow_8x16 s.currMB.mb_type h5 h21 hodd
    unfold interpret_mb_mode_B
    simp only []
    rw [if_neg e0, if_neg e23, if_neg g23, if_neg e22, if_neg l4, if_neg hm, hrow]
    exact ⟨_, d0, d1, rfl, rfl, rfl, hd0, hd1, rfl⟩
  · intro h
    simp [interpret_mb_mode_B, h]
  · intro h
    simp [interpret_mb_mode_B, h, List.replicate]
  · rintro ⟨h24, h47⟩
    obtain ⟨a, b, _, _, c, hc⟩ := ICBPTAB_offset (s.currMB.mb_type - 24) (by omega) (by omega)
    have e0 : ¬ s.currMB.mb_type = 0 := by omega
    have e23 : ¬ s.currMB.mb_type = 23 := by omega
    have g23 : s.currMB.mb_type > 23 := by omega
    refine ⟨a, b, ?_⟩
    simp [interpret_mb_mode_B, e0, e23, g23, hc, List.replicate]

/-- Witness for C18: the code 8 gives 16x8 with the directions
`offset2pdir16x8[8] = {0, 1}`, that is `b8pdir = 0, 0, 1, 1`. -/
theorem interpret_mb_mode_B_spec_witness :
    ∃ r d0 d1, interpret_mb_mode_B exDefines exModeDefines (fun _ t => t) (exModeState 8)
        = some r ∧ r.currMB.mb_type = 2 ∧ r.currMB.b8mode = [2, 2, 2, 2] ∧
      tabGet2 offset2pdir16x8 (exModeState 8).currMB.mb_type 0 = some d0 ∧
      tabGet2 offset2pdir16x8 (exModeState 8).currMB.mb_type 1 = some d1 ∧
      r.currMB.b8pdir = [d0, d0, d1, d1] :=
  (interpret_mb_mode_B_spec exDefines exModeDefines (fun _ t => t) (exModeState 8)).2.2.1
    (by decide)

/-- C19 (failing input): in an SI slice the code 5 selects intra-16x16 with
`cbp = ICBPTAB[(5-1)>>2] = ICBPTAB[1] = 16` and `i16mode = (5-2)&3 = 3`, whereas
`interpret_mb_mode_I` assigns to code 4 the pattern `ICBPTAB[(4-1)>>2] =
ICBPTAB[0] = 0` (and the same sub-mode 3). The pattern index is taken from
`mbmode-1` while the sub-mode is taken from `mbmode-2`; the other interpreters
use one offset for both. For the last code 25 the index `(25-1)>>2 = 6` is
outside `ICBPTAB`, while `interpret_mb_mode_I` assigns 47 and 3 to code 24. -/
theorem interpret_mb_mode_SI_cbp_offset :
    (interpret_mb_mode_SI exDefines exModeDefines (exModeState 5)).map
      (fun r => (r.currMB.mb_type, r.currMB.cbp, r.currMB.i16mode)) = some (10, 16, 3) ∧
    (interpret_mb_mode_I exDefines (exMb 4)).map
      (fun m => (m.mb_type, m.cbp, m.i16mode)) = some (10, 0, 3) ∧
    tabGet ICBPTAB (Int.shiftRight (5 - 2) 2) = some 0 ∧
    Int.shiftRight (25 - 1) 2 = 6 ∧ tabGet ICBPTAB 6 = none ∧
    (interpret_mb_mode_SI exDefines exModeDefines (exModeState 25)).isSome = false ∧
    (interpret_mb_mode_I exDefines (exMb 24)).map
      (fun m => (m.mb_type, m.cbp, m.i16mode)) = some (10, 47, 3) := by
  decide

/-! ## Macroblock coordinates under field/frame-adaptive coding -/

/-- The coordinates assigned by `start_macroblock` under field/frame-adaptive
coding in a picture `W` macroblocks wide, in terms of the pair row
`q = n / (2W)` and the position `a = n mod (2W)` inside it. -/
theorem start_macroblock_mbaff_eq (img : ImgPosition) (W n : Int)
    (hassert : 0 ≤ img.current_mb_nr ∧ img.current_mb_nr < img.max_mb_nr)
    (hflag : img.mb_frame_field_flag ≠ 0) (hw : img.width = 16 * W) (hW : 1 ≤ W)
    (hn : 0 ≤ n) :
    ∃ r, start_macroblock img n = some r ∧ r.current_mb_nr = n ∧
      r.mb_x = n % (2 * W) / 2 ∧ r.mb_y = 2 * (n / (2 * W)) + n % (2 * W) % 2 ∧
      r.block_x = 4 * r.mb_x ∧ r.pix_x = 16 * r.mb_x ∧ r.pix_c_x = 8 * r.mb_x ∧
      r.block_y = 4 * r.mb_y ∧ r.pix_y = 16 * r.mb_y ∧ r.pix_c_y = 8 * r.mb_y := by
  have h2W : Int.tdiv (2 * img.width) MB_BLOCK_SIZE = 2 * W := by
    rw [hw, MB_BLOCK_SIZE, Int.tdiv_eq_ediv (by omega) (by decide)]
    omega
  have hpos : 0 < 2 * W := by omega
  have ha0 : 0 ≤ n % (2 * W) := Int.emod_nonneg _ (Int.ne_of_gt hpos)
  have hq0 : 0 ≤ n / (2 * W) := Int.ediv_nonneg hn hpos.le
  have hmod : Int.tmod n (2 * W) = n % (2 * W) := Int.tmod_eq_emod hn hpos.le
  have hdiv : Int.tdiv n (2 * W) = n / (2 * W) := Int.tdiv_eq_ediv hn hpos.le
  have hx : Int.tdiv (n % (2 * W)) 2 = n % (2 * W) / 2 :=
    Int.tdiv_eq_ediv ha0 (by decide)
  have hpar : Int.tmod (n % (2 * W)) 2 = n % (2 * W) % 2 :=
    Int.tmod_eq_emod ha0 (by decide)
  have hx0 : 0 ≤ n % (2 * W) / 2 := by omega
  have hy : (if Int.tmod (n % (2 * W)) 2 ≠ 0 then 2 * (n / (2 * W)) + 1
      else 2 * (n / (2 * W))) = 2 * (n / (2 * W)) + n % (2 * W) % 2 := by
    rw [hpar]
    split_ifs <;> omega
  have hy0 : 0 ≤ 2 * (n / (2 * W)) + n % (2 * W) % 2 := by omega
  unfold start_macroblock
  rw [if_pos hassert]
  simp only [hflag, ne_eq, not_false_eq_true, if_true, h2W, hmod, hdiv, hx, hy]
  refine ⟨_, rfl, rfl, rfl, rfl, ?_, ?_, ?_, ?_, ?_, ?_⟩
  · simp only [BLOCK_SIZE]
    ring
  · simp only [MB_BLOCK_SIZE]
    ring
  · simp only [MB_BLOCK_SIZE]
    rw [Int.tdiv_eq_ediv (by omega) (by decide)]
    omega
  · simp only [BLOCK_SIZE]
    ring
  · simp only [MB_BLOCK_SIZE]
    ring
  · simp only [MB_BLOCK_SIZE]
    rw [Int.tdiv_eq_ediv (by omega) (by decide)]
    omega

/-- C20: in `start_macroblock` with field/frame-adaptive coding enabled and a
picture `W` macroblocks wide, for every address `n` the two macroblocks `2k` and
`2k+1` of a pair receive the same `mb_x` and the vertically adjacent rows
`mb_y = 2q` and `2q+1` (even address on the even row), and the map
`n -> (mb_x, mb_y)` is injective with
`n = 2*W*(mb_y/2) + 2*mb_x + (mb_y mod 2)`; `block_x`, `pix_x`, `pix_c_x` and the
vertical counterparts are 4, 16 and 8 times `mb_x` / `mb_y`. -/
theorem start_macroblock_mbaff (img : ImgPosition) (W : Int)
    (hassert : 0 ≤ img.current_mb_nr ∧ img.current_mb_nr < img.max_mb_nr)
    (hflag : img.mb_frame_field_flag ≠ 0) (hw : img.width = 16 * W) (hW : 1 ≤ W) :
    (∀ n, 0 ≤ n →
      ∃ r, start_macroblock img n = some r ∧ r.current_mb_nr = n ∧
        0 ≤ r.mb_x ∧ r.mb_x < W ∧ 0 ≤ r.mb_y ∧
        n = 2 * W * (r.mb_y / 2) + 2 * r.mb_x + r.mb_y % 2 ∧
        r.block_x = 4 * r.mb_x ∧ r.pix_x = 16 * r.mb_x ∧ r.pix_c_x = 8 * r.mb_x ∧
        r.block_y = 4 * r.mb_y ∧ r.pix_y = 16 * r.mb_y ∧ r.pix_c_y = 8 * r.mb_y) ∧
    (∀ k, 0 ≤ k →
      ∃ r0 r1, start_macroblock img (2 * k) = some r0 ∧
        start_macroblock img (2 * k + 1) = some r1 ∧
        r1.mb_x = r0.mb_x ∧ r0.mb_y % 2 = 0 ∧ r1.mb_y = r0.mb_y + 1) ∧
    (∀ n m r rm, 0 ≤ n → 0 ≤ m → start_macroblock img n = some r →
      start_macroblock img m = some rm → r.mb_x = rm.mb_x → r.mb_y = rm.mb_y → n = m) := by
  have hpos : 0 < 2 * W := by omega
  have part1 : ∀ n, 0 ≤ n →
      ∃ r, start_macroblock img n = some r ∧ r.current_mb_nr = n ∧
        0 ≤ r.mb_x ∧ r.mb_x < W ∧ 0 ≤ r.mb_y ∧
        n = 2 * W * (r.mb_y / 2) + 2 * r.mb_x + r.mb_y % 2 ∧
        r.block_x = 4 * r.mb_x ∧ r.pix_x = 16 * r.mb_x ∧ r.pix_c_x = 8 * r.mb_x ∧
        r.block_y = 4 * r.mb_y ∧ r.pix_y = 16 * r.mb_y ∧ r.pix_c_y = 8 * r.mb_y := by
    intro n hn
    obtain ⟨r, hr, hnr, hx, hy, h1, h2, h3, h4, h5, h6⟩ :=
      start_macroblock_mbaff_eq img W n hassert hflag hw hW hn
    have ha0 : 0 ≤ n % (2 * W) := Int.emod_nonneg _ (Int.ne_of_gt hpos)
    have ha1 : n % (2 * W) < 2 * W := Int.emod_lt_of_pos _ hpos
    have hq0 : 0 ≤ n / (2 * W) := Int.ediv_nonneg hn hpos.le
    have hdec : 2 * W * (n / (2 * W)) + n % (2 * W) = n := Int.ediv_add_emod n (2 * W)
    have hhalf : r.mb_y / 2 = n / (2 * W) := by omega
    refine ⟨r, hr, hnr, by omega, by omega, by omega, ?_, h1, h2, h3, h4, h5, h6⟩
    rw [hhalf]
    omega
  refine ⟨part1, ?_, ?_⟩
  · intro k hk
    obtain ⟨r0, hr0, _, hx0, hy0, _⟩ :=
      start_macroblock_mbaff_eq img W (2 * k) hassert hflag hw hW (by omega)
    obtain ⟨r1, hr1, _, hx1, hy1, _⟩ :=
      start_macroblock_mbaff_eq img W (2 * k + 1) hassert hflag hw hW (by omega)
    have ha0 : 0 ≤ 2 * k % (2 * W) := Int.emod_nonneg _ (Int.ne_of_gt hpos)
    have ha1 : 2 * k % (2 * W) < 2 * W := Int.emod_lt_of_pos _ hpos
    have hdec : 2 * W * (2 * k / (2 * W)) + 2 * k % (2 * W) = 2 * k :=
      Int.ediv_add_emod (2 * k) (2 * W)
    have hassoc : 2 * W * (2 * k / (2 * W)) = 2 * (W * (2 * k / (2 * W))) := by ring
    have heven : 2 * k % (2 * W) % 2 = 0 := by omega
    have huniq : (2 * k + 1) / (2 * W) = 2 * k / (2 * W) ∧
        (2 * k + 1) % (2 * W) = 2 * k % (2 * W) + 1 := by
      rw [Int.ediv_emod_unique hpos]
      refine ⟨by omega, by omega, by omega⟩
    refine ⟨r0, r1, hr0, hr1, ?_, ?_, ?_⟩
    · rw [hx0, hx1, huniq.2]
      omega
    · rw [hy0]
      omega
    · rw [hy0, hy1, huniq.1, huniq.2]
      omega
  · intro n m r rm hn hm hr hrm hx hy
    obtain ⟨r1, hr1, _, _, _, _, hf1, _⟩ := part1 n hn
    obtain ⟨r2, hr2, _, _, _, _, hf2, _⟩ := part1 m hm
    rw [hr] at hr1
    rw [hrm] at hr2
    have e1 : r = r1 := Option.some.inj hr1
    have e2 : rm = r2 := Option.some.inj hr2
    subst e1 e2
    rw [hf1, hf2, hx, hy]

/-- Witness for C20: address 7 in a picture 3 macroblocks wide is the lower
macroblock of the pair in column 0 of the second pair row: `mb_x = 0`,
`mb_y = 3`. -/
theorem start_macroblock_mbaff_witness :
    ∃ r, start_macroblock (exPosition 3 1) 7 = some r ∧ r.current_mb_nr = 7 ∧
      0 ≤ r.mb_x ∧ r.mb_x < 3 ∧ 0 ≤ r.mb_y ∧
      7 = 2 * 3 * (r.mb_y / 2) + 2 * r.mb_x + r.mb_y % 2 ∧
      r.block_x = 4 * r.mb_x ∧ r.pix_x = 16 * r.mb_x ∧ r.pix_c_x = 8 * r.mb_x ∧
      r.block_y = 4 * r.mb_y ∧ r.pix_y = 16 * r.mb_y ∧ r.pix_c_y = 8 * r.mb_y :=
  (start_macroblock_mbaff (exPosition 3 1) 3 (by decide) (by decide) rfl (by decide)).1 7
    (by decide)

/-! ## The intra-refresh cursor over many pictures -/

/-- Reducing an intermediate sum to 32 bits does not change the reduced total. -/
theorem wrap32_add_wrap32 (x y : Int) : wrap32 (wrap32 x + y) = wrap32 (x + y) := by
  unfold wrap32
  omega

/-- The module state after `k` calls of `RandomIntraNewPicture`: the pattern and
the two sizes are unchanged and the cursor has advanced by `k` times the
refresh rate, reduced to 32 bits. -/
theorem newPicture_iterate (k : Nat) (s : IntraRefresh)
    (hW : wrap32 s.WalkAround = s.WalkAround) :
    (Nat.iterate RandomIntraNewPicture k s).RefreshPattern = s.RefreshPattern ∧
    (Nat.iterate RandomIntraNewPicture k s).NumberOfMBs = s.NumberOfMBs ∧
    (Nat.iterate RandomIntraNewPicture k s).NumberIntraPerPicture
      = s.NumberIntraPerPicture ∧
    (Nat.iterate RandomIntraNewPicture k s).WalkAround
      = wrap32 (s.WalkAround + (k : Int) * s.NumberIntraPerPicture) := by
  induction k with
  | zero => simp [hW]
  | succ k ih =>
    obtain ⟨h1, h2, h3, h4⟩ := ih
    rw [Function.iterate_succ_apply']
    refine ⟨?_, ?_, ?_, ?_⟩
    · simp only [RandomIntraNewPicture, h1]
    · simp only [RandomIntraNewPicture, h2]
    · simp only [RandomIntraNewPicture, h3]
    · simp only [RandomIntraNewPicture, h3, h4]
      rw [wrap32_add_wrap32]
      congr 1
      push_cast
      ring

/-- The forced-intra set after `k >= 1` calls of `RandomIntraNewPicture`, with
the cursor and the index reduced to 32 bits as the machine does. -/
theorem forcedSet_iterate (k : Nat) (hk : 1 ≤ k) (s : IntraRefresh)
    (hW : wrap32 s.WalkAround = s.WalkAround) :
    forcedSet (Nat.iterate RandomIntraNewPicture k s) =
      (List.range s.NumberIntraPerPicture.toNat).map (fun j : Nat =>
        s.RefreshPattern (Int.tmod
          (wrap32 (wrap32 (s.WalkAround + (k : Int) * s.NumberIntraPerPicture) + (j : Int)))
          s.NumberOfMBs)) := by
  obtain ⟨n, rfl⟩ : ∃ n, k = n + 1 := ⟨k - 1, by omega⟩
  obtain ⟨h1, h2, h3, h4⟩ := newPicture_iterate n s hW
  rw [Function.iterate_succ_apply', forcedSet_newPicture, h1, h2, h3, h4, wrap32_add_wrap32]
  apply List.map_congr_left
  intro j _
  congr 5
  push_cast
  ring

/-- The routine `RandomIntra` returns 1 when the macroblock is in the forced-intra
set and 0 otherwise. -/
theorem RandomIntra_eq (s : IntraRefresh) (mb : Int) :
    (RandomIntra s mb = 1 ↔ mb ∈ forcedSet s) ∧ (RandomIntra s mb = 0 ↔ mb ∉ forcedSet s) := by
  unfold RandomIntra
  by_cases h : mb ∈ forcedSet s
  · have : (forcedSet s).any (fun v => v == mb) = true := by
      rw [List.any_eq_true]
      exact ⟨mb, h, by simp⟩
    simp [this, h]
  · have : (forcedSet s).any (fun v => v == mb) = false := by
      rw [Bool.eq_false_iff]
      intro hc
      rw [List.any_eq_true] at hc
      obtain ⟨v, hv, hvm⟩ := hc
      have : v = mb := by simpa using hvm
      exact h (this ▸ hv)
    simp [this, h]

/-- While the cursor stays inside the 32-bit range, that is for
`(k + 1) * r < 2^31`, after `RandomIntraInit` on a fresh module state and `k >= 1`
calls of `RandomIntraNewPicture` the routine `RandomIntra(mb)` returns 1 exactly
when `mb = RefreshPattern[(k*r + j) mod N]` for some `j` in `0..r-1`, and 0
otherwise. -/
theorem RandomIntra_after_pictures (s : IntraRefresh) (k : Nat) (hk : 1 ≤ k) (mb : Int)
    (hN : 1 ≤ s.NumberOfMBs) (hr : 0 ≤ s.NumberIntraPerPicture) (hW : s.WalkAround = 0)
    (hbound : ((k : Int) + 1) * s.NumberIntraPerPicture < 2147483648) :
    (RandomIntra (Nat.iterate RandomIntraNewPicture k s) mb = 1 ↔
      ∃ j : Int, 0 ≤ j ∧ j < s.NumberIntraPerPicture ∧
        mb = s.RefreshPattern (((k : Int) * s.NumberIntraPerPicture + j) % s.NumberOfMBs)) ∧
    (RandomIntra (Nat.iterate RandomIntraNewPicture k s) mb = 0 ↔
      ¬ ∃ j : Int, 0 ≤ j ∧ j < s.NumberIntraPerPicture ∧
        mb = s.RefreshPattern (((k : Int) * s.NumberIntraPerPicture + j) % s.NumberOfMBs)) := by
  have hkr : 0 ≤ (k : Int) * s.NumberIntraPerPicture := mul_nonneg (Int.ofNat_nonneg k) hr
  have hexp : ((k : Int) + 1) * s.NumberIntraPerPicture
      = (k : Int) * s.NumberIntraPerPicture + s.NumberIntraPerPicture := by ring
  rw [hexp] at hbound
  have hin : wrap32 ((k : Int) * s.NumberIntraPerPicture)
      = (k : Int) * s.NumberIntraPerPicture := wrap32_of_range _ (by omega) (by omega)
  have hmem : mb ∈ forcedSet (Nat.iterate RandomIntraNewPicture k s) ↔
      ∃ j : Int, 0 ≤ j ∧ j < s.NumberIntraPerPicture ∧
        mb = s.RefreshPattern (((k : Int) * s.NumberIntraPerPicture + j) % s.NumberOfMBs) := by
    rw [forcedSet_iterate k hk s (by rw [hW]; decide), hW, List.mem_map]
    constructor
    · rintro ⟨j, hj, hv⟩
      rw [List.mem_range] at hj
      refine ⟨(j : Int), Int.ofNat_nonneg j, by omega, ?_⟩
      rw [← hv, zero_add, hin, wrap32_of_range _ (by omega) (by omega),
        Int.tmod_eq_emod (by omega) (by omega)]
    · rintro ⟨j, hj0, hj1, hv⟩
      refine ⟨j.toNat, List.mem_range.mpr (by omega), ?_⟩
      have hcast : ((j.toNat : Nat) : Int) = j := Int.toNat_of_nonneg hj0
      rw [hv, zero_add, hcast, hin, wrap32_of_range _ (by omega) (by omega),
        Int.tmod_eq_emod (by omega) (by omega)]
  obtain ⟨h1, h0⟩ := RandomIntra_eq (Nat.iterate RandomIntraNewPicture k s) mb
  exact ⟨h1.trans hmem, h0.trans (not_congr hmem)⟩

/-- C14, failing input: a picture of 3 x 1 macroblocks with refresh rate 2 and
1073741824 calls of `RandomIntraNewPicture`.  The 32-bit cursor has wrapped to
-2147483648, the two pattern indices are -2 and -1 (outside the pattern array,
where the claim gives (2147483648 + j) mod 3, that is 2 and 0), and
`RandomIntra(2)` is 0 although `RefreshPattern[2] = 2`.  One picture earlier the
cursor is still in range and the set is read at indices 0 and 1. -/
theorem RandomIntra_cursor_overflow :
    ∃ s, RandomIntraInit exRand 1 (freshModule zeroMem) zeroMem zeroMem 3 1 2 = some s ∧
      s.NumberOfMBs = 3 ∧ s.NumberIntraPerPicture = 2 ∧ s.RefreshPattern 2 = 2 ∧
      (Nat.iterate RandomIntraNewPicture 1073741824 s).WalkAround = -2147483648 ∧
      forcedSet (Nat.iterate RandomIntraNewPicture 1073741824 s)
        = [s.RefreshPattern (-2), s.RefreshPattern (-1)] ∧
      RandomIntra (Nat.iterate RandomIntraNewPicture 1073741824 s) 2 = 0 ∧
      ((1073741824 : Int) * 2 + 0) % 3 = 2 ∧ ((1073741824 : Int) * 2 + 1) % 3 = 0 ∧
      forcedSet (Nat.iterate RandomIntraNewPicture 1073741823 s)
        = [s.RefreshPattern 0, s.RefreshPattern 1] := by
  have hval : (RandomIntraInit exRand 1 (freshModule zeroMem) zeroMem zeroMem 3 1 2).map
      (fun s => (s.NumberOfMBs, s.NumberIntraPerPicture, s.WalkAround, s.RefreshPattern 2,
        s.RefreshPattern (-2), s.RefreshPattern (-1)))
      = some (3, 2, 0, 2, 0, 0) := by decide
  cases hs : RandomIntraInit exRand 1 (freshModule zeroMem) zeroMem zeroMem 3 1 2 with
  | none => rw [hs] at hval; exact absurd hval (by simp)
  | some s =>
    rw [hs] at hval
    simp only [Option.map_some', Option.some.injEq, Prod.mk.injEq] at hval
    obtain ⟨hN, hr, hW, h2, hm2, hm1⟩ := hval
    have hW32 : wrap32 s.WalkAround = s.WalkAround := by rw [hW]; decide
    have hset : forcedSet (Nat.iterate RandomIntraNewPicture 1073741824 s)
        = [s.RefreshPattern (-2), s.RefreshPattern (-1)] := by
      rw [forcedSet_iterate 1073741824 (by norm_num) s hW32, hN, hr, hW]
      rfl
    refine ⟨s, rfl, hN, hr, h2, ?_, hset, ?_, by decide, by decide, ?_⟩
    · rw [(newPicture_iterate 1073741824 s hW32).2.2.2, hr, hW]
      decide
    · have h0 := (RandomIntra_eq (Nat.iterate RandomIntraNewPicture 1073741824 s) 2).2
      rw [h0, hset, hm2, hm1]
      decide
    · rw [forcedSet_iterate 1073741823 (by norm_num) s hW32, hN, hr, hW]
      rfl

/-! ## Neighbour availability in the decoder -/

/-- Reading an array after a conditional assignment to one of its cells. -/
theorem ite_setCell_apply {α : Type} (c : Prop) [Decidable c] (a : Int → Int → α)
    (x y : Int) (v : α) (p q : Int) :
    (if c then setCell a x y v else a) p q = if c ∧ p = x ∧ q = y then v else a p q := by
  unfold setCell
  by_cases h : c <;> by_cases h2 : p = x ∧ q = y <;> simp [h, h2]

/-- The entry `mb_available[i][j]` after `CheckAvailabilityOfNeighbors`. -/
theorem mb_available_apply (img : NeighborState) (i j : Int) :
    CheckAvailabilityOfNeighbors_mb_available img i j =
      if (img.pix_y ≥ MB_BLOCK_SIZE ∧ img.pix_x < img.width - MB_BLOCK_SIZE ∧
          img.slice_nr img.current_mb_nr =
            img.slice_nr (img.current_mb_nr - Int.tdiv img.width MB_BLOCK_SIZE + 1)) ∧
          i = 0 ∧ j = 2 then
        some (img.current_mb_nr - Int.tdiv img.width MB_BLOCK_SIZE + 1)
      else if (img.pix_x ≥ MB_BLOCK_SIZE ∧ img.pix_y ≥ MB_BLOCK_SIZE ∧
          img.slice_nr img.current_mb_nr =
            img.slice_nr (img.current_mb_nr - Int.tdiv img.width MB_BLOCK_SIZE - 1)) ∧
          i = 0 ∧ j = 0 then
        some (img.current_mb_nr - Int.tdiv img.width MB_BLOCK_SIZE - 1)
      else if (img.pix_y ≥ MB_BLOCK_SIZE ∧
          ¬ (img.slice_nr img.current_mb_nr ≠
            img.slice_nr (img.current_mb_nr - Int.tdiv img.width MB_BLOCK_SIZE))) ∧
          i = 0 ∧ j = 1 then
        some (img.current_mb_nr - Int.tdiv img.width MB_BLOCK_SIZE)
      else if (img.pix_x ≥ MB_BLOCK_SIZE ∧
          ¬ (img.slice_nr img.current_mb_nr ≠ img.slice_nr (img.current_mb_nr - 1))) ∧
          i = 1 ∧ j = 0 then
        some (img.current_mb_nr - 1)
      else if i = 1 ∧ j = 1 then some img.current_mb_nr
      else if 0 ≤ i ∧ i < 3 ∧ 0 ≤ j ∧ j < 3 then none
      else img.mb_available i j := by
  unfold CheckAvailabilityOfNeighbors_mb_available
  simp only [ite_setCell_apply]
  rfl

/-- C21: after `CheckAvailabilityOfNeighbors` for the macroblock at position
(`mb_x`, `mb_y`) of a picture `W` macroblocks wide (address `mb_y*W + mb_x`),
`mb_available[1][1]` is the current macroblock; the left, above, above-left and
above-right entries point to that neighbour, and are non-NULL, exactly when it
lies on the picture grid and carries the same `slice_nr` as the current
macroblock; and the entries `[1][2]`, `[2][0]`, `[2][1]`, `[2][2]` are NULL. -/
theorem CheckAvailabilityOfNeighbors_pointers (img : NeighborState) (W mb_x mb_y : Int)
    (hw : img.width = 16 * W) (hx : img.pix_x = 16 * mb_x) (hy : img.pix_y = 16 * mb_y)
    (hnr : img.current_mb_nr = mb_y * W + mb_x) (hW : 1 ≤ W) :
    (CheckAvailabilityOfNeighbors img).mb_available 1 1 = some img.current_mb_nr ∧
    (CheckAvailabilityOfNeighbors img).mb_available 1 0 =
      (if 1 ≤ mb_x ∧
          img.slice_nr (mb_y * W + (mb_x - 1)) = img.slice_nr img.current_mb_nr then
        some (mb_y * W + (mb_x - 1)) else none) ∧
    (CheckAvailabilityOfNeighbors img).mb_available 0 1 =
      (if 1 ≤ mb_y ∧
          img.slice_nr ((mb_y - 1) * W + mb_x) = img.slice_nr img.current_mb_nr then
        some ((mb_y - 1) * W + mb_x) else none) ∧
    (CheckAvailabilityOfNeighbors img).mb_available 0 0 =
      (if 1 ≤ mb_x ∧ 1 ≤ mb_y ∧
          img.slice_nr ((mb_y - 1) * W + (mb_x - 1)) = img.slice_nr img.current_mb_nr then
        some ((mb_y - 1) * W + (mb_x - 1)) else none) ∧
    (CheckAvailabilityOfNeighbors img).mb_available 0 2 =
      (if mb_x + 1 < W ∧ 1 ≤ mb_y ∧
          img.slice_nr ((mb_y - 1) * W + (mb_x + 1)) = img.slice_nr img.current_mb_nr then
        some ((mb_y - 1) * W + (mb_x + 1)) else none) ∧
    (CheckAvailabilityOfNeighbors img).mb_available 1 2 = none ∧
    (CheckAvailabilityOfNeighbors img).mb_available 2 0 = none ∧
    (CheckAvailabilityOfNeighbors img).mb_available 2 1 = none ∧
    (CheckAvailabilityOfNeighbors img).mb_available 2 2 = none := by
  have hmw : Int.tdiv img.width MB_BLOCK_SIZE = W := by
    rw [hw, MB_BLOCK_SIZE, Int.tdiv_eq_ediv (by omega) (by decide)]
    omega
  have e1 : mb_y * W + (mb_x - 1) = img.current_mb_nr - 1 := by rw [hnr]; ring
  have e2 : (mb_y - 1) * W + mb_x = img.current_mb_nr - W := by rw [hnr]; ring
  have e3 : (mb_y - 1) * W + (mb_x - 1) = img.current_mb_nr - W - 1 := by rw [hnr]; ring
  have e4 : (mb_y - 1) * W + (mb_x + 1) = img.current_mb_nr - W + 1 := by rw [hnr]; ring
  rw [e1, e2, e3, e4]
  have hcell : ∀ i j, (CheckAvailabilityOfNeighbors img).mb_available i j =
      CheckAvailabilityOfNeighbors_mb_available img i j := fun _ _ => rfl
  simp only [hcell, mb_available_apply, hmw]
  simp only [hx, hy, hw, MB_BLOCK_SIZE]
  generalize img.current_mb_nr = nr
  generalize img.slice_nr = sl
  have c1 : 16 * mb_x ≥ 16 ↔ 1 ≤ mb_x := by omega
  have c2 : 16 * mb_y ≥ 16 ↔ 1 ≤ mb_y := by omega
  have c3 : 16 * mb_x < 16 * W - 16 ↔ mb_x + 1 < W := by omega
  simp only [c1, c2, c3]
  have s1 : (sl (nr - 1) = sl nr) ↔ (sl nr = sl (nr - 1)) := eq_comm
  have s2 : (sl (nr - W) = sl nr) ↔ (sl nr = sl (nr - W)) := eq_comm
  have s3 : (sl (nr - W - 1) = sl nr) ↔ (sl nr = sl (nr - W - 1)) := eq_comm
  have s4 : (sl (nr - W + 1) = sl nr) ↔ (sl nr = sl (nr - W + 1)) := eq_comm
  simp only [s1, s2, s3, s4]
  refine ⟨by simp, ?_, ?_, ?_, ?_, by simp, by simp, by simp, by simp⟩
  · by_cases hA : 1 ≤ mb_x <;> by_cases hB : sl nr = sl (nr - 1) <;> simp [hA, hB]
  · by_cases hA : 1 ≤ mb_y <;> by_cases hB : sl nr = sl (nr - W) <;> simp [hA, hB]
  · by_cases hA : 1 ≤ mb_x <;> by_cases hC : 1 ≤ mb_y <;>
      by_cases hB : sl nr = sl (nr - W - 1) <;> simp [hA, hC, hB]
  · by_cases hA : mb_x + 1 < W <;> by_cases hC : 1 ≤ mb_y <;>
      by_cases hB : sl nr = sl (nr - W + 1) <;> simp [hA, hC, hB]

/-- Witness for C21: macroblock 6 at position (2,1) of a picture four
macroblocks wide, where slice 1 starts at macroblock 5: the left neighbour 5 is
in the same slice, the neighbours 1, 2, 3 of the row above are not. -/
theorem CheckAvailabilityOfNeighbors_pointers_witness :
    (CheckAvailabilityOfNeighbors
      (exNeighborState 4 2 1 0 exSliceNr (fun _ _ => 1) (fun _ _ => 5))).mb_available 1 1
        = some 6 ∧
    (CheckAvailabilityOfNeighbors
      (exNeighborState 4 2 1 0 exSliceNr (fun _ _ => 1) (fun _ _ => 5))).mb_available 1 0
        = some 5 ∧
    (CheckAvailabilityOfNeighbors
      (exNeighborState 4 2 1 0 exSliceNr (fun _ _ => 1) (fun _ _ => 5))).mb_available 0 1
        = none ∧
    (CheckAvailabilityOfNeighbors
      (exNeighborState 4 2 1 0 exSliceNr (fun _ _ => 1) (fun _ _ => 5))).mb_available 2 2
        = none := by
  obtain ⟨h1, h2, h3, _, _, _, _, _, h9⟩ := CheckAvailabilityOfNeighbors_pointers
    (exNeighborState 4 2 1 0 exSliceNr (fun _ _ => 1) (fun _ _ => 5)) 4 2 1 rfl rfl rfl rfl
    (by decide)
  refine ⟨?_, ?_, ?_, h9⟩
  · rw [h1]; decide
  · rw [h2]; decide
  · rw [h3]; decide

/-- Reading an array after a conditional assignment of one value to two of its
cells. -/
theorem ite_setCell2_apply {α : Type} (c : Prop) [Decidable c] (a : Int → Int → α)
    (x1 y1 x2 y2 : Int) (v : α) (p q : Int) :
    (if c then setCell (setCell a x1 y1 v) x2 y2 v else a) p q =
      if c ∧ ((p = x1 ∧ q = y1) ∨ (p = x2 ∧ q = y2)) then v else a p q := by
  unfold setCell
  by_cases h : c <;> by_cases h1 : p = x1 ∧ q = y1 <;> by_cases h2 : p = x2 ∧ q = y2 <;>
    simp [h, h1, h2]

/-- The entry `ipredmode[p][q]` after `CheckAvailabilityOfNeighbors`: the value
-1 in the cells the four conditional blocks write, the prior content elsewhere. -/
theorem ipredmode_apply (img : NeighborState) (p q : Int) :
    CheckAvailabilityOfNeighbors_ipredmode img p q =
      if (img.pix_y ≥ MB_BLOCK_SIZE ∧
          ((decide (img.slice_nr img.current_mb_nr ≠
              img.slice_nr (img.current_mb_nr - Int.tdiv img.width MB_BLOCK_SIZE)) : Bool) ∨
            (img.UseConstrainedIntraPred ≠ 0 ∧
              img.intra_block (img.current_mb_nr - Int.tdiv img.width MB_BLOCK_SIZE) 3 = 0))) ∧
          ((p = img.block_x + 3 ∧ q = img.block_y) ∨ (p = img.block_x + 4 ∧ q = img.block_y))
        then -1
      else if (img.pix_y ≥ MB_BLOCK_SIZE ∧
          ((decide (img.slice_nr img.current_mb_nr ≠
              img.slice_nr (img.current_mb_nr - Int.tdiv img.width MB_BLOCK_SIZE)) : Bool) ∨
            (img.UseConstrainedIntraPred ≠ 0 ∧
              img.intra_block (img.current_mb_nr - Int.tdiv img.width MB_BLOCK_SIZE) 2 = 0))) ∧
          ((p = img.block_x + 1 ∧ q = img.block_y) ∨ (p = img.block_x + 2 ∧ q = img.block_y))
        then -1
      else if (img.pix_x ≥ MB_BLOCK_SIZE ∧
          ((decide (img.slice_nr img.current_mb_nr ≠ img.slice_nr (img.current_mb_nr - 1))
              : Bool) ∨
            (img.UseConstrainedIntraPred ≠ 0 ∧ img.intra_block (img.current_mb_nr - 1) 3 = 0))) ∧
          ((p = img.block_x ∧ q = img.block_y + 3) ∨ (p = img.block_x ∧ q = img.block_y + 4))
        then -1
      else if (img.pix_x ≥ MB_BLOCK_SIZE ∧
          ((decide (img.slice_nr img.current_mb_nr ≠ img.slice_nr (img.current_mb_nr - 1))
              : Bool) ∨
            (img.UseConstrainedIntraPred ≠ 0 ∧ img.intra_block (img.current_mb_nr - 1) 1 = 0))) ∧
          ((p = img.block_x ∧ q = img.block_y + 1) ∨ (p = img.block_x ∧ q = img.block_y + 2))
        then -1
      else img.ipredmode p q := by
  unfold CheckAvailabilityOfNeighbors_ipredmode
  simp only [ite_setCell2_apply]

/-- C22 (counterexample): the macroblock at position (0,1) of a picture four
macroblocks wide has no left neighbour on the picture, and the routine writes
nothing along its left border: with the mode grid holding 5 everywhere before
the call, the four entries `ipredmode[0][5..8]` still hold 5 afterwards.
Likewise for the top border of the macroblock at position (1,0). -/
theorem CheckAvailabilityOfNeighbors_border_counterexample :
    (exNeighborState 4 0 1 0 (fun _ => 0) (fun _ _ => 1) (fun _ _ => 5)).pix_x = 0 ∧
    (List.range 4).map (fun (k : Nat) =>
      (CheckAvailabilityOfNeighbors
        (exNeighborState 4 0 1 0 (fun _ => 0) (fun _ _ => 1) (fun _ _ => 5))).ipredmode
          0 (4 + 1 + (k : Int))) = [5, 5, 5, 5] ∧
    (exNeighborState 4 1 0 0 (fun _ => 0) (fun _ _ => 1) (fun _ _ => 5)).pix_y = 0 ∧
    (List.range 4).map (fun (k : Nat) =>
      (CheckAvailabilityOfNeighbors
        (exNeighborState 4 1 0 0 (fun _ => 0) (fun _ _ => 1) (fun _ _ => 5))).ipredmode
          (4 + 1 + (k : Int)) 0) = [5, 5, 5, 5] := by
  decide

/-- C22 (amended): after `CheckAvailabilityOfNeighbors`, for every prior content
of the `ipredmode` grid: whenever the left (respectively above) neighbour
macroblock lies on the picture (`pix_x >= 16`, respectively `pix_y >= 16`) and
belongs to another slice or, with constrained intra prediction, its two adjacent
8x8 blocks are not intra, the four `ipredmode` entries along the current
macroblock's left (respectively top) border equal -1. When that neighbour lies
outside the picture the routine writes nothing along that border: the column
`ipredmode[block_x][..]` (respectively the row `ipredmode[..][block_y]`) keeps
its prior content. -/
theorem CheckAvailabilityOfNeighbors_border (img : NeighborState) :
    (img.pix_x ≥ MB_BLOCK_SIZE →
      (img.slice_nr img.current_mb_nr ≠ img.slice_nr (img.current_mb_nr - 1) ∨
        (img.UseConstrainedIntraPred ≠ 0 ∧ img.intra_block (img.current_mb_nr - 1) 1 = 0 ∧
          img.intra_block (img.current_mb_nr - 1) 3 = 0)) →
      ∀ k : Int, 1 ≤ k → k ≤ 4 →
        (CheckAvailabilityOfNeighbors img).ipredmode img.block_x (img.block_y + k) = -1) ∧
    (img.pix_y ≥ MB_BLOCK_SIZE →
      (img.slice_nr img.current_mb_nr ≠
          img.slice_nr (img.current_mb_nr - Int.tdiv img.width MB_BLOCK_SIZE) ∨
        (img.UseConstrainedIntraPred ≠ 0 ∧
          img.intra_block (img.current_mb_nr - Int.tdiv img.width MB_BLOCK_SIZE) 2 = 0 ∧
          img.intra_block (img.current_mb_nr - Int.tdiv img.width MB_BLOCK_SIZE) 3 = 0)) →
      ∀ k : Int, 1 ≤ k → k ≤ 4 →
        (CheckAvailabilityOfNeighbors img).ipredmode (img.block_x + k) img.block_y = -1) ∧
    (img.pix_x < MB_BLOCK_SIZE → ∀ q : Int,
      (CheckAvailabilityOfNeighbors img).ipredmode img.block_x q = img.ipredmode img.block_x q) ∧
    (img.pix_y < MB_BLOCK_SIZE → ∀ p : Int,
      (CheckAvailabilityOfNeighbors img).ipredmode p img.block_y = img.ipredmode p img.block_y) := by
  have hcell : ∀ p q, (CheckAvailabilityOfNeighbors img).ipredmode p q =
      CheckAvailabilityOfNeighbors_ipredmode img p q := fun _ _ => rfl
  simp only [hcell, ipredmode_apply]
  refine ⟨?_, ?_, ?_, ?_⟩
  · intro hx hrem k h1 h4
    have hu : (decide (img.slice_nr img.current_mb_nr ≠ img.slice_nr (img.current_mb_nr - 1))
          = true ∨
        (img.UseConstrainedIntraPred ≠ 0 ∧ img.intra_block (img.current_mb_nr - 1) 1 = 0)) := by
      rcases hrem with h | h
      · exact Or.inl (decide_eq_true h)
      · exact Or.inr ⟨h.1, h.2.1⟩
    have hl : (decide (img.slice_nr img.current_mb_nr ≠ img.slice_nr (img.current_mb_nr - 1))
          = true ∨
        (img.UseConstrainedIntraPred ≠ 0 ∧ img.intra_block (img.current_mb_nr - 1) 3 = 0)) := by
      rcases hrem with h | h
      · exact Or.inl (decide_eq_true h)
      · exact Or.inr ⟨h.1, h.2.2⟩
    have hk : k = 1 ∨ k = 2 ∨ k = 3 ∨ k = 4 := by omega
    rcases hk with rfl | rfl | rfl | rfl <;> split_ifs <;> first | rfl | simp_all
  · intro hy hrem k h1 h4
    have hu : (decide (img.slice_nr img.current_mb_nr ≠
            img.slice_nr (img.current_mb_nr - Int.tdiv img.width MB_BLOCK_SIZE)) = true ∨
        (img.UseConstrainedIntraPred ≠ 0 ∧
          img.intra_block (img.current_mb_nr - Int.tdiv img.width MB_BLOCK_SIZE) 2 = 0)) := by
      rcases hrem with h | h
      · exact Or.inl (decide_eq_true h)
      · exact Or.inr ⟨h.1, h.2.1⟩
    have hl : (decide (img.slice_nr img.current_mb_nr ≠
            img.slice_nr (img.current_mb_nr - Int.tdiv img.width MB_BLOCK_SIZE)) = true ∨
        (img.UseConstrainedIntraPred ≠ 0 ∧
          img.intra_block (img.current_mb_nr - Int.tdiv img.width MB_BLOCK_SIZE) 3 = 0)) := by
      rcases hrem with h | h
      · exact Or.inl (decide_eq_true h)
      · exact Or.inr ⟨h.1, h.2.2⟩
    have hk : k = 1 ∨ k = 2 ∨ k = 3 ∨ k = 4 := by omega
    rcases hk with rfl | rfl | rfl | rfl <;> split_ifs <;> first | rfl | simp_all
  · intro hx q
    have hx2 : ¬ img.pix_x ≥ MB_BLOCK_SIZE := by omega
    split_ifs with a b c d
    · exfalso; omega
    · exfalso; omega
    · exact absurd c.1.1 hx2
    · exact absurd d.1.1 hx2
    · rfl
  · intro hy p
    have hy2 : ¬ img.pix_y ≥ MB_BLOCK_SIZE := by omega
    split_ifs with a b c d
    · exact absurd a.1.1 hy2
    · exact absurd b.1.1 hy2
    · exfalso; omega
    · exfalso; omega
    · rfl

/-- Witness for C22 (amended): macroblock 5 at position (1,1) of a picture four
macroblocks wide, the first macroblock of slice 1: its left neighbour 4 and its
upper neighbour 1 are on the picture and belong to slice 0, so the four entries
of the left border are -1. -/
theorem CheckAvailabilityOfNeighbors_border_witness :
    (CheckAvailabilityOfNeighbors
      (exNeighborState 4 1 1 0 exSliceNr (fun _ _ => 1) (fun _ _ => 5))).ipredmode 4 (4 + 1)
        = -1 ∧
    (CheckAvailabilityOfNeighbors
      (exNeighborState 4 1 1 0 exSliceNr (fun _ _ => 1) (fun _ _ => 5))).ipredmode 4 (4 + 2)
        = -1 ∧
    (CheckAvailabilityOfNeighbors
      (exNeighborState 4 1 1 0 exSliceNr (fun _ _ => 1) (fun _ _ => 5))).ipredmode 4 (4 + 3)
        = -1 ∧
    (CheckAvailabilityOfNeighbors
      (exNeighborState 4 1 1 0 exSliceNr (fun _ _ => 1) (fun _ _ => 5))).ipredmode 4 (4 + 4)
        = -1 :=
  have h := (CheckAvailabilityOfNeighbors_border
    (exNeighborState 4 1 1 0 exSliceNr (fun _ _ => 1) (fun _ _ => 5))).1 (by decide)
    (Or.inl (by decide))
  ⟨h 1 (by decide) (by decide), h 2 (by decide) (by decide), h 3 (by decide) (by decide),
    h 4 (by decide) (by decide)⟩

/-! ## 4x4 intra mode decision of the encoder -/

/-- C23: in both 4x4 intra mode decisions (High444 and Low444, whose
computation of `mostProbableMode` is the same), the most probable mode is
`DC_PRED` when the left or the above 4x4 neighbour is unavailable, including a
neighbour made unavailable by constrained intra prediction because its
macroblock is not intra, and otherwise, the stored modes being prediction modes
(not negative), it is the numerically smaller of the two neighbours' stored
modes. A negative stored mode of an available neighbour also gives `DC_PRED`. -/
theorem mostProbableMode_spec (D : IntraDefines) (UseConstrainedIntraPred : Int)
    (intra_block : Int → Int) (ipredmode : Int → Int → Int) (left_block top_block : PixelPos) :
    (left_block.available = 0 ∨ top_block.available = 0 →
      mostProbableMode D UseConstrainedIntraPred intra_block ipredmode left_block top_block
        = D.DC_PRED) ∧
    (UseConstrainedIntraPred ≠ 0 →
      intra_block left_block.mb_addr = 0 ∨ intra_block top_block.mb_addr = 0 →
      mostProbableMode D UseConstrainedIntraPred intra_block ipredmode left_block top_block
        = D.DC_PRED) ∧
    (left_block.available ≠ 0 → top_block.available ≠ 0 →
      (UseConstrainedIntraPred = 0 ∨
        (intra_block left_block.mb_addr ≠ 0 ∧ intra_block top_block.mb_addr ≠ 0)) →
      (0 ≤ ipredmode left_block.pos_y left_block.pos_x →
        0 ≤ ipredmode top_block.pos_y top_block.pos_x →
        mostProbableMode D UseConstrainedIntraPred intra_block ipredmode left_block top_block
          = min (ipredmode top_block.pos_y top_block.pos_x)
              (ipredmode left_block.pos_y left_block.pos_x)) ∧
      (ipredmode left_block.pos_y left_block.pos_x < 0 ∨
          ipredmode top_block.pos_y top_block.pos_x < 0 →
        mostProbableMode D UseConstrainedIntraPred intra_block ipredmode left_block top_block
          = D.DC_PRED)) := by
  refine ⟨?_, ?_, ?_⟩
  · intro h
    unfold mostProbableMode constrainedAvailable neighbourMode
    rcases h with h | h <;> simp [h]
  · intro hc h
    unfold mostProbableMode constrainedAvailable neighbourMode
    rcases h with h | h <;> simp [hc, h]
  · intro hl ht hc
    have hla : constrainedAvailable UseConstrainedIntraPred intra_block left_block ≠ 0 := by
      unfold constrainedAvailable
      rcases hc with h | h
      · simp [h, hl]
      · split_ifs <;> first | exact h.1 | exact hl
    have hta : constrainedAvailable UseConstrainedIntraPred intra_block top_block ≠ 0 := by
      unfold constrainedAvailable
      rcases hc with h | h
      · simp [h, ht]
      · split_ifs <;> first | exact h.2 | exact ht
    unfold mostProbableMode neighbourMode
    simp only [hla, hta, ne_eq, not_false_eq_true, if_true]
    refine ⟨?_, ?_⟩
    · intro h0 h1
      rw [if_neg (by omega)]
      split_ifs with h
      · exact (min_eq_left (le_of_lt h)).symm
      · exact (min_eq_right (by omega)).symm
    · intro h
      rw [if_pos (by omega)]

/-- Witness for C23: both neighbours available, constrained intra prediction
off, stored modes 7 above and 3 to the left: the most probable mode is 3. -/
theorem mostProbableMode_spec_witness :
    mostProbableMode exIntraDefines 0 (fun _ => 1)
        (fun y x => if y = 3 ∧ x = 4 then 7 else 3) (exPixelPos 1 0 3 4) (exPixelPos 1 0 4 3)
      = min 7 3 :=
  ((mostProbableMode_spec exIntraDefines 0 (fun _ => 1)
    (fun y x => if y = 3 ∧ x = 4 then 7 else 3) (exPixelPos 1 0 3 4) (exPixelPos 1 0 4 3)).2.2
    (by decide) (by decide) (Or.inl rfl)).1 (by decide) (by decide)

/-- A loop `for (m = 0; m < n; m++)` whose body leaves the state alone for
every `m` other than `d` amounts to the body for `d` alone. -/
theorem foldl_range_single {σ : Type} (step : σ → Nat → σ) (init : σ) (d : Nat)
    (hskip : ∀ s m, m ≠ d → step s m = s) (n : Nat) :
    (List.range n).foldl step init = if d < n then step init d else init := by
  induction n with
  | zero => simp
  | succ n ih =>
    rw [List.range_succ, List.foldl_append, ih]
    simp only [List.foldl_cons, List.foldl_nil]
    by_cases hnd : n = d
    · subst hnd
      simp
    · rw [hskip _ n hnd]
      have : (d < n + 1) ↔ (d < n) := by omega
      simp only [this]

/-- The flag `available_mode` as a proposition. -/
theorem available_mode_iff (D : IntraDefines) (all up left m : Int) :
    available_mode D all up left m = true ↔
      (all ≠ 0 ∨ m = D.DC_PRED ∨
        (up ≠ 0 ∧ (m = D.VERT_PRED ∨ m = D.VERT_LEFT_PRED ∨ m = D.DIAG_DOWN_LEFT_PRED)) ∨
        (left ≠ 0 ∧ (m = D.HOR_PRED ∨ m = D.HOR_UP_PRED))) := by
  simp [available_mode, or_assoc]

/-- C24: in the 4x4 intra mode decisions a candidate mode is evaluated only if
all neighbours are available, or it is DC, or the above neighbour is available
and the mode is vertical, vertical-left or diagonal-down-left, or the left
neighbour is available and the mode is horizontal or horizontal-up: otherwise
the loop body leaves `best_ipmode` and the minimum cost alone, and for a valid
mode that passes the test the cost is computed and compared. Consequently, when
no neighbour is available and DC is a valid mode with a cost below the initial
minimum (`INT_MAX` in Low444, `1e30` in High444), DC is the only candidate
evaluated and the mode committed to `ipredmode` is `DC_PRED`. -/
theorem intra4x4_candidates (D : IntraDefines) (inp : ModeLoopInput) (lambda : Rat) :
    (∀ (m : Nat) (fixedcost : Int) (s : Low444State) (t : High444State),
      ¬ (inp.all_available ≠ 0 ∨ (m : Int) = D.DC_PRED ∨
          (inp.up_available ≠ 0 ∧ ((m : Int) = D.VERT_PRED ∨ (m : Int) = D.VERT_LEFT_PRED ∨
            (m : Int) = D.DIAG_DOWN_LEFT_PRED)) ∨
          (inp.left_available ≠ 0 ∧ ((m : Int) = D.HOR_PRED ∨ (m : Int) = D.HOR_UP_PRED))) →
      Low444_step D inp fixedcost s m = s ∧ High444_step D inp t m = t) ∧
    (∀ (m : Nat) (fixedcost : Int) (s : Low444State) (t : High444State),
      (inp.all_available ≠ 0 ∨ (m : Int) = D.DC_PRED ∨
          (inp.up_available ≠ 0 ∧ ((m : Int) = D.VERT_PRED ∨ (m : Int) = D.VERT_LEFT_PRED ∨
            (m : Int) = D.DIAG_DOWN_LEFT_PRED)) ∨
          (inp.left_available ≠ 0 ∧ ((m : Int) = D.HOR_PRED ∨ (m : Int) = D.HOR_UP_PRED))) →
      inp.valid_intra_mode m ≠ 0 →
      Low444_step D inp fixedcost s m =
        (if Low444_cost inp fixedcost m s.min_cost < s.min_cost then
          { best_ipmode := m, min_cost := Low444_cost inp fixedcost m s.min_cost } else s) ∧
      High444_step D inp t m =
        (if inp.rdcost_for_4x4_intra_blocks m t.min_rdcost < t.min_rdcost then
          { best_ipmode := m, min_rdcost := inp.rdcost_for_4x4_intra_blocks m t.min_rdcost,
            min_cost := some (inp.rdcost_for_4x4_intra_blocks m t.min_rdcost) } else t)) ∧
    (inp.all_available = 0 → inp.up_available = 0 → inp.left_available = 0 →
      0 ≤ D.DC_PRED → D.DC_PRED < D.NO_INTRA_PMODE → inp.valid_intra_mode D.DC_PRED ≠ 0 →
      (Low444_cost inp (Rat.floor (4 * lambda)) D.DC_PRED INT_MAX < INT_MAX →
        (Mode_Decision_for_4x4IntraBlocks_JM_Low444 D inp lambda).best_ipmode = D.DC_PRED ∧
        (Mode_Decision_for_4x4IntraBlocks_JM_Low444 D inp lambda).min_cost =
          Low444_cost inp (Rat.floor (4 * lambda)) D.DC_PRED INT_MAX) ∧
      (inp.rdcost_for_4x4_intra_blocks D.DC_PRED MIN_RDCOST_INIT < MIN_RDCOST_INIT →
        (Mode_Decision_for_4x4IntraBlocks_JM_High444 D inp).best_ipmode = D.DC_PRED ∧
        (Mode_Decision_for_4x4IntraBlocks_JM_High444 D inp).min_rdcost =
          inp.rdcost_for_4x4_intra_blocks D.DC_PRED MIN_RDCOST_INIT)) := by
  refine ⟨?_, ?_, ?_⟩
  · intro m fixedcost s t h
    have hav : available_mode D inp.all_available inp.up_available inp.left_available m
        = false := by
      rw [Bool.eq_false_iff]
      intro hc
      exact h ((available_mode_iff D _ _ _ _).mp hc)
    constructor
    · unfold Low444_step
      simp [hav]
    · unfold High444_step
      simp [hav]
  · intro m fixedcost s t h hv
    have hav := (available_mode_iff D inp.all_available inp.up_available inp.left_available
      m).mpr h
    constructor
    · unfold Low444_step
      simp [hav, hv]
    · unfold High444_step
      simp [hav, hv]
  · intro hall hup hleft h0 hlt hv
    have hd : ((D.DC_PRED.toNat : Nat) : Int) = D.DC_PRED := Int.toNat_of_nonneg h0
    have hdn : D.DC_PRED.toNat < D.NO_INTRA_PMODE.toNat := by omega
    have hnav : ∀ m : Nat, m ≠ D.DC_PRED.toNat →
        available_mode D inp.all_available inp.up_available inp.left_available m = false := by
      intro m hm
      rw [Bool.eq_false_iff]
      intro hc
      have := (available_mode_iff D _ _ _ _).mp hc
      rw [hall, hup, hleft] at this
      simp only [ne_eq, not_true_eq_false, false_and, or_false, false_or] at this
      omega
    have hav : available_mode D inp.all_available inp.up_available inp.left_available
        D.DC_PRED = true := (available_mode_iff D _ _ _ _).mpr (Or.inr (Or.inl rfl))
    constructor
    · intro hcost
      unfold Mode_Decision_for_4x4IntraBlocks_JM_Low444
      simp only []
      rw [foldl_range_single _ _ D.DC_PRED.toNat (by
        intro s m hm
        unfold Low444_step
        simp [hnav m hm]), if_pos hdn]
      unfold Low444_step
      simp only [hd, hv, hav, if_true, if_false, hcost]
      exact ⟨trivial, trivial⟩
    · intro hcost
      unfold Mode_Decision_for_4x4IntraBlocks_JM_High444
      rw [foldl_range_single _ _ D.DC_PRED.toNat (by
        intro s m hm
        unfold High444_step
        simp [hnav m hm]), if_pos hdn]
      unfold High444_step
      simp only [hd, hv, hav, if_true, if_false, hcost]
      exact ⟨trivial, trivial⟩

/-- Witness for C24: no neighbour available, every mode valid, DC is the most
probable mode and its distortion is 40: DC (mode 2) is committed with cost 40 in
Low444, and in High444. -/
theorem intra4x4_candidates_witness :
    ((Mode_Decision_for_4x4IntraBlocks_JM_Low444 exIntraDefines
        (exModeLoopInput 0 0 0 2 (fun _ => 40)) (5 / 2)).best_ipmode = exIntraDefines.DC_PRED ∧
      (Mode_Decision_for_4x4IntraBlocks_JM_Low444 exIntraDefines
        (exModeLoopInput 0 0 0 2 (fun _ => 40)) (5 / 2)).min_cost =
          Low444_cost (exModeLoopInput 0 0 0 2 (fun _ => 40)) (Rat.floor (4 * (5 / 2)))
            exIntraDefines.DC_PRED INT_MAX) ∧
    Low444_cost (exModeLoopInput 0 0 0 2 (fun _ => 40)) (Rat.floor (4 * (5 / 2)))
      exIntraDefines.DC_PRED INT_MAX = 40 ∧
    (Mode_Decision_for_4x4IntraBlocks_JM_High444 exIntraDefines
        (exModeLoopInput 0 0 0 2 (fun _ => 40))).best_ipmode = exIntraDefines.DC_PRED :=
  ⟨((intra4x4_candidates exIntraDefines (exModeLoopInput 0 0 0 2 (fun _ => 40)) (5 / 2)).2.2
      rfl rfl rfl (by decide) (by decide) (by decide)).1 (by decide),
    by decide,
    (((intra4x4_candidates exIntraDefines (exModeLoopInput 0 0 0 2 (fun _ => 40)) (5 / 2)).2.2
      rfl rfl rfl (by decide) (by decide) (by decide)).2 (by
        norm_num [exModeLoopInput, MIN_RDCOST_INIT])).1⟩

/-- The value `Low444_cost` leaves in `cost` when each call of `compute_cost4x4`
either adds the distortion of its plane or stops early above `min_cost`: it is
the candidate's cost, or it exceeds `min_cost` and so does the candidate's cost. -/
theorem Low444_cost_spec (inp : ModeLoopInput) (fixedcost : Int) (dist : Int → Nat → Int)
    (hdist : ∀ plane m, 0 ≤ dist plane m)
    (hcompute : ∀ (plane : Int) (m : Nat) (cost mc : Int),
      inp.compute_cost4x4 plane m cost mc = cost + dist plane m ∨
        (mc < inp.compute_cost4x4 plane m cost mc ∧
          inp.compute_cost4x4 plane m cost mc ≤ cost + dist plane m))
    (m : Nat) (mc : Int) :
    Low444_cost inp fixedcost m mc = candidateCost inp fixedcost dist m ∨
      (mc < Low444_cost inp fixedcost m mc ∧
        Low444_cost inp fixedcost m mc ≤ candidateCost inp fixedcost dist m) := by
  unfold Low444_cost candidateCost
  simp only []
  generalize (if (m : Int) = inp.mostProbableMode then 0 else fixedcost) = c0
  have h1 := hcompute 0 m c0 mc
  generalize inp.compute_cost4x4 0 m c0 mc = r1 at h1 ⊢
  by_cases hj : inp.P444_joined ≠ 0
  · rw [if_pos hj, if_pos hj]
    have h2 := hcompute 1 m r1 mc
    generalize inp.compute_cost4x4 1 m r1 mc = r2 at h2 ⊢
    have h3 := hcompute 2 m r2 mc
    generalize inp.compute_cost4x4 2 m r2 mc = r3 at h3 ⊢
    have d0 := hdist 0 m
    have d1 := hdist 1 m
    have d2 := hdist 2 m
    omega
  · rw [if_neg hj, if_neg hj]
    omega

/-- The loop of `Mode_Decision_for_4x4IntraBlocks_JM_Low444` after the modes
`0..n-1`: the minimum so far bounds the cost of every evaluated mode, and it is
either still the initial one or the cost of `best_ipmode`, an evaluated mode
that no earlier evaluated mode matches. -/
theorem Low444_loop_inv (D : IntraDefines) (inp : ModeLoopInput) (fixedcost : Int)
    (dist : Int → Nat → Int) (hdist : ∀ plane m, 0 ≤ dist plane m)
    (hcompute : ∀ (plane : Int) (m : Nat) (cost mc : Int),
      inp.compute_cost4x4 plane m cost mc = cost + dist plane m ∨
        (mc < inp.compute_cost4x4 plane m cost mc ∧
          inp.compute_cost4x4 plane m cost mc ≤ cost + dist plane m))
    (init : Low444State) (n : Nat) :
    (∀ m, m < n → inp.valid_intra_mode m ≠ 0 →
      available_mode D inp.all_available inp.up_available inp.left_available m = true →
      ((List.range n).foldl (Low444_step D inp fixedcost) init).min_cost
        ≤ candidateCost inp fixedcost dist m) ∧
    (((List.range n).foldl (Low444_step D inp fixedcost) init) = init ∨
      ∃ b : Nat, b < n ∧ inp.valid_intra_mode b ≠ 0 ∧
        available_mode D inp.all_available inp.up_available inp.left_available b = true ∧
        ((List.range n).foldl (Low444_step D inp fixedcost) init).best_ipmode = b ∧
        ((List.range n).foldl (Low444_step D inp fixedcost) init).min_cost
          = candidateCost inp fixedcost dist b ∧
        candidateCost inp fixedcost dist b < init.min_cost ∧
        ∀ m, m < b → inp.valid_intra_mode m ≠ 0 →
          available_mode D inp.all_available inp.up_available inp.left_available m = true →
          candidateCost inp fixedcost dist b < candidateCost inp fixedcost dist m) ∧
    ((List.range n).foldl (Low444_step D inp fixedcost) init).min_cost ≤ init.min_cost := by
  induction n with
  | zero =>
    refine ⟨?_, Or.inl rfl, le_refl _⟩
    intro m hm
    omega
  | succ n ih =>
    obtain ⟨ih1, ih2, ih3⟩ := ih
    rw [List.range_succ, List.foldl_append]
    simp only [List.foldl_cons, List.foldl_nil]
    generalize (List.range n).foldl (Low444_step D inp fixedcost) init = s at ih1 ih2 ih3 ⊢
    by_cases hc : inp.valid_intra_mode n ≠ 0 ∧
        available_mode D inp.all_available inp.up_available inp.left_available n = true
    · have hcost := Low444_cost_spec inp fixedcost dist hdist hcompute n s.min_cost
      by_cases hlt : Low444_cost inp fixedcost n s.min_cost < s.min_cost
      · have hstep : Low444_step D inp fixedcost s n =
            { best_ipmode := n, min_cost := Low444_cost inp fixedcost n s.min_cost } := by
          unfold Low444_step
          simp [hc.1, hc.2, hlt]
        have heq : Low444_cost inp fixedcost n s.min_cost = candidateCost inp fixedcost dist n := by
          omega
        rw [hstep, heq]
        rw [heq] at hlt
        refine ⟨?_, Or.inr ⟨n, by omega, hc.1, hc.2, rfl, rfl, by omega, ?_⟩, by simp only; omega⟩
        · intro m hm hv ha
          simp only
          by_cases hmn : m = n
          · subst hmn
            exact le_refl _
          · have := ih1 m (by omega) hv ha
            omega
        · intro m hm hv ha
          have := ih1 m hm hv ha
          omega
      · have hstep : Low444_step D inp fixedcost s n = s := by
          unfold Low444_step
          simp [hc.1, hc.2, hlt]
        rw [hstep]
        refine ⟨?_, ?_, ih3⟩
        · intro m hm hv ha
          by_cases hmn : m = n
          · subst hmn
            omega
          · exact ih1 m (by omega) hv ha
        · rcases ih2 with h | ⟨b, hb, h⟩
          · exact Or.inl h
          · exact Or.inr ⟨b, by omega, h⟩
    · have hstep : Low444_step D inp fixedcost s n = s := by
        unfold Low444_step
        by_cases hv : inp.valid_intra_mode n = 0
        · simp [hv]
        · have : available_mode D inp.all_available inp.up_available inp.left_available n
              = false := by
            rw [Bool.eq_false_iff]
            exact fun ha => hc ⟨hv, ha⟩
          simp [hv, this]
      rw [hstep]
      refine ⟨?_, ?_, ih3⟩
      · intro m hm hv ha
        by_cases hmn : m = n
        · subst hmn
          exact absurd ⟨hv, ha⟩ hc
        · exact ih1 m (by omega) hv ha
      · rcases ih2 with h | ⟨b, hb, h⟩
        · exact Or.inl h
        · exact Or.inr ⟨b, by omega, h⟩

/-- Membership in the set of evaluated modes, spelled out. -/
theorem isCandidate_iff (D : IntraDefines) (inp : ModeLoopInput) (m : Nat) :
    isCandidate D inp m = true ↔
      (m < D.NO_INTRA_PMODE.toNat ∧ inp.valid_intra_mode m ≠ 0 ∧
        available_mode D inp.all_available inp.up_available inp.left_available m = true) := by
  simp [isCandidate, and_assoc]

/-- C30: `Mode_Decision_for_4x4IntraBlocks_JM_Low444` commits a mode of minimal
cost among the evaluated candidates, where a candidate's cost is its distortion
plus a fixed rate term that is 0 for the most probable mode and
`floor(4*lambda)` for every other mode; among candidates of equal cost the
lowest mode index wins, and `*min_cost` is set to that minimal cost. Each call
of `compute_cost4x4` adds the distortion of its plane to `cost`, or stops early
with a partial sum above `min_cost`; some candidate has a cost below the
initial `INT_MAX`. -/
theorem Low444_minimal_cost (D : IntraDefines) (inp : ModeLoopInput) (lambda : Rat)
    (dist : Int → Nat → Int) (hdist : ∀ plane m, 0 ≤ dist plane m)
    (hcompute : ∀ (plane : Int) (m : Nat) (cost mc : Int),
      inp.compute_cost4x4 plane m cost mc = cost + dist plane m ∨
        (mc < inp.compute_cost4x4 plane m cost mc ∧
          inp.compute_cost4x4 plane m cost mc ≤ cost + dist plane m))
    (hsome : ∃ m, isCandidate D inp m = true ∧
      candidateCost inp (Rat.floor (4 * lambda)) dist m < INT_MAX) :
    ∃ b : Nat,
      (Mode_Decision_for_4x4IntraBlocks_JM_Low444 D inp lambda).best_ipmode = b ∧
      isCandidate D inp b = true ∧
      (Mode_Decision_for_4x4IntraBlocks_JM_Low444 D inp lambda).min_cost
        = candidateCost inp (Rat.floor (4 * lambda)) dist b ∧
      (∀ m, isCandidate D inp m = true →
        candidateCost inp (Rat.floor (4 * lambda)) dist b
          ≤ candidateCost inp (Rat.floor (4 * lambda)) dist m) ∧
      (∀ m, isCandidate D inp m = true →
        candidateCost inp (Rat.floor (4 * lambda)) dist m
          = candidateCost inp (Rat.floor (4 * lambda)) dist b → b ≤ m) := by
  obtain ⟨h1, h2, _⟩ := Low444_loop_inv D inp (Rat.floor (4 * lambda)) dist hdist hcompute
    { best_ipmode := 0, min_cost := INT_MAX } D.NO_INTRA_PMODE.toNat
  obtain ⟨m0, hm0, hm0lt⟩ := hsome
  rw [isCandidate_iff] at hm0
  unfold Mode_Decision_for_4x4IntraBlocks_JM_Low444
  simp only []
  rcases h2 with h | ⟨b, hb, hv, ha, hbest, hmin, _, hfirst⟩
  · have := h1 m0 hm0.1 hm0.2.1 hm0.2.2
    rw [h] at this
    simp only at this
    omega
  · refine ⟨b, hbest, (isCandidate_iff D inp b).mpr ⟨hb, hv, ha⟩, hmin, ?_, ?_⟩
    · intro m hm
      rw [isCandidate_iff] at hm
      have := h1 m hm.1 hm.2.1 hm.2.2
      rw [hmin] at this
      exact this
    · intro m hm heq
      rw [isCandidate_iff] at hm
      by_contra hlt
      have := hfirst m (by omega) hm.2.1 hm.2.2
      omega

/-- Witness for C30: all neighbours available, every mode valid, most probable
mode 2, `lambda = 5/2` (rate term 10) and the luma distortions `exDist`: the
modes 1 and 2 both cost 40, the minimum, and mode 1 is committed. -/
theorem Low444_minimal_cost_witness :
    (Mode_Decision_for_4x4IntraBlocks_JM_Low444 exIntraDefines
      (exModeLoopInput 1 1 1 2 exDist) (5 / 2)) = { best_ipmode := 1, min_cost := 40 } ∧
    ∃ b : Nat,
      (Mode_Decision_for_4x4IntraBlocks_JM_Low444 exIntraDefines
        (exModeLoopInput 1 1 1 2 exDist) (5 / 2)).best_ipmode = b ∧
      isCandidate exIntraDefines (exModeLoopInput 1 1 1 2 exDist) b = true ∧
      (Mode_Decision_for_4x4IntraBlocks_JM_Low444 exIntraDefines
        (exModeLoopInput 1 1 1 2 exDist) (5 / 2)).min_cost
        = candidateCost (exModeLoopInput 1 1 1 2 exDist) (Rat.floor (4 * (5 / 2)))
            (fun plane m => if plane = 0 then exDist m else 0) b ∧
      (∀ m, isCandidate exIntraDefines (exModeLoopInput 1 1 1 2 exDist) m = true →
        candidateCost (exModeLoopInput 1 1 1 2 exDist) (Rat.floor (4 * (5 / 2)))
            (fun plane m => if plane = 0 then exDist m else 0) b
          ≤ candidateCost (exModeLoopInput 1 1 1 2 exDist) (Rat.floor (4 * (5 / 2)))
            (fun plane m => if plane = 0 then exDist m else 0) m) ∧
      (∀ m, isCandidate exIntraDefines (exModeLoopInput 1 1 1 2 exDist) m = true →
        candidateCost (exModeLoopInput 1 1 1 2 exDist) (Rat.floor (4 * (5 / 2)))
            (fun plane m => if plane = 0 then exDist m else 0) m
          = candidateCost (exModeLoopInput 1 1 1 2 exDist) (Rat.floor (4 * (5 / 2)))
            (fun plane m => if plane = 0 then exDist m else 0) b → b ≤ m) := by
  refine ⟨?_, Low444_minimal_cost exIntraDefines (exModeLoopInput 1 1 1 2 exDist) (5 / 2)
    (fun plane m => if plane = 0 then exDist m else 0) ?_ ?_ ⟨2, by decide, by decide⟩⟩
  · have hf : Rat.floor (4 * (5 / 2 : Rat)) = 10 := by norm_num [Rat.floor]
    unfold Mode_Decision_for_4x4IntraBlocks_JM_Low444
    simp only [hf]
    decide
  · intro plane m
    simp only [exDist]
    split_ifs <;> decide
  · intro plane m cost mc
    left
    simp only [exModeLoopInput]
    split_ifs <;> simp

/-! ## EPZS predictors -/

/-- C26 (counterexample): with all four availability flags set, every
co-located vector equal to (4, -4), reference 0 and a running cost above the
stop criterion, one call of `EPZSTemporalPredictors` advances `*prednum` from 5
to 14: the centre predictor and eight neighbouring ones (left, up-left,
down-left, up, right, up-right, down-right, down). -/
theorem EPZSTemporalPredictors_counterexample :
    (EPZSTemporalPredictors
      (exTemporalInput (fun _ _ => { mv_x := 4, mv_y := -4 }) (fun _ => 1))
      (exPoints, 5)).2 = 14 ∧
    (List.range 10).map (fun (k : Nat) => (EPZSTemporalPredictors
      (exTemporalInput (fun _ _ => { mv_x := 4, mv_y := -4 }) (fun _ => 1))
      (exPoints, 5)).1 (5 + (k : Int)))
      = (List.replicate 9 { mv_x := 4, mv_y := -4 }) ++ [{ mv_x := 99, mv_y := 99 }] := by
  decide

/-- One call of `add_predictor` that returns 0 or 1 advances `*prednum` by 0
or 1. -/
theorem addPredictor_bound (inp : TemporalInput)
    (hret : ∀ v sc sh, (inp.add_predictor v sc sh).2 = 0 ∨ (inp.add_predictor v sc sh).2 = 1)
    (s : (Int → MotionVector) × Int) (prd : MotionVector) :
    s.2 ≤ (addPredictor inp s prd).2 ∧ (addPredictor inp s prd).2 ≤ s.2 + 1 := by
  unfold addPredictor
  simp only
  rcases hret prd inp.mvScale 8 with h | h <;> rw [h] <;> omega

/-- One column block of `EPZSTemporalPredictors` advances `*prednum` by at most
three. -/
theorem temporalColumn_bound (inp : TemporalInput)
    (hret : ∀ v sc sh, (inp.add_predictor v sc sh).2 = 0 ∨ (inp.add_predictor v sc sh).2 = 1)
    (avail x : Int) (s : (Int → MotionVector) × Int) :
    s.2 ≤ (temporalColumn inp avail x s).2 ∧ (temporalColumn inp avail x s).2 ≤ s.2 + 3 := by
  unfold temporalColumn
  by_cases ha : avail ≠ 0
  · rw [if_pos ha]
    simp only []
    have h1 := addPredictor_bound inp hret s (inp.col_mv inp.o_block_y x)
    generalize addPredictor inp s (inp.col_mv inp.o_block_y x) = s1 at h1 ⊢
    have h2 := addPredictor_bound inp hret s1 (inp.col_mv (inp.o_block_y - 1) x)
    by_cases h3 : inp.block_available 3 ≠ 0
    · rw [if_pos h3]
      generalize addPredictor inp s1 (inp.col_mv (inp.o_block_y - 1) x) = s2 at h2 ⊢
      have h4 := addPredictor_bound inp hret s2
        (inp.col_mv (inp.o_block_y + inp.blockshape_y) x)
      split_ifs <;> omega
    · rw [if_neg h3]
      have h4 := addPredictor_bound inp hret s1
        (inp.col_mv (inp.o_block_y + inp.blockshape_y) x)
      split_ifs <;> omega
  · rw [if_neg ha]
    omega

/-- C26 (amended): `EPZSTemporalPredictors` adds the centre co-located predictor
and, only when `min_mcost > stopCriterion` and `ref < 2`, at most 8 further
neighbouring co-located predictors (left, up-left, down-left, up, right,
up-right, down-right, down), so that one call advances `*prednum` by at most 9
for every availability pattern, and by at most 1 when the condition fails;
`add_predictor` returns 0 or 1. -/
theorem EPZSTemporalPredictors_bound (inp : TemporalInput)
    (hret : ∀ v sc sh, (inp.add_predictor v sc sh).2 = 0 ∨ (inp.add_predictor v sc sh).2 = 1)
    (s : (Int → MotionVector) × Int) :
    s.2 ≤ (EPZSTemporalPredictors inp s).2 ∧ (EPZSTemporalPredictors inp s).2 ≤ s.2 + 9 ∧
    (¬ (inp.min_mcost > inp.stopCriterion ∧ inp.ref < 2) →
      EPZSTemporalPredictors inp s
        = addPredictor inp s (inp.col_mv inp.o_block_y inp.o_block_x) ∧
      (EPZSTemporalPredictors inp s).2 ≤ s.2 + 1) := by
  have h0 := addPredictor_bound inp hret s (inp.col_mv inp.o_block_y inp.o_block_x)
  unfold EPZSTemporalPredictors
  simp only []
  generalize addPredictor inp s (inp.col_mv inp.o_block_y inp.o_block_x) = s0 at h0 ⊢
  by_cases hc : inp.min_mcost > inp.stopCriterion ∧ inp.ref < 2
  · rw [if_pos hc]
    have h1 := temporalColumn_bound inp hret (inp.block_available 2) (inp.o_block_x - 1) s0
    generalize temporalColumn inp (inp.block_available 2) (inp.o_block_x - 1) s0 = s1 at h1 ⊢
    have h2 := addPredictor_bound inp hret s1 (inp.col_mv (inp.o_block_y - 1) inp.o_block_x)
    have hs2 : s1.2 ≤ (if inp.block_available 3 ≠ 0 then
          addPredictor inp s1 (inp.col_mv (inp.o_block_y - 1) inp.o_block_x) else s1).2 ∧
        (if inp.block_available 3 ≠ 0 then
          addPredictor inp s1 (inp.col_mv (inp.o_block_y - 1) inp.o_block_x) else s1).2
          ≤ s1.2 + 1 := by
      split_ifs <;> omega
    generalize (if inp.block_available 3 ≠ 0 then
      addPredictor inp s1 (inp.col_mv (inp.o_block_y - 1) inp.o_block_x) else s1) = s2 at hs2 ⊢
    have h3 := temporalColumn_bound inp hret (inp.block_available 0)
      (inp.o_block_x + inp.blockshape_x) s2
    generalize temporalColumn inp (inp.block_available 0)
      (inp.o_block_x + inp.blockshape_x) s2 = s3 at h3 ⊢
    have h4 := addPredictor_bound inp hret s3
      (inp.col_mv (inp.o_block_y + inp.blockshape_y) inp.o_block_x)
    refine ⟨?_, ?_, fun h => absurd hc h⟩ <;> split_ifs <;> omega
  · rw [if_neg hc]
    exact ⟨h0.1, by omega, fun _ => ⟨rfl, h0.2⟩⟩

/-- Witness for C26 (amended): all four neighbours available and every
co-located vector equal to (4, -4): `*prednum` goes from 5 to 14. -/
theorem EPZSTemporalPredictors_bound_witness :
    (5 : Int) ≤ (EPZSTemporalPredictors
      (exTemporalInput (fun _ _ => { mv_x := 4, mv_y := -4 }) (fun _ => 1))
      (exPoints, 5)).2 ∧
    (EPZSTemporalPredictors
      (exTemporalInput (fun _ _ => { mv_x := 4, mv_y := -4 }) (fun _ => 1))
      (exPoints, 5)).2 ≤ 5 + 9 :=
  have h := EPZSTemporalPredictors_bound
    (exTemporalInput (fun _ _ => { mv_x := 4, mv_y := -4 }) (fun _ => 1))
    (by
      intro v sc sh
      simp only [exTemporalInput, exAddPredictor]
      split_ifs
      · exact Or.inl rfl
      · exact Or.inr rfl)
    (exPoints, 5)
  ⟨h.1, h.2.1⟩

/-- The value `EPZSWindowPredictorInit` stores in `searchPoints` is the index
of the last generated point, one less than the number of generated points. -/
theorem EPZSWindowPredictorInit_searchPoints (search_range mode : Int) (w : EPZSStructure)
    (h : EPZSWindowPredictorInit search_range mode = some w) :
    w.searchPoints = (w.point.length : Int) - 1 := by
  unfold EPZSWindowPredictorInit at h
  split at h
  · simp only [Option.some.injEq] at h
    subst h
    simp only
    omega
  · simp at h

/-- C27, failing inputs: for search range 16 and mode 0 the initializer
generates 24 offsets, the last being (64, -64), but records `searchPoints = 23`;
`EPZSWindowPredictors` with base vector (1, 2) then appends 23 points, leaves
the entry where the translated last offset (65, -62) belongs untouched, and
advances `*prednum` from 5 to 28. For search range 2 nothing is generated,
`searchPoints` is -1 and `*prednum` goes back from 5 to 4. -/
theorem EPZSWindowPredictors_last_offset :
    (EPZSWindowPredictorInit 16 0).map (fun w => (w.point.length, w.searchPoints,
      w.point.getLast?)) = some (24, 23, some { mv_x := 64, mv_y := -64 }) ∧
    (EPZSWindowPredictorInit 16 0).map (fun w =>
      ((EPZSWindowPredictors_points { mv_x := 1, mv_y := 2 } w).length,
       (EPZSWindowPredictors { mv_x := 1, mv_y := 2 } (exPoints, 5) w).2,
       (EPZSWindowPredictors { mv_x := 1, mv_y := 2 } (exPoints, 5) w).1 (5 + 22),
       (EPZSWindowPredictors { mv_x := 1, mv_y := 2 } (exPoints, 5) w).1 (5 + 23)))
      = some (23, 28, { mv_x := 1, mv_y := -62 }, { mv_x := 99, mv_y := 99 }) ∧
    add_MVs { mv_x := 64, mv_y := -64 } { mv_x := 1, mv_y := 2 } = { mv_x := 65, mv_y := -62 } ∧
    (EPZSWindowPredictorInit 16 1).map (fun w => (w.point.length, w.searchPoints))
      = some (60, 59) ∧
    (EPZSWindowPredictorInit 2 0).map (fun w => (w.point.length, w.searchPoints,
      (EPZSWindowPredictors { mv_x := 1, mv_y := 2 } (exPoints, 5) w).2))
      = some (0, -1, 4) := by
  decide

/-! ## Coefficient-count prediction and the first level -/

/-- C28: for block indices `i, j >= 0` and stored coefficient counts that are
not negative, `predict_nnz(i, j)` returns the truncated average `(L+T)/2` of the
left and above 4x4 blocks' counts when both exist (left exists iff `i > 0` or
`mb_x > 0`, above iff `j > 0` or `mb_y > 0`), the single existing neighbour's
count when only one exists, and 0 when neither exists; `L` is read from the same
macroblock for `i > 0` and from column 3 of the left macroblock otherwise, `T`
likewise. `readCoeff4x4_CAVLC` maps the prediction to table selector 0 if it is
below 2, 1 if below 4, 2 if below 8 and 3 otherwise. -/
theorem predict_nnz_spec (mb_x mb_y : Int) (nz_coeff : Int → Int → Int → Int → Int)
    (i j : Int) (hi : 0 ≤ i) (hj : 0 ≤ j) (hnz : ∀ a b c d, 0 ≤ nz_coeff a b c d) :
    ((i > 0 ∨ mb_x > 0) ∧ (j > 0 ∨ mb_y > 0) →
      predict_nnz mb_x mb_y nz_coeff i j =
        ((if i > 0 then nz_coeff mb_x mb_y (i - 1) j else nz_coeff (mb_x - 1) mb_y 3 j) +
          (if j > 0 then nz_coeff mb_x mb_y i (j - 1) else nz_coeff mb_x (mb_y - 1) i 3)) / 2) ∧
    ((i > 0 ∨ mb_x > 0) ∧ ¬ (j > 0 ∨ mb_y > 0) →
      predict_nnz mb_x mb_y nz_coeff i j =
        (if i > 0 then nz_coeff mb_x mb_y (i - 1) j else nz_coeff (mb_x - 1) mb_y 3 j)) ∧
    (¬ (i > 0 ∨ mb_x > 0) ∧ (j > 0 ∨ mb_y > 0) →
      predict_nnz mb_x mb_y nz_coeff i j =
        (if j > 0 then nz_coeff mb_x mb_y i (j - 1) else nz_coeff mb_x (mb_y - 1) i 3)) ∧
    (¬ (i > 0 ∨ mb_x > 0) ∧ ¬ (j > 0 ∨ mb_y > 0) → predict_nnz mb_x mb_y nz_coeff i j = 0) ∧
    (∀ nnz : Int, numcoeff_vlc nnz =
      if nnz < 2 then 0 else if nnz < 4 then 1 else if nnz < 8 then 2 else 3) ∧
    0 ≤ predict_nnz mb_x mb_y nz_coeff i j := by
  have hL1 := hnz mb_x mb_y (i - 1) j
  have hL2 := hnz (mb_x - 1) mb_y 3 j
  have hT1 := hnz mb_x mb_y i (j - 1)
  have hT2 := hnz mb_x (mb_y - 1) i 3
  have hi0 : (i ≠ 0) ↔ (i > 0) := by omega
  have hj0 : (j ≠ 0) ↔ (j > 0) := by omega
  unfold predict_nnz
  simp only [hi0, hj0]
  generalize nz_coeff mb_x mb_y (i - 1) j = l1 at hL1 ⊢
  generalize nz_coeff (mb_x - 1) mb_y 3 j = l2 at hL2 ⊢
  generalize nz_coeff mb_x mb_y i (j - 1) = t1 at hT1 ⊢
  generalize nz_coeff mb_x (mb_y - 1) i 3 = t2 at hT2 ⊢
  have hdiv : ∀ x : Int, 0 ≤ x → Int.tdiv x 2 = x / 2 := fun x hx =>
    Int.tdiv_eq_ediv hx (by decide)
  have p1 : l1 > -1 := by omega
  have p2 : l2 > -1 := by omega
  have p3 : t1 > -1 := by omega
  have p4 : t2 > -1 := by omega
  refine ⟨?_, ?_, ?_, ?_, fun _ => rfl, ?_⟩
  · rintro ⟨h1, h2⟩
    by_cases a : i > 0 <;> by_cases b : j > 0 <;> by_cases c : mb_x > 0 <;>
      by_cases d : mb_y > 0 <;> simp [a, b, c, d, p1, p2, p3, p4] at h1 h2 ⊢ <;>
      exact hdiv _ (by omega)
  · rintro ⟨h1, h2⟩
    by_cases a : i > 0 <;> by_cases b : j > 0 <;> by_cases c : mb_x > 0 <;>
      by_cases d : mb_y > 0 <;> simp [a, b, c, d, p1, p2, p3, p4] at h1 h2 ⊢
  · rintro ⟨h1, h2⟩
    by_cases a : i > 0 <;> by_cases b : j > 0 <;> by_cases c : mb_x > 0 <;>
      by_cases d : mb_y > 0 <;> simp [a, b, c, d, p1, p2, p3, p4] at h1 h2 ⊢
  · rintro ⟨h1, h2⟩
    by_cases a : i > 0 <;> by_cases b : j > 0 <;> by_cases c : mb_x > 0 <;>
      by_cases d : mb_y > 0 <;> simp [a, b, c, d, p1, p2, p3, p4] at h1 h2 ⊢
  · by_cases a : i > 0 <;> by_cases b : j > 0 <;> by_cases c : mb_x > 0 <;>
      by_cases d : mb_y > 0 <;> simp [a, b, c, d, p1, p2, p3, p4] <;>
      first
        | omega
        | (rw [hdiv _ (by omega)]; omega)

/-- Witness for C28: block (0,0) of macroblock (1,1), whose left neighbour
block holds 2 coefficients and whose upper neighbour block holds 9: the
prediction is `(2+9)/2 = 5` and the table selector is 2. -/
theorem predict_nnz_spec_witness :
    predict_nnz 1 1 exNzCoeff 0 0 = 5 ∧ numcoeff_vlc (predict_nnz 1 1 exNzCoeff 0 0) = 2 := by
  have h := (predict_nnz_spec 1 1 exNzCoeff 0 0 (by decide) (by decide) (by
    intro a b c d
    unfold exNzCoeff
    split_ifs <;> decide)).1 ⟨Or.inr (by decide), Or.inr (by decide)⟩
  have h5 : predict_nnz 1 1 exNzCoeff 0 0 = 5 := h.trans (by decide)
  exact ⟨h5, by rw [h5]; decide⟩

/-- C29 (counterexample): with 5 coefficients, 3 trailing ones and the reader
values 4, 4 the levels are stored as decoded, 4 and 4; with 5 coefficients, 1
trailing one and the reader values 4, 4, 4, 4 the first level is stored as 5. -/
theorem first_level_counterexample :
    (decodeLevels 5 3 (readFrom [4, 4])).map (fun r => r.levels) = some [4, 4] ∧
    (decodeLevels 5 1 (readFrom [4, 4, 4, 4])).map (fun r => r.levels) = some [5, 4, 4, 4] ∧
    (decodeLevels 5 1 (readFrom [-4, 4, 4, 4])).map (fun r => r.levels)
      = some [-5, 4, 4, 4] := by
  decide

/-- Once `level_two_or_higher` is cleared the level loop stores every value as
the reader returned it. -/
theorem levelLoop_levels (l : List Int) :
    ∀ (first : Bool) (s r : LevelLoop), s.level_two_or_higher = false →
      levelLoop first s l = some r → r.levels = s.levels ++ l := by
  induction l with
  | nil =>
    intro first s r _ h
    simp only [levelLoop, Option.some.injEq] at h
    simp [h]
  | cons inf rest ih =>
    intro first s r hs h
    unfold levelLoop at h
    cases hstep : levelStep first s inf with
    | none => rw [hstep] at h; simp at h
    | some s1 =>
      rw [hstep] at h
      simp only at h
      unfold levelStep at hstep
      cases hthr : tabGet incVlc s.vlcnum with
      | none => rw [hthr] at hstep; simp at hstep
      | some thr =>
        rw [hthr] at hstep
        simp only [Option.some.injEq] at hstep
        have h1 : s1.level_two_or_higher = false := by rw [← hstep]
        have h2 : s1.levels = s.levels ++ [inf] := by
          rw [← hstep]
          simp [levelOf, hs]
        rw [ih false s1 r h1 h, h2]
        simp

/-- C29 (amended): in `readCoeff4x4_CAVLC`, the first level decoded after the
trailing ones has its magnitude increased by one (a positive value is
incremented, any other value decremented) when the trailing-ones count differs
from 3, that is when it is less than 3, and is left as decoded when the count
equals 3; every later level is left as decoded. The first iteration of the
level loop always completes. -/
theorem first_level_adjustment (numcoeff numtrailingones : Int) (read : Nat → Int)
    (hlev : numtrailingones < numcoeff) :
    (∃ s1, levelStep true (levelLoopInit numcoeff numtrailingones) (read 0) = some s1 ∧
      s1.levels = [if numtrailingones = 3 then read 0
        else if read 0 > 0 then read 0 + 1 else read 0 - 1] ∧
      decodeLevels numcoeff numtrailingones read =
        levelLoop false s1 ((List.range ((numcoeff - numtrailingones).toNat - 1)).map
          (fun k => read (k + 1)))) ∧
    (∀ r, decodeLevels numcoeff numtrailingones read = some r →
      r.levels = (if numtrailingones = 3 then read 0
          else if read 0 > 0 then read 0 + 1 else read 0 - 1) ::
        (List.range ((numcoeff - numtrailingones).toNat - 1)).map (fun k => read (k + 1))) := by
  have hreads : levelReads numcoeff numtrailingones read =
      read 0 :: (List.range ((numcoeff - numtrailingones).toNat - 1)).map
        (fun k => read (k + 1)) := by
    unfold levelReads
    obtain ⟨n, hn⟩ : ∃ n, (numcoeff - numtrailingones).toNat = n + 1 :=
      ⟨(numcoeff - numtrailingones).toNat - 1, by omega⟩
    rw [hn, List.range_succ_eq_map]
    simp [Function.comp_def]
  have hv : ∃ thr, tabGet incVlc (levelLoopInit numcoeff numtrailingones).vlcnum = some thr := by
    unfold levelLoopInit
    simp only
    split_ifs
    · exact ⟨_, rfl⟩
    · exact ⟨_, rfl⟩
  obtain ⟨thr, hthr⟩ := hv
  have hflag : (levelLoopInit numcoeff numtrailingones).level_two_or_higher
      = decide (numtrailingones ≠ 3) := by
    unfold levelLoopInit
    simp only
    by_cases h3 : numtrailingones = 3
    · have : numcoeff > 3 := by omega
      simp [h3, this]
    · simp [h3]
  have hstep : ∃ s1, levelStep true (levelLoopInit numcoeff numtrailingones) (read 0) = some s1 ∧
      s1.level_two_or_higher = false ∧
      s1.levels = [if numtrailingones = 3 then read 0
        else if read 0 > 0 then read 0 + 1 else read 0 - 1] := by
    unfold levelStep
    rw [hthr]
    refine ⟨_, rfl, rfl, ?_⟩
    simp only [levelOf, hflag]
    have hl : (levelLoopInit numcoeff numtrailingones).levels = [] := rfl
    rw [hl]
    by_cases h3 : numtrailingones = 3 <;> simp [h3]
  obtain ⟨s1, hs1, hs1f, hs1l⟩ := hstep
  have hdec : decodeLevels numcoeff numtrailingones read =
      levelLoop false s1 ((List.range ((numcoeff - numtrailingones).toNat - 1)).map
        (fun k => read (k + 1))) := by
    unfold decodeLevels
    rw [hreads]
    conv_lhs => unfold levelLoop
    rw [hs1]
  refine ⟨⟨s1, hs1, hs1l, hdec⟩, ?_⟩
  intro r hr
  rw [hdec] at hr
  rw [levelLoop_levels _ false s1 r hs1f hr, hs1l]
  rfl

/-- Witness for C29 (amended): 5 coefficients, 1 trailing one and the reader
values 4, 4, 4, 4: the levels stored are 5, 4, 4, 4. -/
theorem first_level_adjustment_witness :
    ∃ r, decodeLevels 5 1 (readFrom [4, 4, 4, 4]) = some r ∧ r.levels = [5, 4, 4, 4] := by
  have hsome : (decodeLevels 5 1 (readFrom [4, 4, 4, 4])).isSome = true := by decide
  obtain ⟨r, hr⟩ := Option.isSome_iff_exists.mp hsome
  exact ⟨r, hr, ((first_level_adjustment 5 1 (readFrom [4, 4, 4, 4]) (by decide)).2 r hr).trans
    (by decide)⟩

/-! ## The decoder's intra-mode tables -/

/-- The transmitted value that `decodeIntraPredMode` turns into the mode `d`,
for the most probable mode `p`. -/
theorem decodeIntraPredMode_inverse (p v : Int) (hp0 : 0 ≤ p) (hp8 : p ≤ 8) (hv0 : -1 ≤ v)
    (hv7 : v ≤ 7) :
    ∃ d r rp, decodeIntraPredMode v p = some d ∧ tabGet mapTab d = some r ∧
      tabGet mapTab p = some rp ∧ 0 ≤ d ∧ d ≤ 8 ∧
      v = (if d = p then -1 else if r > rp then r - 1 else r) := by
  interval_cases p <;> interval_cases v <;> exact ⟨_, _, _, rfl, rfl, rfl, by decide⟩

/-- C32: the decoder's intra-mode tables `mapTab = {2,0,1,4,3,5,7,8,6}` and
`revMapTab = {1,2,0,4,3,5,8,6,7}` are mutually inverse permutations of `0..8`, and for every most probable mode `p` in `0..8`
the decode map `v -> (v == -1 ? p : revMapTab[v + (v >= mapTab[p])])` is a
bijection from `{-1,0,...,7}` onto `{0,...,8}` whose table index is always in
range and which yields `p` only for `v = -1`. -/
theorem intraModeTables_bijection :
    (mapTab = [2, 0, 1, 4, 3, 5, 7, 8, 6] ∧ revMapTab = [1, 2, 0, 4, 3, 5, 8, 6, 7]) ∧
    (∀ m : Int, 0 ≤ m → m ≤ 8 →
      ∃ r, tabGet mapTab m = some r ∧ 0 ≤ r ∧ r ≤ 8 ∧ tabGet revMapTab r = some m) ∧
    (∀ r : Int, 0 ≤ r → r ≤ 8 →
      ∃ m, tabGet revMapTab r = some m ∧ 0 ≤ m ∧ m ≤ 8 ∧ tabGet mapTab m = some r) ∧
    (∀ p v : Int, 0 ≤ p → p ≤ 8 → -1 ≤ v → v ≤ 7 →
      ∃ d, decodeIntraPredMode v p = some d ∧ 0 ≤ d ∧ d ≤ 8 ∧ (d = p ↔ v = -1)) ∧
    (∀ p v : Int, 0 ≤ p → p ≤ 8 → 0 ≤ v → v ≤ 7 →
      ∃ rp, tabGet mapTab p = some rp ∧ 0 ≤ v + (if v ≥ rp then 1 else 0) ∧
        v + (if v ≥ rp then 1 else 0) ≤ 8) ∧
    (∀ p v w : Int, 0 ≤ p → p ≤ 8 → -1 ≤ v → v ≤ 7 → -1 ≤ w → w ≤ 7 →
      decodeIntraPredMode v p = decodeIntraPredMode w p → v = w) ∧
    (∀ p d : Int, 0 ≤ p → p ≤ 8 → 0 ≤ d → d ≤ 8 →
      ∃ v, -1 ≤ v ∧ v ≤ 7 ∧ decodeIntraPredMode v p = some d) := by
  refine ⟨⟨rfl, rfl⟩, ?_, ?_, ?_, ?_, ?_, ?_⟩
  · intro m h0 h8
    interval_cases m <;> exact ⟨_, rfl, by decide, by decide, rfl⟩
  · intro r h0 h8
    interval_cases r <;> exact ⟨_, rfl, by decide, by decide, rfl⟩
  · intro p v hp0 hp8 hv0 hv7
    interval_cases p <;> interval_cases v <;> exact ⟨_, rfl, by decide⟩
  · intro p v hp0 hp8 hv0 hv7
    interval_cases p <;> interval_cases v <;> exact ⟨_, rfl, by decide⟩
  · intro p v w hp0 hp8 hv0 hv7 hw0 hw7 h
    obtain ⟨d, r, rp, hd, hr, hrp, _, _, hv⟩ := decodeIntraPredMode_inverse p v hp0 hp8 hv0 hv7
    obtain ⟨e, s, sp, he, hs, hsp, _, _, hw⟩ := decodeIntraPredMode_inverse p w hp0 hp8 hw0 hw7
    rw [hd, he, Option.some.injEq] at h
    subst h
    rw [hr, Option.some.injEq] at hs
    rw [hrp, Option.some.injEq] at hsp
    subst hs hsp
    rw [hv, hw]
  · intro p d hp0 hp8 hd0 hd8
    refine ⟨(if d = p then -1 else
      match tabGet mapTab d, tabGet mapTab p with
      | some r, some rp => if r > rp then r - 1 else r
      | _, _ => 0), ?_⟩
    interval_cases p <;> interval_cases d <;> decide

/-- Witness for C32: for the most probable mode 3 (rank `mapTab[3] = 4`) the
transmitted value 4 reads `revMapTab[5] = 5`, and the value -1 gives 3. -/
theorem intraModeTables_bijection_witness :
    (∃ d, decodeIntraPredMode 4 3 = some d ∧ 0 ≤ d ∧ d ≤ 8 ∧ (d = 3 ↔ (4 : Int) = -1)) ∧
    decodeIntraPredMode 4 3 = some 5 ∧ decodeIntraPredMode (-1) 3 = some 3 :=
  ⟨intraModeTables_bijection.2.2.2.1 3 4 (by decide) (by decide) (by decide) (by decide),
    by decide, by decide⟩

/-! ## Temporal direct mode -/

/-- C34: in temporal direct mode, for every integer scale factor `mv_scale` and
every co-located vector component `mv`, the forward and backward components
`fw = (mv_scale*mv + 128) >> 8` and `bw = ((mv_scale-256)*mv + 128) >> 8`
(arithmetic shift) satisfy `fw - bw = mv` exactly; the values computed in `int`
are these whenever the two products and sums stay inside the `int` range. -/
theorem directMv_difference (mv_scale mv : Int) :
    Int.shiftRight (mv_scale * mv + 128) 8 - Int.shiftRight ((mv_scale - 256) * mv + 128) 8
      = mv ∧
    (-2147483648 ≤ mv_scale * mv ∧ mv_scale * mv + 128 < 2147483648 ∧
      -2147483648 ≤ mv_scale - 256 ∧ mv_scale - 256 < 2147483648 ∧
      -2147483648 ≤ (mv_scale - 256) * mv ∧ (mv_scale - 256) * mv + 128 < 2147483648 →
      directForwardMv mv_scale mv = Int.shiftRight (mv_scale * mv + 128) 8 ∧
      directBackwardMv mv_scale mv = Int.shiftRight ((mv_scale - 256) * mv + 128) 8 ∧
      directForwardMv mv_scale mv - directBackwardMv mv_scale mv = mv) := by
  have hshift : ∀ x : Int, Int.shiftRight x 8 = x / 256 := by
    intro x
    have := Int.shiftRight_eq_div_pow x 8
    simpa using this
  have hid : Int.shiftRight (mv_scale * mv + 128) 8
      - Int.shiftRight ((mv_scale - 256) * mv + 128) 8 = mv := by
    rw [hshift, hshift]
    have he : (mv_scale - 256) * mv = mv_scale * mv - 256 * mv := by ring
    rw [he]
    generalize mv_scale * mv = P
    omega
  refine ⟨hid, ?_⟩
  rintro ⟨h1, h2, h3, h4, h5, h6⟩
  have hf : directForwardMv mv_scale mv = Int.shiftRight (mv_scale * mv + 128) 8 := by
    unfold directForwardMv
    rw [wrap32_of_range (mv_scale * mv) h1 (by omega),
      wrap32_of_range (mv_scale * mv + 128) (by omega) h2]
  have hb : directBackwardMv mv_scale mv
      = Int.shiftRight ((mv_scale - 256) * mv + 128) 8 := by
    unfold directBackwardMv
    rw [wrap32_of_range (mv_scale - 256) h3 h4,
      wrap32_of_range ((mv_scale - 256) * mv) h5 (by omega),
      wrap32_of_range ((mv_scale - 256) * mv + 128) (by omega) h6]
  exact ⟨hf, hb, by rw [hf, hb]; exact hid⟩

/-- Witness for C34: scale factor 171 and component -37 give the forward
component -25 and the backward component 12, which differ by -37. -/
theorem directMv_difference_witness :
    directForwardMv 171 (-37) = -25 ∧ directBackwardMv 171 (-37) = 12 ∧
    directForwardMv 171 (-37) - directBackwardMv 171 (-37) = -37 := by
  have h := (directMv_difference 171 (-37)).2 (by decide)
  exact ⟨by decide, by decide, h.2.2⟩

/-! ## The range assertion of `start_macroblock` -/

/-- C40, failing input: MB-AFF frame macroblock (`MbaffFrameFlag = 1`,
`list_offset = 0`) with no neighbour available: the points written are (0,0),
(12,0), (0,12), (-12,0) and (12,0), the last one in place of the (0,-12) that the
other two modes write for a missing above-left neighbour. -/
theorem EPZSSpatialPredictors_sentinels :
    EPZSSpatialPredictors_points (exSpatialInput 0 0 (fun _ => 0)) =
      [{ mv_x := 0, mv_y := 0 }, { mv_x := 12, mv_y := 0 }, { mv_x := 0, mv_y := 12 },
       { mv_x := -12, mv_y := 0 }, { mv_x := 0, mv_y := -12 }] ∧
    EPZSSpatialPredictors_points (exSpatialInput 1 2 (fun _ => 0)) =
      [{ mv_x := 0, mv_y := 0 }, { mv_x := 12, mv_y := 0 }, { mv_x := 0, mv_y := 12 },
       { mv_x := -12, mv_y := 0 }, { mv_x := 0, mv_y := -12 }] ∧
    EPZSSpatialPredictors_points (exSpatialInput 1 0 (fun _ => 0)) =
      [{ mv_x := 0, mv_y := 0 }, { mv_x := 12, mv_y := 0 }, { mv_x := 0, mv_y := 12 },
       { mv_x := -12, mv_y := 0 }, { mv_x := 12, mv_y := 0 }] ∧
    (EPZSSpatialPredictors_points
      (exSpatialInput 1 0 (fun k => if k = 3 then 0 else 1))).getLast?
        = some { mv_x := 12, mv_y := 0 } := by
  decide

/-! ## EPZS refinement patterns -/

/-- The test `coversUnvisited` spelled out. -/
theorem coversUnvisited_spec (pat : SearchPattern) (h : coversUnvisited pat = true) :
    ∀ pt ∈ pat.point,
      0 ≤ pt.start_nmbr ∧ pt.start_nmbr < pat.point.length ∧
      pt.next_points ≤ pat.point.length ∧
      ∀ (j : Nat) (q : SPoint), pat.point[j]? = some q →
        ({ mv_x := pt.motion.mv_x + q.motion.mv_x, mv_y := pt.motion.mv_y + q.motion.mv_y }
          : MotionVector) ≠ { mv_x := 0, mv_y := 0 } →
        (∀ z ∈ pat.point, z.motion ≠
          { mv_x := pt.motion.mv_x + q.motion.mv_x, mv_y := pt.motion.mv_y + q.motion.mv_y }) →
        ∃ k : Nat, (k : Int) < pt.next_points ∧
          (pt.start_nmbr.toNat + k) % pat.point.length = j := by
  intro pt hpt
  unfold coversUnvisited at h
  rw [List.all_eq_true] at h
  have hp := h pt hpt
  simp only [Bool.and_eq_true, decide_eq_true_eq, List.all_eq_true, List.mem_range] at hp
  obtain ⟨⟨⟨a, b⟩, c⟩, d⟩ := hp
  refine ⟨a, b, c, ?_⟩
  intro j q hq hne hnot
  have hj : j < pat.point.length := by
    rw [List.getElem?_eq_some_iff] at hq
    exact hq.1
  have hd := d j hj
  rw [hq] at hd
  simp only [Bool.or_eq_true, decide_eq_true_eq, List.contains_iff_exists_mem_beq,
    List.mem_map, beq_iff_eq] at hd
  rcases hd with (h1 | h2) | h3
  · exact absurd h1 hne
  · obtain ⟨m, ⟨z, hz, hzm⟩, hm⟩ := h2
    exact absurd (hzm.trans hm.symm) (hnot z hz)
  · obtain ⟨i, hi, hij⟩ := h3
    unfold nextWindow at hi
    rw [List.mem_map] at hi
    obtain ⟨k, hk, hki⟩ := hi
    rw [List.mem_range] at hk
    exact ⟨k, by omega, by rw [hki]; exact hij.symm⟩

/-- C39: with the pattern types numbered as the rows of `pattern_data`,
`EPZSInit` builds the patterns, each of its allocated size, and for each of the
four self-chaining ones (small diamond, square, enhanced diamond, large
diamond) and each of its points with offset `d`: `start_nmbr` is a valid point
index, `next_points` does not exceed the pattern size, and every pattern offset
`p` for which `d + p` is neither the old centre (0,0) nor an offset of the
pattern lies inside the cyclic index window
`[start_nmbr, start_nmbr + next_points)` of the point. -/
theorem EPZSInit_patterns_cover (T : PatternTypes) (h0 : T.SDIAMOND = 0) (h1 : T.SQUARE = 1)
    (h2 : T.EDIAMOND = 2) (h3 : T.LDIAMOND = 3) (h4 : T.SBDIAMOND = 4) :
    ∃ pats, EPZSInit T = some pats ∧
      pats.sdiamond.point.length = 4 ∧ pats.square.point.length = 8 ∧
      pats.ediamond.point.length = 12 ∧ pats.ldiamond.point.length = 8 ∧
      pats.sdiamond.searchPoints = 4 ∧ pats.square.searchPoints = 8 ∧
      pats.ediamond.searchPoints = 12 ∧ pats.ldiamond.searchPoints = 8 ∧
      ∀ pat ∈ [pats.sdiamond, pats.square, pats.ediamond, pats.ldiamond],
        ∀ pt ∈ pat.point,
          0 ≤ pt.start_nmbr ∧ pt.start_nmbr < pat.point.length ∧
          pt.next_points ≤ pat.point.length ∧
          ∀ (j : Nat) (q : SPoint), pat.point[j]? = some q →
            ({ mv_x := pt.motion.mv_x + q.motion.mv_x,
               mv_y := pt.motion.mv_y + q.motion.mv_y } : MotionVector)
              ≠ { mv_x := 0, mv_y := 0 } →
            (∀ z ∈ pat.point, z.motion ≠
              { mv_x := pt.motion.mv_x + q.motion.mv_x,
                mv_y := pt.motion.mv_y + q.motion.mv_y }) →
            ∃ k : Nat, (k : Int) < pt.next_points ∧
              (pt.start_nmbr.toNat + k) % pat.point.length = j := by
  obtain ⟨a, b, c, d, e⟩ := T
  simp only at h0 h1 h2 h3 h4
  subst h0 h1 h2 h3 h4
  refine ⟨_, rfl, by decide, by decide, by decide, by decide, by decide, by decide, by decide,
    by decide, ?_⟩
  intro pat hpat
  apply coversUnvisited_spec
  simp only [List.mem_cons, List.mem_singleton, List.not_mem_nil, or_false] at hpat
  rcases hpat with rfl | rfl | rfl | rfl <;> decide

/-- Witness for C39: the pattern types numbered 0 to 4. In the small diamond the
point 0 with offset (0,4) has the window 3, 0, 1 and the square point 1 with
offset (4,4) has the window 7, 0, 1, 2, 3. -/
theorem EPZSInit_patterns_cover_witness :
    (∃ pats, EPZSInit exPatternTypes = some pats ∧
      pats.sdiamond.point.length = 4 ∧ pats.square.point.length = 8 ∧
      pats.ediamond.point.length = 12 ∧ pats.ldiamond.point.length = 8) ∧
    (EPZSInit exPatternTypes).map (fun pats =>
      (pats.sdiamond.point.map (fun pt => nextWindow 4 pt),
       (pats.square.point.map (fun pt => nextWindow 8 pt))[1]?))
      = some ([[3, 0, 1], [0, 1, 2], [1, 2, 3], [2, 3, 0]], some [7, 0, 1, 2, 3]) ∧
    coversUnvisited (SearchPattern.mk 2
      [SPoint.mk (MotionVector.mk 0 4) 0 1, SPoint.mk (MotionVector.mk 4 0) 0 1] 1 1)
      = false := by
  obtain ⟨pats, hp, h1, h2, h3, h4, _⟩ :=
    EPZSInit_patterns_cover exPatternTypes rfl rfl rfl rfl rfl
  exact ⟨⟨pats, hp, h1, h2, h3, h4⟩, by decide, by decide⟩

/-! ## Allocation of the window predictors -/

/-- One value of `pos` contributes 8 points in mode 0 and 20 otherwise. -/
theorem windowLevel_length (search_range mode : Int) (pos : Nat) :
    (windowLevel search_range mode pos).length = if mode = 0 then 8 else 20 := by
  unfold windowLevel
  by_cases h : mode = 0
  · simp only [h, if_true]
    rfl
  · simp only [h, if_false, List.length_append]
    rfl

/-- The length of a concatenation of lists of one common length. -/
theorem length_flatMap_const {α β : Type} (f : α → List β) (c : Nat)
    (hf : ∀ a, (f a).length = c) : ∀ xs : List α, (xs.flatMap f).length = c * xs.length := by
  intro xs
  induction xs with
  | nil => simp
  | cons a t ih =>
    rw [List.flatMap_cons, List.length_append, ih, hf, List.length_cons]
    ring

/-- `RoundLog2` returns for every value whose square is below `2 ^ 30`. -/
theorem RoundLog2_some (iValue : Int) (h : iValue * iValue < 2 ^ 30) :
    ∃ l, RoundLog2 30 iValue = some l := by
  unfold RoundLog2
  by_cases h0 : (1 : Int) ≤ iValue * iValue
  · obtain ⟨r, hr, _, _⟩ := RoundLog2_loop_spec (iValue * iValue) 30 0 (by simpa using h0)
      (by simpa using h)
    rw [hr]
    exact ⟨_, rfl⟩
  · have hlt : ¬ ((2 : Int) ^ (0 + 1) ≤ iValue * iValue) := by
      norm_num
      omega
    refine ⟨0, ?_⟩
    unfold RoundLog2_loop
    rw [if_neg hlt]
    rfl

/-- The number of points `EPZSWindowPredictorInit` writes. -/
theorem EPZSWindowPredictorInit_length (search_range mode : Int) (l : Nat)
    (hl : RoundLog2 30 search_range = some l) :
    ∃ w, EPZSWindowPredictorInit search_range mode = some w ∧
      w.point.length = (if mode = 0 then 8 else 20) * (l - 1) ∧
      w.searchPoints = (w.point.length : Int) - 1 := by
  unfold EPZSWindowPredictorInit
  rw [hl]
  refine ⟨_, rfl, ?_, ?_⟩
  · simp only
    rw [length_flatMap_const _ _ (windowLevel_length search_range mode)]
    simp
  · simp only
    omega

/-- C38: for every search range that fits a `short` with absolute value below
`2 ^ 15`, `RoundLog2` returns some `l`, and if `L = l - 1 >= 0` then
`EPZSStructInit` allocates `8 L` and `20 L` points and
`EPZSWindowPredictorInit` writes exactly `8 L` points (indices `0 .. 8L-1`) in
mode 0 and `20 L` points in mode 1, recording in `searchPoints` one less than
the number of points written. -/
theorem EPZSWindowPredictorInit_fills_allocation (search_range : Int)
    (hlo : -32768 < search_range) (hhi : search_range < 32768) :
    ∃ l : Nat, RoundLog2 30 search_range = some l ∧
      (1 ≤ l → ∃ s, EPZSStructInit_windows search_range = some s ∧
        s.window_predictor_alloc = 8 * ((l : Int) - 1) ∧
        s.window_predictor_ext_alloc = 20 * ((l : Int) - 1) ∧
        (s.window_predictor.point.length : Int) = s.window_predictor_alloc ∧
        (s.window_predictor_ext.point.length : Int) = s.window_predictor_ext_alloc ∧
        s.window_predictor.searchPoints = (s.window_predictor.point.length : Int) - 1 ∧
        s.window_predictor_ext.searchPoints
          = (s.window_predictor_ext.point.length : Int) - 1) := by
  have hsq : search_range * search_range < 2 ^ 30 := by nlinarith
  obtain ⟨l, hl⟩ := RoundLog2_some search_range hsq
  refine ⟨l, hl, ?_⟩
  intro h1
  have hw : wrap16 search_range = search_range := by
    unfold wrap16
    omega
  obtain ⟨w, hw0, hwl, hws⟩ := EPZSWindowPredictorInit_length search_range 0 l hl
  obtain ⟨e, he0, hel, hes⟩ := EPZSWindowPredictorInit_length search_range 1 l hl
  unfold EPZSStructInit_windows
  rw [hl, hw]
  simp only [hw0, he0]
  refine ⟨_, rfl, by ring, by ring, ?_, ?_, hws, hes⟩
  · simp only [hwl, if_true]
    push_cast
    rw [Nat.cast_sub h1]
    push_cast
    ring
  · simp only [hel]
    norm_num
    rw [Nat.cast_sub h1]
    push_cast
    ring

/-- Witness for C38: search range 16 gives `RoundLog2 = 4`, so `L = 3`, and the
two window predictors hold 24 and 60 points with `searchPoints` 23 and 59. -/
theorem EPZSWindowPredictorInit_fills_allocation_witness :
    RoundLog2 30 16 = some 4 ∧
    (EPZSStructInit_windows 16).map (fun s =>
      (s.window_predictor_alloc, s.window_predictor_ext_alloc,
       s.window_predictor.point.length, s.window_predictor_ext.point.length,
       s.window_predictor.searchPoints, s.window_predictor_ext.searchPoints))
      = some (24, 60, 24, 60, 23, 59) ∧
    (∃ l : Nat, RoundLog2 30 16 = some l ∧
      (1 ≤ l → ∃ s, EPZSStructInit_windows 16 = some s ∧
        s.window_predictor_alloc = 8 * ((l : Int) - 1) ∧
        s.window_predictor_ext_alloc = 20 * ((l : Int) - 1) ∧
        (s.window_predictor.point.length : Int) = s.window_predictor_alloc ∧
        (s.window_predictor_ext.point.length : Int) = s.window_predictor_ext_alloc ∧
        s.window_predictor.searchPoints = (s.window_predictor.point.length : Int) - 1 ∧
        s.window_predictor_ext.searchPoints
          = (s.window_predictor_ext.point.length : Int) - 1)) :=
  ⟨by decide, by decide,
    EPZSWindowPredictorInit_fills_allocation 16 (by decide) (by decide)⟩

/-! ## The run loop of `readCoeff4x4_CAVLC` -/

/-- The forced-intra set is the pattern read at the indices of `refreshIndices`. -/
theorem forcedSet_refreshIndices (s : IntraRefresh) :
    forcedSet (RandomIntraNewPicture s) = (refreshIndices s).map s.RefreshPattern := by
  rw [forcedSet_newPicture]
  unfold refreshIndices
  simp only [List.map_map]
  rfl

/-- While the advanced cursor and the indices stay inside the 32-bit range,
every index of `refreshIndices` lies in `[0, NumberOfMBs)`. -/
theorem refreshIndices_in_range (s : IntraRefresh) (hN : 1 ≤ s.NumberOfMBs)
    (hW : 0 ≤ s.WalkAround) (hr : 0 ≤ s.NumberIntraPerPicture)
    (hbound : s.WalkAround + 2 * s.NumberIntraPerPicture ≤ 2147483648) :
    ∀ x ∈ refreshIndices s, 0 ≤ x ∧ x < s.NumberOfMBs := by
  intro x hx
  unfold refreshIndices at hx
  simp only [List.mem_map, List.mem_range] at hx
  obtain ⟨j, hj, rfl⟩ := hx
  have hj2 : (j : Int) < s.NumberIntraPerPicture := by omega
  rw [wrap32_of_range (s.WalkAround + s.NumberIntraPerPicture) (by omega) (by omega),
    wrap32_of_range _ (by omega) (by omega), Int.tmod_eq_emod (by omega) (by omega)]
  exact ⟨Int.emod_nonneg _ (by omega), Int.emod_lt_of_pos _ (by omega)⟩

/-- C36, failing input: a picture of 5 x 1 macroblocks with refresh rate 2.
The call number 1073741824 of `RandomIntraNewPicture` advances the 32-bit
cursor from 2147483646 to -2147483648 and reads `RefreshPattern` at the indices
-3 and -2, below the array; the call before it reads at 1 and 2 and the call
after it at -1 and 0. -/
theorem RandomIntraNewPicture_index_below_zero :
    ∃ s, RandomIntraInit exRand 1 (freshModule zeroMem) zeroMem zeroMem 5 1 2 = some s ∧
      s.NumberOfMBs = 5 ∧ s.NumberIntraPerPicture = 2 ∧ s.WalkAround = 0 ∧
      (Nat.iterate RandomIntraNewPicture 1073741823 s).WalkAround = 2147483646 ∧
      refreshIndices (Nat.iterate RandomIntraNewPicture 1073741823 s) = [-3, -2] ∧
      (RandomIntraNewPicture (Nat.iterate RandomIntraNewPicture 1073741823 s)).WalkAround
        = -2147483648 ∧
      refreshIndices (Nat.iterate RandomIntraNewPicture 1073741822 s) = [1, 2] ∧
      refreshIndices (Nat.iterate RandomIntraNewPicture 1073741824 s) = [-1, 0] := by
  have hval : (RandomIntraInit exRand 1 (freshModule zeroMem) zeroMem zeroMem 5 1 2).map
      (fun s => (s.NumberOfMBs, s.NumberIntraPerPicture, s.WalkAround))
      = some (5, 2, 0) := by decide
  cases hs : RandomIntraInit exRand 1 (freshModule zeroMem) zeroMem zeroMem 5 1 2 with
  | none => rw [hs] at hval; exact absurd hval (by simp)
  | some s =>
    rw [hs] at hval
    simp only [Option.map_some', Option.some.injEq, Prod.mk.injEq] at hval
    obtain ⟨hN, hr, hW⟩ := hval
    have hW32 : wrap32 s.WalkAround = s.WalkAround := by rw [hW]; decide
    have hidx : ∀ k : Nat, refreshIndices (Nat.iterate RandomIntraNewPicture k s)
        = (List.range 2).map (fun (j : Nat) =>
            Int.tmod (wrap32 (wrap32 (wrap32 ((k : Int) * 2) + 2) + (j : Int))) 5) := by
      intro k
      obtain ⟨_, h2, h3, h4⟩ := newPicture_iterate k s hW32
      unfold refreshIndices
      simp only [h2, h3, h4, hN, hr, hW, zero_add]
      rfl
    refine ⟨s, rfl, hN, hr, hW, ?_, ?_, ?_, ?_, ?_⟩
    · rw [(newPicture_iterate 1073741823 s hW32).2.2.2, hr, hW]
      decide
    · rw [hidx]
      decide
    · obtain ⟨_, _, h3, h4⟩ := newPicture_iterate 1073741823 s hW32
      simp only [RandomIntraNewPicture, h3, h4, hr, hW]
      decide
    · rw [hidx]
      decide
    · rw [hidx]
      decide

/-- C35, failing input: a picture of 3 x 1 macroblocks with refresh rate 2,
`RefreshPattern = {0, 1, 2}`. The three consecutive calls number 1073741823,
1073741824 and 1073741825 of `RandomIntraNewPicture` read the pattern at the
indices 0, 1, then -2, -1, then 0, -2: index 2 is read by none of them, and
`RandomIntra (2)` is 0 after each of the three, where the claim has macroblock 2
forced in two of three pictures. Three calls after number 1073741823, whose set
is `{0, 1}`, the set is read at -1 and 0. -/
theorem RandomIntraNewPicture_refresh_gap :
    ∃ s, RandomIntraInit exRand 1 (freshModule zeroMem) zeroMem zeroMem 3 1 2 = some s ∧
      s.NumberOfMBs = 3 ∧ s.NumberIntraPerPicture = 2 ∧
      (List.range 3).map (fun (p : Nat) => s.RefreshPattern (p : Int)) = [0, 1, 2] ∧
      refreshIndices (Nat.iterate RandomIntraNewPicture 1073741822 s) = [0, 1] ∧
      refreshIndices (Nat.iterate RandomIntraNewPicture 1073741823 s) = [-2, -1] ∧
      refreshIndices (Nat.iterate RandomIntraNewPicture 1073741824 s) = [0, -2] ∧
      RandomIntra (Nat.iterate RandomIntraNewPicture 1073741823 s) 2 = 0 ∧
      RandomIntra (Nat.iterate RandomIntraNewPicture 1073741824 s) 2 = 0 ∧
      RandomIntra (Nat.iterate RandomIntraNewPicture 1073741825 s) 2 = 0 ∧
      forcedSet (Nat.iterate RandomIntraNewPicture 1073741823 s) = [0, 1] ∧
      refreshIndices (Nat.iterate RandomIntraNewPicture 1073741825 s) = [-1, 0] ∧
      forcedSet (Nat.iterate RandomIntraNewPicture 1073741826 s)
        = [s.RefreshPattern (-1), 0] ∧
      (3 : Nat) / Nat.gcd 3 2 = 3 := by
  have hval : (RandomIntraInit exRand 1 (freshModule zeroMem) zeroMem zeroMem 3 1 2).map
      (fun s => (s.NumberOfMBs, s.NumberIntraPerPicture, s.WalkAround,
        (List.range 3).map (fun (p : Nat) => s.RefreshPattern (p : Int)),
        s.RefreshPattern (-2), s.RefreshPattern (-1)))
      = some (3, 2, 0, [0, 1, 2], 0, 0) := by decide
  cases hs : RandomIntraInit exRand 1 (freshModule zeroMem) zeroMem zeroMem 3 1 2 with
  | none => rw [hs] at hval; exact absurd hval (by simp)
  | some s =>
    rw [hs] at hval
    simp only [Option.map_some', Option.some.injEq, Prod.mk.injEq] at hval
    obtain ⟨hN, hr, hW, hpat, hm2, hm1⟩ := hval
    have hp0 : s.RefreshPattern 0 = 0 := by
      have := congrArg (fun l => l.getD 0 7) hpat
      simpa using this
    have hp1 : s.RefreshPattern 1 = 1 := by
      have := congrArg (fun l => l.getD 1 7) hpat
      simpa using this
    have hW32 : wrap32 s.WalkAround = s.WalkAround := by rw [hW]; decide
    have hidx : ∀ k : Nat, refreshIndices (Nat.iterate RandomIntraNewPicture k s)
        = (List.range 2).map (fun (j : Nat) =>
            Int.tmod (wrap32 (wrap32 (wrap32 ((k : Int) * 2) + 2) + (j : Int))) 3) := by
      intro k
      obtain ⟨_, h2, h3, h4⟩ := newPicture_iterate k s hW32
      unfold refreshIndices
      simp only [h2, h3, h4, hN, hr, hW, zero_add]
      rfl
    have hset : ∀ k : Nat, forcedSet (Nat.iterate RandomIntraNewPicture (k + 1) s)
        = (refreshIndices (Nat.iterate RandomIntraNewPicture k s)).map s.RefreshPattern := by
      intro k
      rw [Function.iterate_succ_apply', forcedSet_refreshIndices,
        (newPicture_iterate k s hW32).1]
    have h23 : forcedSet (Nat.iterate RandomIntraNewPicture 1073741823 s) = [0, 1] := by
      rw [hset 1073741822, hidx]
      simp only [List.map_map]
      show [s.RefreshPattern 0, s.RefreshPattern 1] = [0, 1]
      rw [hp0, hp1]
    have h24 : forcedSet (Nat.iterate RandomIntraNewPicture 1073741824 s) = [0, 0] := by
      rw [hset 1073741823, hidx]
      show [s.RefreshPattern (-2), s.RefreshPattern (-1)] = [0, 0]
      rw [hm2, hm1]
    have h25 : forcedSet (Nat.iterate RandomIntraNewPicture 1073741825 s) = [0, 0] := by
      rw [hset 1073741824, hidx]
      show [s.RefreshPattern 0, s.RefreshPattern (-2)] = [0, 0]
      rw [hp0, hm2]
    have h26 : forcedSet (Nat.iterate RandomIntraNewPicture 1073741826 s)
        = [s.RefreshPattern (-1), 0] := by
      rw [hset 1073741825, hidx]
      show [s.RefreshPattern (-1), s.RefreshPattern 0] = [s.RefreshPattern (-1), 0]
      rw [hp0]
    refine ⟨s, rfl, hN, hr, hpat, ?_, ?_, ?_, ?_, ?_, ?_, h23, ?_, h26, by decide⟩
    · rw [hidx]; decide
    · rw [hidx]; decide
    · rw [hidx]; decide
    · rw [(RandomIntra_eq _ 2).2, h23]; decide
    · rw [(RandomIntra_eq _ 2).2, h24]; decide
    · rw [(RandomIntra_eq _ 2).2, h25]; decide
    · rw [hidx]; decide

/-! ## Frame and field views of a macroblock pair -/

/-- The index pairs of a loop nest. -/
theorem mem_loopPairs (n m : Nat) (ij : Nat × Nat) :
    ij ∈ loopPairs n m ↔ ij.1 < n ∧ ij.2 < m := by
  unfold loopPairs
  simp only [List.mem_flatMap, List.mem_map, List.mem_range]
  constructor
  · rintro ⟨i, hi, j, hj, rfl⟩
    exact ⟨hi, hj⟩
  · rintro ⟨hi, hj⟩
    exact ⟨ij.1, hi, ij.2, hj, rfl⟩

/-- The frame branch over any list of index pairs, entered with `imgY`
pointing to `imgY_frm`: the frame array is unchanged, and a cell of the two
field arrays holds the frame sample of the related row if one of the pairs
addresses it and its old value otherwise. -/
theorem fillField_fold (oy ox fy : Int) (L : List (Nat × Nat)) :
    ∀ s : SuperMB, s.imgY = LumaView.frm →
      (L.foldl (fillFieldStep oy ox fy) s).imgY_frm = s.imgY_frm ∧
      ∀ p q,
        ((∃ ij ∈ L, p = fy + (ij.1 : Int) ∧ q = ox + (ij.2 : Int)) →
          (L.foldl (fillFieldStep oy ox fy) s).imgY_top p q = s.imgY_frm (oy + (p - fy) * 2) q ∧
          (L.foldl (fillFieldStep oy ox fy) s).imgY_bot p q
            = s.imgY_frm (oy + (p - fy) * 2 + 1) q) ∧
        ((¬ ∃ ij ∈ L, p = fy + (ij.1 : Int) ∧ q = ox + (ij.2 : Int)) →
          (L.foldl (fillFieldStep oy ox fy) s).imgY_top p q = s.imgY_top p q ∧
          (L.foldl (fillFieldStep oy ox fy) s).imgY_bot p q = s.imgY_bot p q) := by
  induction L with
  | nil =>
    intro s _
    refine ⟨rfl, fun p q => ⟨?_, fun _ => ⟨rfl, rfl⟩⟩⟩
    rintro ⟨ij, hij, _⟩
    simp at hij
  | cons x L ih =>
    intro s hs
    have hview : (fillFieldStep oy ox fy s x).imgY = LumaView.frm := hs
    have hfrm : (fillFieldStep oy ox fy s x).imgY_frm = s.imgY_frm := rfl
    have htop : ∀ p q, (fillFieldStep oy ox fy s x).imgY_top p q
        = if p = fy + (x.1 : Int) ∧ q = ox + (x.2 : Int)
          then s.imgY_frm (oy + (x.1 : Int) * 2) (ox + (x.2 : Int)) else s.imgY_top p q := by
      intro p q
      simp only [fillFieldStep, setCell, SuperMB.imgY_read, hs]
    have hbot : ∀ p q, (fillFieldStep oy ox fy s x).imgY_bot p q
        = if p = fy + (x.1 : Int) ∧ q = ox + (x.2 : Int)
          then s.imgY_frm (oy + (x.1 : Int) * 2 + 1) (ox + (x.2 : Int))
          else s.imgY_bot p q := by
      intro p q
      simp only [fillFieldStep, setCell, SuperMB.imgY_read, hs]
    obtain ⟨ihfrm, ihcell⟩ := ih (fillFieldStep oy ox fy s x) hview
    rw [List.foldl_cons]
    refine ⟨ihfrm.trans hfrm, fun p q => ⟨?_, ?_⟩⟩
    · intro hex
      by_cases hL : ∃ ij ∈ L, p = fy + (ij.1 : Int) ∧ q = ox + (ij.2 : Int)
      · have := (ihcell p q).1 hL
        rw [hfrm] at this
        exact this
      · obtain ⟨h1, h2⟩ := (ihcell p q).2 hL
        have hx : p = fy + (x.1 : Int) ∧ q = ox + (x.2 : Int) := by
          obtain ⟨ij, hij, hp⟩ := hex
          rcases List.mem_cons.mp hij with rfl | hin
          · exact hp
          · exact absurd ⟨ij, hin, hp⟩ hL
        rw [h1, h2, htop, hbot, if_pos hx, if_pos hx]
        obtain ⟨hp, hq⟩ := hx
        subst hp hq
        constructor
        · congr 1
          ring
        · congr 1
          ring
    · intro hno
      have hL : ¬ ∃ ij ∈ L, p = fy + (ij.1 : Int) ∧ q = ox + (ij.2 : Int) := by
        rintro ⟨ij, hij, hp⟩
        exact hno ⟨ij, List.mem_cons_of_mem _ hij, hp⟩
      have hx : ¬ (p = fy + (x.1 : Int) ∧ q = ox + (x.2 : Int)) := by
        intro hp
        exact hno ⟨x, List.mem_cons_self _ _, hp⟩
      obtain ⟨h1, h2⟩ := (ihcell p q).2 hL
      rw [h1, h2, htop, hbot, if_neg hx, if_neg hx]
      exact ⟨rfl, rfl⟩

/-- The field branches over any list of index pairs, with `src` the field array
read (`imgY_bot` or `imgY_top`): the two field arrays are unchanged, and a cell
of the frame array holds the field sample of the related row if one of the
pairs addresses it and its old value otherwise. -/
theorem fillFrame_fold (oy ox fy : Int) (bottom : Bool) (L : List (Nat × Nat)) :
    ∀ s : SuperMB,
      (L.foldl (if bottom then fillFrameFromBotStep oy ox fy
          else fillFrameFromTopStep oy ox fy) s).imgY_top = s.imgY_top ∧
      (L.foldl (if bottom then fillFrameFromBotStep oy ox fy
          else fillFrameFromTopStep oy ox fy) s).imgY_bot = s.imgY_bot ∧
      ∀ p q,
        (∀ ij ∈ L, p = oy + (ij.1 : Int) * 2 → q = ox + (ij.2 : Int) →
          (L.foldl (if bottom then fillFrameFromBotStep oy ox fy
              else fillFrameFromTopStep oy ox fy) s).imgY_frm p q
            = (if bottom then s.imgY_bot else s.imgY_top) (fy + (ij.1 : Int)) q) ∧
        ((¬ ∃ ij ∈ L, p = oy + (ij.1 : Int) * 2 ∧ q = ox + (ij.2 : Int)) →
          (L.foldl (if bottom then fillFrameFromBotStep oy ox fy
              else fillFrameFromTopStep oy ox fy) s).imgY_frm p q = s.imgY_frm p q) := by
  induction L with
  | nil =>
    intro s
    refine ⟨rfl, rfl, fun p q => ⟨?_, fun _ => rfl⟩⟩
    intro ij hij
    simp at hij
  | cons x L ih =>
    intro s
    have htop : ((if bottom then fillFrameFromBotStep oy ox fy
        else fillFrameFromTopStep oy ox fy) s x).imgY_top = s.imgY_top := by
      cases bottom <;> rfl
    have hbot : ((if bottom then fillFrameFromBotStep oy ox fy
        else fillFrameFromTopStep oy ox fy) s x).imgY_bot = s.imgY_bot := by
      cases bottom <;> rfl
    have hfrm : ∀ p q, ((if bottom then fillFrameFromBotStep oy ox fy
        else fillFrameFromTopStep oy ox fy) s x).imgY_frm p q
        = if p = oy + (x.1 : Int) * 2 ∧ q = ox + (x.2 : Int)
          then (if bottom then s.imgY_bot else s.imgY_top) (fy + (x.1 : Int)) (ox + (x.2 : Int))
          else s.imgY_frm p q := by
      intro p q
      cases bottom <;> simp [fillFrameFromBotStep, fillFrameFromTopStep, setCell]
    obtain ⟨ihtop, ihbot, ihcell⟩ := ih ((if bottom then fillFrameFromBotStep oy ox fy
        else fillFrameFromTopStep oy ox fy) s x)
    rw [List.foldl_cons]
    refine ⟨ihtop.trans htop, ihbot.trans hbot, fun p q => ⟨?_, ?_⟩⟩
    · intro ij hij hp hq
      by_cases hL : ∃ kl ∈ L, p = oy + (kl.1 : Int) * 2 ∧ q = ox + (kl.2 : Int)
      · obtain ⟨kl, hkl, hkp, hkq⟩ := hL
        have hsame : (kl.1 : Int) = (ij.1 : Int) := by omega
        rw [(ihcell p q).1 kl hkl hkp hkq, htop, hbot, hsame]
      · rw [(ihcell p q).2 hL]
        rcases List.mem_cons.mp hij with rfl | hin
        · rw [hfrm, if_pos ⟨hp, hq⟩, hq]
        · exact absurd ⟨ij, hin, hp, hq⟩ hL
    · intro hno
      have hL : ¬ ∃ ij ∈ L, p = oy + (ij.1 : Int) * 2 ∧ q = ox + (ij.2 : Int) := by
        rintro ⟨ij, hij, hp⟩
        exact hno ⟨ij, List.mem_cons_of_mem _ hij, hp⟩
      have hx : ¬ (p = oy + (x.1 : Int) * 2 ∧ q = ox + (x.2 : Int)) := by
        intro hp
        exact hno ⟨x, List.mem_cons_self _ _, hp⟩
      rw [(ihcell p q).2 hL, hfrm, if_neg hx]

/-- The offset `field_y = offset_y / 2` of `exit_super_macroblock`. -/
theorem field_y_eq (mb_y : Int) : Int.tdiv (mb_y * MB_BLOCK_SIZE) 2 = mb_y * 8 := by
  have h : mb_y * MB_BLOCK_SIZE = mb_y * 8 * 2 := by
    unfold MB_BLOCK_SIZE
    ring
  rw [h, Int.mul_tdiv_cancel _ (by decide)]

/-- The frame branch of `exit_super_macroblock` as a fold. -/
theorem exit_super_macroblock_frame (s : SuperMB) (h : s.mb_field = 0) :
    exit_super_macroblock s =
      { (loopPairs 8 16).foldl (fillFieldStep (s.mb_y * 16) (s.mb_x * 16) (s.mb_y * 8)) s
        with imgY := LumaView.frm } := by
  unfold exit_super_macroblock
  simp only [h, if_true, field_y_eq]
  rfl

/-- The field branch of `exit_super_macroblock` for an even address, as a fold. -/
theorem exit_super_macroblock_top (s : SuperMB) (h : s.mb_field ≠ 0)
    (hnr : Int.tmod s.current_mb_nr 2 = 0) :
    exit_super_macroblock s =
      { (loopPairs 16 16).foldl
          (fillFrameFromTopStep (s.mb_y * 16) (s.mb_x * 16) (s.mb_y * 8)) s
        with imgY := LumaView.frm } := by
  unfold exit_super_macroblock
  simp only [h, hnr, if_false, field_y_eq, ne_eq, not_true_eq_false]
  rfl

/-- The field branch of `exit_super_macroblock` for an odd address, as a fold. -/
theorem exit_super_macroblock_bot (s : SuperMB) (h : s.mb_field ≠ 0)
    (hnr : Int.tmod s.current_mb_nr 2 ≠ 0) :
    exit_super_macroblock s =
      { (loopPairs 16 16).foldl
          (fillFrameFromBotStep (s.mb_y * 16 - 15) (s.mb_x * 16) (s.mb_y * 8 - 8)) s
        with imgY := LumaView.frm } := by
  unfold exit_super_macroblock
  simp only [h, hnr, if_false, if_true, field_y_eq, ne_eq, not_false_eq_true]
  rfl

/-- C31: `exit_super_macroblock` keeps the frame and field luma views
consistent under the correspondence frame row `2t` with top-field row `t` and
frame row `2t+1` with bottom-field row `t`. For a frame-coded macroblock
(`mb_field == 0`, where `init_super_macroblock` has pointed `imgY` to
`imgY_frm`) at `(mb_x, mb_y)` the top-field and bottom-field rows
`8 mb_y .. 8 mb_y + 7` receive, in the columns `16 mb_x .. 16 mb_x + 15`, the
frame rows `2t` and `2t+1`, and nothing else changes. For a field-coded
macroblock of pair `q` with an even address and `mb_y = 2q` (top), the frame
rows `2t` for `t = 16q .. 16q+15` receive the top-field rows `t`; with an odd
address and `mb_y = 2q+1` (bottom), the frame rows `2t+1` receive the
bottom-field rows `t`; in both cases within the macroblock's 16 columns and
with nothing else changed. Afterwards `imgY` points to `imgY_frm`. -/
theorem exit_super_macroblock_rows (s : SuperMB) (q : Int) :
    (exit_super_macroblock s).imgY = LumaView.frm ∧
    (s.mb_field = 0 → (init_super_macroblock s).imgY = LumaView.frm) ∧
    (s.mb_field = 0 → s.imgY = LumaView.frm →
      (exit_super_macroblock s).imgY_frm = s.imgY_frm ∧
      ∀ t c,
        (8 * s.mb_y ≤ t → t < 8 * s.mb_y + 8 → 16 * s.mb_x ≤ c → c < 16 * s.mb_x + 16 →
          (exit_super_macroblock s).imgY_top t c = s.imgY_frm (2 * t) c ∧
          (exit_super_macroblock s).imgY_bot t c = s.imgY_frm (2 * t + 1) c) ∧
        (¬ (8 * s.mb_y ≤ t ∧ t < 8 * s.mb_y + 8 ∧ 16 * s.mb_x ≤ c ∧ c < 16 * s.mb_x + 16) →
          (exit_super_macroblock s).imgY_top t c = s.imgY_top t c ∧
          (exit_super_macroblock s).imgY_bot t c = s.imgY_bot t c)) ∧
    (s.mb_field ≠ 0 → Int.tmod s.current_mb_nr 2 = 0 → s.mb_y = 2 * q →
      (exit_super_macroblock s).imgY_top = s.imgY_top ∧
      (exit_super_macroblock s).imgY_bot = s.imgY_bot ∧
      ∀ c,
        (∀ t, 16 * q ≤ t → t < 16 * q + 16 → 16 * s.mb_x ≤ c → c < 16 * s.mb_x + 16 →
          (exit_super_macroblock s).imgY_frm (2 * t) c = s.imgY_top t c) ∧
        (∀ p, ¬ (∃ t, 16 * q ≤ t ∧ t < 16 * q + 16 ∧ p = 2 * t ∧
            16 * s.mb_x ≤ c ∧ c < 16 * s.mb_x + 16) →
          (exit_super_macroblock s).imgY_frm p c = s.imgY_frm p c)) ∧
    (s.mb_field ≠ 0 → Int.tmod s.current_mb_nr 2 ≠ 0 → s.mb_y = 2 * q + 1 →
      (exit_super_macroblock s).imgY_top = s.imgY_top ∧
      (exit_super_macroblock s).imgY_bot = s.imgY_bot ∧
      ∀ c,
        (∀ t, 16 * q ≤ t → t < 16 * q + 16 → 16 * s.mb_x ≤ c → c < 16 * s.mb_x + 16 →
          (exit_super_macroblock s).imgY_frm (2 * t + 1) c = s.imgY_bot t c) ∧
        (∀ p, ¬ (∃ t, 16 * q ≤ t ∧ t < 16 * q + 16 ∧ p = 2 * t + 1 ∧
            16 * s.mb_x ≤ c ∧ c < 16 * s.mb_x + 16) →
          (exit_super_macroblock s).imgY_frm p c = s.imgY_frm p c)) := by
  refine ⟨rfl, ?_, ?_, ?_, ?_⟩
  · intro h
    unfold init_super_macroblock
    rw [if_pos h]
  · intro h hview
    have hfold := fillField_fold (s.mb_y * 16) (s.mb_x * 16) (s.mb_y * 8)
      (loopPairs 8 16) s hview
    rw [exit_super_macroblock_frame s h]
    generalize List.foldl (fillFieldStep (s.mb_y * 16) (s.mb_x * 16) (s.mb_y * 8)) s
      (loopPairs 8 16) = r at hfold ⊢
    obtain ⟨hfrm, hcell⟩ := hfold
    refine ⟨hfrm, fun t c => ⟨?_, ?_⟩⟩
    · intro h1 h2 h3 h4
      have hex : ∃ ij ∈ loopPairs 8 16,
          t = s.mb_y * 8 + (ij.1 : Int) ∧ c = s.mb_x * 16 + (ij.2 : Int) :=
        ⟨((t - s.mb_y * 8).toNat, (c - s.mb_x * 16).toNat),
          (mem_loopPairs 8 16 _).2 ⟨by simp only []; omega, by simp only []; omega⟩,
          by simp only []; omega, by simp only []; omega⟩
      obtain ⟨ht, hb⟩ := (hcell t c).1 hex
      have e1 : s.mb_y * 16 + (t - s.mb_y * 8) * 2 = 2 * t := by ring
      rw [e1] at ht hb
      exact ⟨ht, hb⟩
    · intro hno
      apply (hcell t c).2
      rintro ⟨ij, hij, hp, hq⟩
      rw [mem_loopPairs] at hij
      exact hno ⟨by omega, by omega, by omega, by omega⟩
  · intro h hnr hy
    have hfold := fillFrame_fold (s.mb_y * 16) (s.mb_x * 16) (s.mb_y * 8) false
      (loopPairs 16 16) s
    simp only [Bool.false_eq_true, if_false] at hfold
    rw [exit_super_macroblock_top s h hnr]
    generalize List.foldl (fillFrameFromTopStep (s.mb_y * 16) (s.mb_x * 16) (s.mb_y * 8)) s
      (loopPairs 16 16) = r at hfold ⊢
    obtain ⟨htop, hbot, hcell⟩ := hfold
    refine ⟨htop, hbot, fun c => ⟨?_, ?_⟩⟩
    · intro t h1 h2 h3 h4
      have := (hcell (2 * t) c).1 ((t - s.mb_y * 8).toNat, (c - s.mb_x * 16).toNat)
        ((mem_loopPairs 16 16 _).2 ⟨by simp only []; omega, by simp only []; omega⟩)
        (by simp only []; omega) (by simp only []; omega)
      simp only [] at this
      rw [this]
      congr 1
      omega
    · intro p hno
      apply (hcell p c).2
      rintro ⟨ij, hij, hp, hq⟩
      rw [mem_loopPairs] at hij
      exact hno ⟨s.mb_y * 8 + (ij.1 : Int), by omega, by omega, by omega, by omega, by omega⟩
  · intro h hnr hy
    have hfold := fillFrame_fold (s.mb_y * 16 - 15) (s.mb_x * 16) (s.mb_y * 8 - 8) true
      (loopPairs 16 16) s
    simp only [if_true] at hfold
    rw [exit_super_macroblock_bot s h hnr]
    generalize List.foldl (fillFrameFromBotStep (s.mb_y * 16 - 15) (s.mb_x * 16)
      (s.mb_y * 8 - 8)) s (loopPairs 16 16) = r at hfold ⊢
    obtain ⟨htop, hbot, hcell⟩ := hfold
    refine ⟨htop, hbot, fun c => ⟨?_, ?_⟩⟩
    · intro t h1 h2 h3 h4
      have := (hcell (2 * t + 1) c).1 ((t - (s.mb_y * 8 - 8)).toNat, (c - s.mb_x * 16).toNat)
        ((mem_loopPairs 16 16 _).2 ⟨by simp only []; omega, by simp only []; omega⟩)
        (by simp only []; omega) (by simp only []; omega)
      simp only [] at this
      rw [this]
      congr 1
      omega
    · intro p hno
      apply (hcell p c).2
      rintro ⟨ij, hij, hp, hq⟩
      rw [mem_loopPairs] at hij
      exact hno ⟨s.mb_y * 8 - 8 + (ij.1 : Int), by omega, by omega, by omega, by omega,
        by omega⟩

/-- Witness for C31 at `mb_x = 1`: the frame-coded macroblock with `mb_y = 1`
copies frame rows 18 and 19 to row 9 of the top and the bottom field and leaves
column 32 alone; the field-coded macroblocks of pair 1 copy top-field row 17 to
frame row 34 (address 4, `mb_y = 2`, frame row 35 untouched) and bottom-field
row 17 to frame row 35 (address 5, `mb_y = 3`, frame row 34 untouched). -/
theorem exit_super_macroblock_rows_witness :
    ((exit_super_macroblock (exSuperMB 0 4 1)).imgY_top 9 20 = 2820 ∧
     (exit_super_macroblock (exSuperMB 0 4 1)).imgY_bot 9 20 = 2920 ∧
     (exit_super_macroblock (exSuperMB 0 4 1)).imgY_top 9 32 = 20932) ∧
    ((exit_super_macroblock (exSuperMB 1 4 2)).imgY_frm 34 20 = 21720 ∧
     (exit_super_macroblock (exSuperMB 1 4 2)).imgY_frm 35 20 = 4520) ∧
    ((exit_super_macroblock (exSuperMB 1 5 3)).imgY_frm 35 20 = 31720 ∧
     (exit_super_macroblock (exSuperMB 1 5 3)).imgY_frm 34 20 = 4420) := by
  obtain ⟨_, _, hf, _, _⟩ := exit_super_macroblock_rows (exSuperMB 0 4 1) 0
  obtain ⟨_, _, _, ht, _⟩ := exit_super_macroblock_rows (exSuperMB 1 4 2) 1
  obtain ⟨_, _, _, _, hb⟩ := exit_super_macroblock_rows (exSuperMB 1 5 3) 1
  obtain ⟨_, hfc⟩ := hf rfl rfl
  obtain ⟨_, _, htc⟩ := ht (by decide) (by decide) (by decide)
  obtain ⟨_, _, hbc⟩ := hb (by decide) (by decide) (by decide)
  obtain ⟨f1, f2⟩ := (hfc 9 20).1 (by decide) (by decide) (by decide) (by decide)
  obtain ⟨f3, _⟩ := (hfc 9 32).2 (by decide)
  have t1 := (htc 20).1 17 (by decide) (by decide) (by decide) (by decide)
  have t2 := (htc 20).2 35 (by
    rintro ⟨t, _, _, h, _⟩
    omega)
  have b1 := (hbc 20).1 17 (by decide) (by decide) (by decide) (by decide)
  have b2 := (hbc 20).2 34 (by
    rintro ⟨t, _, _, h, _⟩
    omega)
  exact ⟨⟨f1, f2, f3⟩, ⟨t1, t2⟩, ⟨b1, b2⟩⟩

/-! ## The refresh cycle while the cursor is in range -/

/-- The forced-intra set after `k >= 1` pictures while the cursor stays inside
the 32-bit range: the pattern read at `(k*r + j) mod N`, `j < r`. -/
theorem forcedSet_iterate_of_range (s : IntraRefresh) (n r k : Nat)
    (hN : s.NumberOfMBs = n) (hr : s.NumberIntraPerPicture = r) (hW : s.WalkAround = 0)
    (hn : 1 ≤ n) (hk : 1 ≤ k) (hb : (k + 1) * r < 2147483648) :
    forcedSet (Nat.iterate RandomIntraNewPicture k s) =
      (List.range r).map (fun j : Nat => s.RefreshPattern (((k * r + j) % n : Nat) : Int)) := by
  rw [forcedSet_iterate k hk s (by rw [hW]; decide), hW, hN, hr, Int.toNat_ofNat]
  apply List.map_congr_left
  intro j hj
  rw [List.mem_range] at hj
  have hb2 : ((k : Int) + 1) * (r : Int) < 2147483648 := by exact_mod_cast hb
  have hexp : ((k : Int) + 1) * (r : Int) = (k : Int) * r + r := by ring
  rw [hexp] at hb2
  have hkr : (0 : Int) ≤ (k : Int) * r := by positivity
  clear hb hexp
  have hin : wrap32 ((k : Int) * r) = (k : Int) * r := wrap32_of_range _ (by omega) (by omega)
  rw [zero_add, hin, wrap32_of_range _ (by omega) (by omega),
    Int.tmod_eq_emod (by omega) (by omega)]
  congr 1

/-- While the cursor stays inside the 32-bit range the forced-intra sets repeat
after `N / gcd (N, r)` pictures. -/
theorem forcedSet_period (s : IntraRefresh) (n r k : Nat)
    (hN : s.NumberOfMBs = n) (hr : s.NumberIntraPerPicture = r) (hW : s.WalkAround = 0)
    (hn : 1 ≤ n) (hk : 1 ≤ k) (hb : (k + n / Nat.gcd n r + 1) * r < 2147483648) :
    forcedSet (Nat.iterate RandomIntraNewPicture (k + n / Nat.gcd n r) s)
      = forcedSet (Nat.iterate RandomIntraNewPicture k s) := by
  have hle : (k + 1) * r ≤ (k + n / Nat.gcd n r + 1) * r :=
    Nat.mul_le_mul_right r (Nat.add_le_add_right (Nat.le_add_right k _) 1)
  have hb1 : (k + 1) * r < 2147483648 := lt_of_le_of_lt hle hb
  have hk2 : 1 ≤ k + n / Nat.gcd n r := le_trans hk (Nat.le_add_right k _)
  rw [forcedSet_iterate_of_range s n r (k + n / Nat.gcd n r) hN hr hW hn hk2 hb,
    forcedSet_iterate_of_range s n r k hN hr hW hn hk hb1]
  clear hb hle hb1
  apply List.map_congr_left
  intro j _
  obtain ⟨a, ha⟩ := Nat.gcd_dvd_left n r
  obtain ⟨b, hb'⟩ := Nat.gcd_dvd_right n r
  have hg : 0 < Nat.gcd n r := Nat.gcd_pos_of_pos_left r hn
  have hdiv : n / Nat.gcd n r = a := by
    conv_lhs => lhs; rw [ha]
    exact Nat.mul_div_cancel_left a hg
  have hmul : n / Nat.gcd n r * r = n * b := by
    rw [hdiv]
    conv_lhs => rw [hb']
    conv_rhs => lhs; rw [ha]
    ring
  have : (k + n / Nat.gcd n r) * r + j = k * r + j + n * b := by
    rw [Nat.add_mul, hmul]
    ring
  rw [this, Nat.add_mul_mod_self_left]

/-- Among `N` consecutive pictures of `r <= N` consecutive indices each,
starting at any offset `A`, exactly `r` pictures hold an index congruent to a
given residue `p0`. -/
theorem count_pictures (n r A p0 : Nat) (hr1 : 1 ≤ r) (hrn : r ≤ n) (hp : p0 < n) :
    ((Finset.range n).filter (fun d => ∃ j, j < r ∧ (A + d * r + j) % n = p0)).card = r := by
  have hn : 0 < n := by omega
  -- the least offset that hits the residue
  obtain ⟨u, hu, huhit⟩ : ∃ u, u < n ∧ ∀ x, (A + x) % n = p0 ↔ x % n = u := by
    refine ⟨(p0 + (n - A % n)) % n, Nat.mod_lt _ hn, ?_⟩
    intro x
    have hA : A % n < n := Nat.mod_lt _ hn
    have key : (A + (p0 + (n - A % n))) % n = p0 := by
      have : A + (p0 + (n - A % n)) = p0 + n * (A / n + 1) := by
        have := Nat.div_add_mod A n
        have h2 : n * (A / n + 1) = n * (A / n) + n := by ring
        omega
      rw [this, Nat.add_mul_mod_self_left, Nat.mod_eq_of_lt hp]
    constructor
    · intro h
      have h1 : (A + x) % n = (A + (p0 + (n - A % n))) % n := by rw [h, key]
      have h2 : x ≡ p0 + (n - A % n) [MOD n] := Nat.ModEq.add_left_cancel' A h1
      exact h2
    · intro h
      have h2 : x ≡ p0 + (n - A % n) [MOD n] := by
        unfold Nat.ModEq
        exact h
      have h1 : (A + x) % n = (A + (p0 + (n - A % n))) % n := Nat.ModEq.add_left A h2
      rw [h1, key]
  have hset : (Finset.range n).filter (fun d => ∃ j, j < r ∧ (A + d * r + j) % n = p0)
      = (Finset.range r).image (fun m => (u + m * n) / r) := by
    ext d
    simp only [Finset.mem_filter, Finset.mem_range, Finset.mem_image]
    constructor
    · rintro ⟨hd, j, hj, hhit⟩
      rw [Nat.add_assoc, huhit] at hhit
      have hx : d * r + j < r * n := by
        have : d * r + r ≤ n * r := by
          have := Nat.mul_le_mul_right r (show d + 1 ≤ n by omega)
          rw [Nat.add_mul, Nat.one_mul] at this
          exact this
        rw [Nat.mul_comm r n]
        omega
      refine ⟨(d * r + j) / n, (Nat.div_lt_iff_lt_mul hn).2 hx, ?_⟩
      have hdecomp : u + (d * r + j) / n * n = d * r + j := by
        have := Nat.mod_add_div (d * r + j) n
        rw [hhit] at this
        rw [Nat.mul_comm]
        exact this
      rw [hdecomp, Nat.mul_comm d r, Nat.mul_add_div (by omega), Nat.div_eq_of_lt hj,
        Nat.add_zero]
    · rintro ⟨m, hm, rfl⟩
      have hx : u + m * n < n * r := by
        have : m * n + n ≤ r * n := by
          have := Nat.mul_le_mul_right n (show m + 1 ≤ r by omega)
          rw [Nat.add_mul, Nat.one_mul] at this
          exact this
        rw [Nat.mul_comm n r]
        omega
      refine ⟨(Nat.div_lt_iff_lt_mul (by omega)).2 hx, (u + m * n) % r,
        Nat.mod_lt _ (by omega), ?_⟩
      rw [Nat.add_assoc, huhit, Nat.mul_comm _ r, Nat.div_add_mod, Nat.add_mul_mod_self_right,
        Nat.mod_eq_of_lt hu]
  rw [hset, Finset.card_image_of_injOn, Finset.card_range]
  intro m1 _ m2 _ heq
  simp only at heq
  by_contra hne
  rcases Nat.lt_or_gt_of_ne hne with hlt | hgt
  · have h1 : u + m1 * n + r ≤ u + m2 * n := by
      have := Nat.mul_le_mul_right n (show m1 + 1 ≤ m2 by omega)
      rw [Nat.add_mul, Nat.one_mul] at this
      omega
    have h2 : (u + m1 * n) / r + 1 ≤ (u + m2 * n) / r := by
      rw [← Nat.add_div_right _ (by omega : 0 < r)]
      exact Nat.div_le_div_right h1
    omega
  · have h1 : u + m2 * n + r ≤ u + m1 * n := by
      have := Nat.mul_le_mul_right n (show m2 + 1 ≤ m1 by omega)
      rw [Nat.add_mul, Nat.one_mul] at this
      omega
    have h2 : (u + m2 * n) / r + 1 ≤ (u + m1 * n) / r := by
      rw [← Nat.add_div_right _ (by omega : 0 < r)]
      exact Nat.div_le_div_right h1
    omega

/-- While the cursor stays inside the 32-bit range, the macroblock stored at
pattern position `p0` is forced in exactly `r` of the `N` consecutive pictures
`k+1 .. k+N`, for an injective pattern and `1 <= r <= N`. -/
theorem RandomIntra_refresh_count (s : IntraRefresh) (n r k p0 : Nat)
    (hN : s.NumberOfMBs = n) (hr : s.NumberIntraPerPicture = r) (hW : s.WalkAround = 0)
    (hr1 : 1 ≤ r) (hrn : r ≤ n) (hp : p0 < n)
    (hinj : ∀ a b : Nat, a < n → b < n →
      s.RefreshPattern (a : Int) = s.RefreshPattern (b : Int) → a = b)
    (hb : (k + n + 1) * r < 2147483648) :
    ((Finset.range n).filter (fun d =>
      RandomIntra (Nat.iterate RandomIntraNewPicture (k + 1 + d) s)
        (s.RefreshPattern (p0 : Int)) = 1)).card = r := by
  have hn : 1 ≤ n := le_trans hr1 hrn
  rw [← count_pictures n r ((k + 1) * r) p0 hr1 hrn hp]
  congr 1
  apply Finset.filter_congr
  intro d hd
  rw [Finset.mem_range] at hd
  have hle : (k + 1 + d + 1) * r ≤ (k + n + 1) * r :=
    Nat.mul_le_mul_right r (by omega)
  have hb1 : (k + 1 + d + 1) * r < 2147483648 := lt_of_le_of_lt hle hb
  rw [(RandomIntra_eq _ _).1,
    forcedSet_iterate_of_range s n r (k + 1 + d) hN hr hW hn (by omega) hb1, List.mem_map]
  clear hb hle hb1
  have hidx : ∀ j, (k + 1 + d) * r + j = (k + 1) * r + d * r + j := by
    intro j
    ring
  constructor
  · rintro ⟨j, hj, heq⟩
    rw [List.mem_range] at hj
    refine ⟨j, hj, ?_⟩
    rw [← hidx]
    exact hinj _ _ (Nat.mod_lt _ (by omega)) hp heq
  · rintro ⟨j, hj, heq⟩
    refine ⟨j, List.mem_range.mpr hj, ?_⟩
    rw [hidx, heq]

/-- The refresh cycle before the cursor overflows: after `RandomIntraInit` for `N` macroblocks
and refresh rate `r`, `1 <= r <= N`, on a module state with cursor 0, and while
`(k + N + 1) * r < 2^31`, every macroblock `0 <= mb < N` is forced in exactly
`r` of the `N` consecutive pictures `k+1 .. k+N`, and the forced-intra sets
repeat after `N / gcd (N, r)` pictures. -/
theorem RandomIntra_refresh_cycle (rnd : Nat → Nat) (fuel : Nat) (s0 s : IntraRefresh)
    (memPattern memIntra : Int → Int) (xsize ysize : Int) (n r k : Nat)
    (hxy : xsize * ysize = n) (hs0 : s0.WalkAround = 0)
    (hinit : RandomIntraInit rnd fuel s0 memPattern memIntra xsize ysize r = some s)
    (hr1 : 1 ≤ r) (hrn : r ≤ n) (hb : (k + n + 1) * r < 2147483648) :
    (∀ mb : Int, 0 ≤ mb → mb < n →
      ((Finset.range n).filter (fun d =>
        RandomIntra (Nat.iterate RandomIntraNewPicture (k + 1 + d) s) mb = 1)).card = r) ∧
    (1 ≤ k →
      forcedSet (Nat.iterate RandomIntraNewPicture (k + n / Nat.gcd n r) s)
        = forcedSet (Nat.iterate RandomIntraNewPicture k s)) := by
  have hn : 1 ≤ n := le_trans hr1 hrn
  have hnr : n ≤ n * r := Nat.le_mul_of_pos_right n hr1
  have hnb : n * r ≤ (k + n + 1) * r := Nat.mul_le_mul_right r (by omega)
  have hsize : (n : Int) < 2147483648 := by
    have : n < 2147483648 := lt_of_le_of_lt (le_trans hnr hnb) hb
    exact_mod_cast this
  obtain ⟨hN, hr, hW, _, hinv⟩ := RandomIntraInit_some rnd fuel s0 memPattern memIntra
    xsize ysize r s (by rw [hxy]; exact_mod_cast hn) (by rw [hxy]; exact hsize) hinit
  rw [hxy] at hN hinv
  rw [hs0] at hW
  obtain ⟨_, honto, hinj⟩ := patternInv_full _ _ hinv
  constructor
  · intro mb h0 h1
    obtain ⟨p, hp0, hp1, hpm⟩ := honto mb h0 h1
    have hp : p.toNat < n := by omega
    have hcast : ((p.toNat : Nat) : Int) = p := Int.toNat_of_nonneg hp0
    rw [← hpm, ← hcast]
    refine RandomIntra_refresh_count s n r k p.toNat hN hr hW hr1 hrn hp ?_ hb
    intro a b ha hb' heq
    have := hinj a b (by omega) (by omega) (by omega) (by omega) heq
    exact_mod_cast this
  · intro hk
    have hdiv : n / Nat.gcd n r ≤ n := Nat.div_le_self _ _
    have hle : (k + n / Nat.gcd n r + 1) * r ≤ (k + n + 1) * r :=
      Nat.mul_le_mul_right r (by omega)
    exact forcedSet_period s n r k hN hr hW hn hk (lt_of_le_of_lt hle hb)

end JM
